import Mathlib

/-!
Hermes: URL validation and tab linking

A shallow embedding of the URL validator (`validateWebPage`, `getVanityUrl`) and of the
tab-link operations of `Hermes/scripts/bg.js` and `Hermes/scripts/main.js`, with the
properties proved about them.

JavaScript strings are embedded as Lean strings. Every pattern the code searches for is
ASCII, so searching by code point agrees with searching by UTF-16 code unit.

The platform is explicit in the arguments of the operations: `parseURL` is the constructor
`new URL(...)`, `tabsGet` is `chrome.tabs.get`, `now` is the clock reading of the call, and
the session store `chrome.storage.session` is passed in and returned. Reads and writes of
the store are taken to succeed. A call that throws (an `async` function whose promise
rejects) returns the value thrown next to the store it leaves behind.
-/

namespace Hermes

/-! ## String primitives -/

/-- Substring search on character lists: does `pat` occur in `s` as a contiguous block? -/
def includesChars : List Char → List Char → Bool
  | [], pat => pat.isEmpty
  | c :: cs, pat => pat.isPrefixOf (c :: cs) || includesChars cs pat

/-- The method `String.prototype.includes(pat)`. -/
def includes (s pat : String) : Bool :=
  includesChars s.toList pat.toList

/-- Replace the first occurrence of `pat` by `rep`; a list without an occurrence is kept. -/
def replaceChars : List Char → List Char → List Char → List Char
  | [], pat, rep => if pat.isEmpty then rep else []
  | c :: cs, pat, rep =>
    if pat.isPrefixOf (c :: cs) then rep ++ (c :: cs).drop pat.length
    else c :: replaceChars cs pat rep

/-- The method `String.prototype.replace(pat, rep)` for a string pattern `pat` and a
replacement `rep` without `$`: only the first occurrence is replaced. -/
def replace (s pat rep : String) : String :=
  String.mk (replaceChars s.toList pat.toList rep.toList)

/-- Canonical form of a character under the regular-expression flag `i` (without `u`):
ASCII letters are upper-cased; a non-ASCII character never canonicalises to an ASCII one. -/
def canonicalize (c : Char) : Char := c.toUpper

/-- The method `RegExp.prototype.test` for a case-insensitive regular expression that
consists of literal characters only: `lit` occurs in `s` up to letter case. -/
def testLiteralIgnoreCase (lit s : String) : Bool :=
  includesChars (s.toList.map canonicalize) (lit.toList.map canonicalize)

/-! ## URL validator (`validateWebPage`) -/

/-- A pattern of the `invalidPatterns` table: a plain string, or a regular expression. -/
inductive Pattern where
  /-- Entry with `typeof pattern === 'string'`, searched with `url.includes`. -/
  | str (s : String)
  /-- Entry `/lit/i` whose source `lit` is a literal (all metacharacters escaped),
  matched with `pattern.test(url)`. -/
  | regexIgnoreCase (lit : String)
deriving DecidableEq, Repr

/-- The result object `{ valid, message }` of `validateWebPage`. -/
structure Validation where
  valid : Bool
  message : String
deriving DecidableEq, Repr

/-- The table `invalidPatterns` of `validateWebPage`, in source order. The third entry is
the regular expression `/:\/\/adp-developer\.mykronos\.com\//i`. -/
def invalidPatterns : List (Pattern × String) :=
  [ (Pattern.str "mykronos.com/authn/", "Invalid Login - Authentication Required"),
    (Pattern.str "mykronos.com/wfd/unauthorized", "Invalid Login - Unauthorized Access"),
    (Pattern.regexIgnoreCase "://adp-developer.mykronos.com/",
      "Developer Portal not supported for API session") ]

/-- The loop condition
`typeof pattern === 'string' ? url.includes(pattern) : pattern.test(url)`. -/
def patternMatches (url : String) : Pattern → Bool
  | Pattern.str s => includes url s
  | Pattern.regexIgnoreCase lit => testLiteralIgnoreCase lit url

/-- The loop `for (const { pattern, message } of invalidPatterns)`: the first entry that
matches returns its message as a rejection. -/
def firstInvalid (url : String) : List (Pattern × String) → Option Validation
  | [] => none
  | (pattern, message) :: rest =>
    if patternMatches url pattern then some { valid := false, message := message }
    else firstInvalid url rest

/-- The function `validateWebPage(url)` of `bg.js` and `main.js` (the two copies are
identical). -/
def validateWebPage (url : String) : Validation :=
  if !includes url "mykronos.com" then { valid := false, message := "Invalid Domain" }
  else
    match firstInvalid url invalidPatterns with
    | some rejection => rejection
    | none => { valid := true, message := "Valid" }

/-! ## Canonical origin (`getVanityUrl`) -/

/-- The fields of a platform `URL` object that the code reads. -/
structure URL where
  /-- Field `url.protocol`: the scheme followed by a colon, such as `https:`. -/
  protocol : String
  /-- Field `url.hostname`: the host without port. -/
  hostname : String
  /-- Field `url.origin`. -/
  origin : String
deriving DecidableEq, Repr

/-- A value thrown by a call. -/
inductive Thrown where
  /-- Statement `throw new Error(message)`. -/
  | error (message : String)
  /-- A `TypeError` raised by the platform: `new URL(s)` for a string that is not a URL,
  or a property read on `undefined`. -/
  | typeError
deriving DecidableEq, Repr

/-- The block of `getVanityUrl` that reassigns `hostname` ("SSO URL adjustments"). -/
def rewriteHostname (hostname : String) : String :=
  if includes hostname ".mykronos.com" && !includes hostname "-nosso" then
    if includes hostname ".prd.mykronos.com" then
      replace hostname ".prd.mykronos.com" "-nosso.prd.mykronos.com"
    else if includes hostname ".npr.mykronos.com" then
      replace hostname ".npr.mykronos.com" "-nosso.npr.mykronos.com"
    else hostname
  else hostname

/-- The function `getVanityUrl(tabUrl)` of `bg.js` and `main.js` (identical copies). The
platform constructor `new URL(...)` is the parameter `parseURL`; `none` stands for the
`TypeError` it throws on a string that is not a URL. -/
def getVanityUrl (parseURL : String → Option URL) (tabUrl : String) : Except Thrown String :=
  match parseURL tabUrl with
  | none => Except.error Thrown.typeError
  | some url => Except.ok (url.protocol ++ "//" ++ rewriteHostname url.hostname ++ "/")

/-! ### A reference URL parser

An executable instance of the platform parser for `http` and `https` URLs of the plain shape
`scheme://host[:port][/path][?query][#fragment]`, used to evaluate the code at concrete
URLs. -/

/-- Characters allowed in the host of a plain URL. -/
def isHostChar (c : Char) : Bool :=
  c.isAlphanum || c == '-' || c == '.'

/-- The URL object for a scheme, a host and a port text that are already split off and
lower-cased: the host must be a non-empty plain host and the port a number; the default
port is omitted from the origin. -/
def referenceURL (scheme host port : List Char) : Option URL :=
  if host.isEmpty || !host.all isHostChar || !port.all Char.isDigit then none
  else
    let isDefault := port.isEmpty || (scheme == "https".toList && port == "443".toList)
      || (scheme == "http".toList && port == "80".toList)
    let protocol := String.mk scheme ++ ":"
    some { protocol := protocol
           hostname := String.mk host
           origin := protocol ++ "//" ++ String.mk host
             ++ (if isDefault then "" else ":" ++ String.mk port) }

/-- Reference parser: splits `scheme://host[:port]...` and lower-cases scheme and host. -/
def referenceParseURL (s : String) : Option URL :=
  let cs := s.toList
  let scheme := (cs.takeWhile (fun c => c != ':')).map Char.toLower
  let rest := cs.dropWhile (fun c => c != ':')
  if (scheme == "http".toList || scheme == "https".toList) && "://".toList.isPrefixOf rest then
    let authority := (rest.drop 3).takeWhile (fun c => c != '/' && c != '?' && c != '#')
    referenceURL scheme ((authority.takeWhile (fun c => c != ':')).map Char.toLower)
      ((authority.dropWhile (fun c => c != ':')).drop 1)
  else none

/-! ## Session link state -/

/-- The keys of `chrome.storage.session` that the code reads and writes. `none` stands for
a key that is absent or holds `null`. -/
structure Session where
  hermesLinkedTabId : Option Int
  hermesLinkedWindowId : Option Int
  hermesLinkedUrl : Option String
  hermesLinkedOrigin : Option String
  hermesLinkedTitle : Option String
  hermesLinkedStatus : Option String
  /-- Clock reading of the last write; the code stores it as an ISO string. -/
  hermesLastValidation : Option Nat
  hermesValidationMessage : Option String
  hermesGlobalOpen : Option Bool
deriving DecidableEq, Repr

/-- The session store of a fresh browser session: no key is set. -/
def Session.empty : Session :=
  { hermesLinkedTabId := none, hermesLinkedWindowId := none, hermesLinkedUrl := none
    hermesLinkedOrigin := none, hermesLinkedTitle := none, hermesLinkedStatus := none
    hermesLastValidation := none, hermesValidationMessage := none, hermesGlobalOpen := none }

/-- A browser tab as the code sees it. Every field is optional in the platform type
(`none` is `undefined`); a missing tab object behaves under `tab?.field` like a tab with
no fields. -/
structure Tab where
  id : Option Int
  windowId : Option Int
  url : Option String
  title : Option String
deriving DecidableEq, Repr

/-- The `changeInfo` argument of `chrome.tabs.onUpdated`. -/
structure ChangeInfo where
  url : Option String
  title : Option String
deriving DecidableEq, Repr

/-- The store after a call, and the value the call threw (its promise rejected), if any. -/
structure Outcome where
  session : Session
  thrown : Option Thrown
deriving DecidableEq, Repr

/-- Writing a possibly `undefined` value with `chrome.storage.session.set`: a property
whose value is `undefined` is not written, so the stored value stays. -/
def storeDefined {α : Type} (value stored : Option α) : Option α :=
  match value with
  | some v => some v
  | none => stored

/-- The expression `title || ''`. -/
def titleOrEmpty (title : Option String) : String :=
  title.getD ""

/-- Truthiness of a possibly missing number: it is present and not zero. -/
def truthyId (id : Option Int) : Bool :=
  match id with
  | some i => i != 0
  | none => false

/-- Truthiness of a possibly missing string: it is present and not empty. -/
def truthyString (s : Option String) : Bool :=
  match s with
  | some v => v != ""
  | none => false

/-! ### Background script (`bg.js`) -/

/-- The function `setLinkedContext(tab)` of `bg.js`. `now` is the clock reading. -/
def setLinkedContext (parseURL : String → Option URL) (now : Nat) (tab : Tab)
    (s : Session) : Outcome :=
  if !truthyId tab.id then { session := s, thrown := none }
  else
    match tab.url with
    | none => { session := s, thrown := some Thrown.typeError }
    | some url =>
      let validation := validateWebPage url
      if !validation.valid then { session := s, thrown := none }
      else
        match getVanityUrl parseURL url with
        | Except.error e => { session := s, thrown := some e }
        | Except.ok origin =>
          { session :=
              { s with
                hermesLinkedTabId := tab.id
                hermesLinkedWindowId := storeDefined tab.windowId s.hermesLinkedWindowId
                hermesLinkedUrl := some url
                hermesLinkedOrigin := some origin
                hermesLinkedTitle := some (titleOrEmpty tab.title)
                hermesLinkedStatus := some "ok"
                hermesLastValidation := some now
                hermesValidationMessage := some validation.message }
            thrown := none }

/-- The function `clearLinkedContext(reason)` of `bg.js`. -/
def clearLinkedContext (now : Nat) (reason : String) (s : Session) : Session :=
  { s with
    hermesLinkedTabId := none
    hermesLinkedWindowId := none
    hermesLinkedUrl := none
    hermesLinkedOrigin := none
    hermesLinkedTitle := some ""
    hermesLinkedStatus := some reason
    hermesLastValidation := some now
    hermesValidationMessage :=
      some (if reason = "closed" then "Linked tab was closed" else "Session needs attention") }

/-- The function `handleHermesOpen(tab)` of `bg.js`. `panel` is the error with which one of
the side-panel calls rejects, if any; these calls write nothing to the session store. -/
def handleHermesOpen (parseURL : String → Option URL) (now : Nat) (panel : Option Thrown)
    (tab : Tab) (s : Session) : Outcome :=
  match panel with
  | some e => { session := s, thrown := some e }
  | none =>
    let s1 := { s with hermesGlobalOpen := some true }
    match tab.url with
    | none => { session := s1, thrown := none }
    | some url =>
      let validation := validateWebPage url
      if validation.valid then
        { session := (setLinkedContext parseURL now tab s1).session, thrown := none }
      else
        { session :=
            { s1 with
              hermesLinkedStatus := some "stale"
              hermesValidationMessage := some validation.message }
          thrown := none }

/-- The last step of `handleTabUpdate`: `if (changeInfo.title) ...`. -/
def updateLinkedTitle (now : Nat) (changeInfo : ChangeInfo) (s : Session) : Session :=
  if truthyString changeInfo.title then
    { s with hermesLinkedTitle := changeInfo.title, hermesLastValidation := some now }
  else s

/-- The function `handleTabUpdate(tabId, changeInfo, tab)` of `bg.js`: its second `try`
block (the first only sets side-panel options). An error thrown inside the block is caught
and ends it. -/
def handleTabUpdate (parseURL : String → Option URL) (now : Nat) (tabId : Int)
    (changeInfo : ChangeInfo) (tab : Tab) (s : Session) : Session :=
  if !truthyId s.hermesLinkedTabId || some tabId != s.hermesLinkedTabId then s
  else
    match changeInfo.url with
    | none => updateLinkedTitle now changeInfo s
    | some url =>
      if url == "" then updateLinkedTitle now changeInfo s
      else
        let validation := validateWebPage url
        if validation.valid then
          let linked := setLinkedContext parseURL now
            { id := some tabId, windowId := tab.windowId, url := some url, title := tab.title } s
          match linked.thrown with
          | some _ => linked.session
          | none => updateLinkedTitle now changeInfo linked.session
        else
          updateLinkedTitle now changeInfo
            { s with
              hermesLinkedStatus := some "stale"
              hermesLinkedUrl := some url
              hermesLastValidation := some now
              hermesValidationMessage := some validation.message }

/-- The function `handleTabRemoved(tabId)` of `bg.js`. -/
def handleTabRemoved (now : Nat) (tabId : Int) (s : Session) : Session :=
  if truthyId s.hermesLinkedTabId && some tabId == s.hermesLinkedTabId then
    clearLinkedContext now "closed" s
  else s

/-! ### Side panel (`main.js`, `HermesLink`) -/

/-- The result object of `validateSession`. -/
structure SessionCheck where
  ok : Bool
  code : String
  message : Option String
  validation : Option Validation
deriving DecidableEq, Repr

/-- The helper `updateLinkedState(newState)` for the two keys that revalidation writes,
together with the timestamp it always adds. -/
def updateLinkedStatus (now : Nat) (status message : String) (s : Session) : Session :=
  { s with
    hermesLinkedStatus := some status
    hermesValidationMessage := some message
    hermesLastValidation := some now }

/-- The function `validateSession()` of `HermesLink`. `tabsGet` is the platform lookup
`chrome.tabs.get(id).catch(() => null)`: `none` when no tab has that id. -/
def validateSession (now : Nat) (tabsGet : Int → Option Tab) (s : Session) :
    Session × SessionCheck :=
  if !truthyString s.hermesLinkedUrl || !truthyId s.hermesLinkedTabId then
    (s, { ok := false, code := "nolink", message := some "No linked session found"
          validation := none })
  else
    match s.hermesLinkedTabId.bind tabsGet with
    | none =>
      (updateLinkedStatus now "stale" "Linked tab was closed" s,
        { ok := false, code := "closed", message := some "Linked tab was closed"
          validation := none })
    | some tab =>
      match tab.url with
      | none =>
        (updateLinkedStatus now "stale" "Unable to verify session" s,
          { ok := false, code := "error", message := some "Session check failed"
            validation := none })
      | some url =>
        let validation := validateWebPage url
        if !validation.valid then
          (updateLinkedStatus now "stale" validation.message s,
            { ok := false, code := "invalid", message := none, validation := some validation })
        else
          (updateLinkedStatus now "ok" "Session active" s,
            { ok := true, code := "ok", message := none, validation := some validation })

/-- The method `core.validateAndUpdateState()`: a call made while the latch
`state.checkingState` is set returns at once; otherwise it runs `validateSession` (the
user-interface refresh that follows reads the store and writes nothing to it). -/
def validateAndUpdateState (now : Nat) (tabsGet : Int → Option Tab) (checkingState : Bool)
    (s : Session) : Session × Option SessionCheck :=
  if checkingState then (s, none)
  else
    let checked := validateSession now tabsGet s
    (checked.1, some checked.2)

/-- The method `HermesLink.relinkToCurrentTab(tab)`. -/
def relinkToCurrentTab (parseURL : String → Option URL) (now : Nat)
    (tabsGet : Int → Option Tab) (checkingState : Bool) (tab : Tab) (s : Session) : Outcome :=
  match tab.url with
  | none => { session := s, thrown := some (Thrown.error "No active tab") }
  | some url =>
    if url == "" then { session := s, thrown := some (Thrown.error "No active tab") }
    else
      let validation := validateWebPage url
      if !validation.valid then
        { session := s, thrown := some (Thrown.error validation.message) }
      else
        match parseURL url with
        | none => { session := s, thrown := some Thrown.typeError }
        | some parsed =>
          let linked : Session :=
            { s with
              hermesLinkedTabId := storeDefined tab.id s.hermesLinkedTabId
              hermesLinkedWindowId := storeDefined tab.windowId s.hermesLinkedWindowId
              hermesLinkedUrl := some url
              hermesLinkedOrigin := some parsed.origin
              hermesLinkedTitle := some (titleOrEmpty tab.title)
              hermesLinkedStatus := some "ok"
              hermesValidationMessage := some "Successfully linked to current tab"
              hermesLastValidation := some now }
          { session := (validateAndUpdateState now tabsGet checkingState linked).1
            thrown := none }

/-- The method `HermesLink.getBaseUrl()`. -/
def getBaseUrl (s : Session) : Option String :=
  if s.hermesLinkedStatus = some "ok" then s.hermesLinkedOrigin else none

/-- How an asynchronous call ends: it resolves with a value, or it never settles (an
exception inside a platform callback leaves its promise pending). -/
inductive Settled (α : Type) where
  | resolved (value : α)
  | pending
deriving DecidableEq, Repr

/-- The expression `vanityUrl || null`. -/
def orNull (vanityUrl : String) : Option String :=
  if vanityUrl == "" then none else some vanityUrl

/-- The fallback of `getClientUrl`: the callback of
`chrome.tabs.query({ active: true, currentWindow: true }, ...)` applied to its result. -/
def clientUrlFromActiveTab (parseURL : String → Option URL) (tabs : List Tab) :
    Settled (Option String) :=
  match tabs with
  | [] => Settled.resolved none
  | tab :: _ =>
    match tab.url with
    | none => Settled.pending
    | some tabUrl =>
      if !(validateWebPage tabUrl).valid then Settled.resolved none
      else
        match getVanityUrl parseURL tabUrl with
        | Except.error _ => Settled.pending
        | Except.ok vanityUrl => Settled.resolved (orNull vanityUrl)

/-- The function `getClientUrl()` of `main.js`: the linked origin first, then the active
tab. Every exception inside the first part is caught and leads to the fallback. -/
def getClientUrl (parseURL : String → Option URL) (s : Session) (tabs : List Tab) :
    Settled (Option String) :=
  match getBaseUrl s with
  | none => clientUrlFromActiveTab parseURL tabs
  | some linkedBase =>
    if linkedBase != "" && (validateWebPage linkedBase).valid then
      match getVanityUrl parseURL linkedBase with
      | Except.error _ => clientUrlFromActiveTab parseURL tabs
      | Except.ok vanityUrl => Settled.resolved (orNull vanityUrl)
    else clientUrlFromActiveTab parseURL tabs

/-! ### Sequences of link operations -/

/-- One call of a link operation, with its arguments and the platform's answers. -/
inductive LinkOp where
  | setLinkedContext (now : Nat) (tab : Tab)
  | clearLinkedContextClosed (now : Nat)
  | handleHermesOpen (now : Nat) (panel : Option Thrown) (tab : Tab)
  | handleTabUpdate (now : Nat) (tabId : Int) (changeInfo : ChangeInfo) (tab : Tab)
  | handleTabRemoved (now : Nat) (tabId : Int)
  | validateSession (now : Nat) (tabsGet : Int → Option Tab)
  | relinkToCurrentTab (now : Nat) (tabsGet : Int → Option Tab) (checkingState : Bool)
      (tab : Tab)

/-- The session store after one link operation. -/
def LinkOp.run (parseURL : String → Option URL) (op : LinkOp) (s : Session) : Session :=
  match op with
  | LinkOp.setLinkedContext now tab => (Hermes.setLinkedContext parseURL now tab s).session
  | LinkOp.clearLinkedContextClosed now => clearLinkedContext now "closed" s
  | LinkOp.handleHermesOpen now panel tab =>
    (Hermes.handleHermesOpen parseURL now panel tab s).session
  | LinkOp.handleTabUpdate now tabId changeInfo tab =>
    Hermes.handleTabUpdate parseURL now tabId changeInfo tab s
  | LinkOp.handleTabRemoved now tabId => Hermes.handleTabRemoved now tabId s
  | LinkOp.validateSession now tabsGet => (Hermes.validateSession now tabsGet s).1
  | LinkOp.relinkToCurrentTab now tabsGet checkingState tab =>
    (Hermes.relinkToCurrentTab parseURL now tabsGet checkingState tab s).session

/-- The session store after a sequence of link operations, run in order. -/
def runOps (parseURL : String → Option URL) (ops : List LinkOp) (s : Session) : Session :=
  ops.foldl (fun acc op => op.run parseURL acc) s

/-- A session store is reachable when a sequence of link operations leads to it from the
empty store. -/
def Reachable (parseURL : String → Option URL) (s : Session) : Prop :=
  ∃ ops : List LinkOp, runOps parseURL ops Session.empty = s

/-! ### Revalidation step by step

`core.validateAndUpdateState()` is an `async` function: it runs until an `await`, gives up
control, and resumes later, so that several calls can be in flight at once. One call is
followed here from resumption to resumption, with the number of linked-tab lookups
(`chrome.tabs.get`) and of link-state writes (`updateLinkedState`) it has issued. -/

/-- The side panel as a revalidation call sees it: the session store, the latch
`state.checkingState`, and the platform calls counted so far. -/
structure PanelState where
  session : Session
  checkingState : Bool
  /-- Calls of `chrome.tabs.get` issued so far. -/
  tabLookups : Nat
  /-- Calls of `updateLinkedState` issued so far. -/
  linkWrites : Nat
deriving DecidableEq, Repr

/-- Where one call of `validateAndUpdateState` stands. -/
inductive CallPhase where
  /-- The call has not started. -/
  | start
  /-- The latch is taken; `await getLinkedState()` inside `validateSession` is pending. -/
  | awaitLinkedState
  /-- The lookup `chrome.tabs.get(id)` is issued and awaited. -/
  | awaitTab (id : Int)
  /-- The write `updateLinkedState(...)` is issued and awaited; `check` is what
  `validateSession` will return. -/
  | awaitWrite (check : SessionCheck)
  /-- The refresh `await updateUI(...)` is pending. -/
  | awaitUI (check : SessionCheck)
  /-- The call has returned `result` (`none` is `undefined`). -/
  | returned (result : Option SessionCheck)
deriving DecidableEq, Repr

/-- The write issued by a step: `updateLinkedState` with a status and a message. -/
def issueWrite (now : Nat) (status message : String) (check : SessionCheck) (p : PanelState) :
    PanelState × CallPhase :=
  ({ p with session := updateLinkedStatus now status message p.session
            linkWrites := p.linkWrites + 1 },
    CallPhase.awaitWrite check)

/-- One step of a call of `validateAndUpdateState`: the code between two `await`s.
`tabsGet` answers the lookup `chrome.tabs.get(id).catch(() => null)`. -/
def stepCall (now : Nat) (tabsGet : Int → Option Tab) (p : PanelState) :
    CallPhase → PanelState × CallPhase
  | CallPhase.start =>
    if p.checkingState then (p, CallPhase.returned none)
    else ({ p with checkingState := true }, CallPhase.awaitLinkedState)
  | CallPhase.awaitLinkedState =>
    if !truthyString p.session.hermesLinkedUrl || !truthyId p.session.hermesLinkedTabId then
      (p, CallPhase.awaitUI
        { ok := false, code := "nolink", message := some "No linked session found"
          validation := none })
    else
      match p.session.hermesLinkedTabId with
      | none => (p, CallPhase.awaitUI
          { ok := false, code := "nolink", message := some "No linked session found"
            validation := none })
      | some id => ({ p with tabLookups := p.tabLookups + 1 }, CallPhase.awaitTab id)
  | CallPhase.awaitTab id =>
    match tabsGet id with
    | none =>
      issueWrite now "stale" "Linked tab was closed"
        { ok := false, code := "closed", message := some "Linked tab was closed"
          validation := none } p
    | some tab =>
      match tab.url with
      | none =>
        issueWrite now "stale" "Unable to verify session"
          { ok := false, code := "error", message := some "Session check failed"
            validation := none } p
      | some url =>
        let validation := validateWebPage url
        if !validation.valid then
          issueWrite now "stale" validation.message
            { ok := false, code := "invalid", message := none, validation := some validation } p
        else
          issueWrite now "ok" "Session active"
            { ok := true, code := "ok", message := none, validation := some validation } p
  | CallPhase.awaitWrite check => (p, CallPhase.awaitUI check)
  | CallPhase.awaitUI check =>
    ({ p with checkingState := false }, CallPhase.returned (some check))
  | CallPhase.returned result => (p, CallPhase.returned result)

/-- A call advanced by `n` steps. -/
def stepsCall (now : Nat) (tabsGet : Int → Option Tab) :
    Nat → PanelState × CallPhase → PanelState × CallPhase
  | 0, state => state
  | n + 1, state =>
    stepsCall now tabsGet n (stepCall now tabsGet state.1 state.2)

/-- A call run from its start until it has returned; five steps are enough. -/
def runCall (now : Nat) (tabsGet : Int → Option Tab) (p : PanelState) :
    PanelState × CallPhase :=
  stepsCall now tabsGet 5 (p, CallPhase.start)

/-- Two overlapping calls: the first call takes `k` steps, then the second call starts and
runs until it has returned, then the first call takes its remaining steps. Each call has
its own clock reading and its own answers of the platform. -/
def runOverlapping (now : Nat) (tabsGet : Int → Option Tab) (now2 : Nat)
    (tabsGet2 : Int → Option Tab) (k : Nat) (p : PanelState) :
    (PanelState × CallPhase) × CallPhase :=
  let first := stepsCall now tabsGet k (p, CallPhase.start)
  let second := stepsCall now2 tabsGet2 5 (first.1, CallPhase.start)
  (stepsCall now tabsGet (5 - k) (second.1, first.2), second.2)

/-- A call is in flight when it has started and has not yet returned. -/
def CallPhase.inFlight : CallPhase → Bool
  | CallPhase.start => false
  | CallPhase.returned _ => false
  | _ => true

/-- The store holds a link: the linked URL and the linked tab id are set. -/
def hasLink (s : Session) : Bool :=
  truthyString s.hermesLinkedUrl && truthyId s.hermesLinkedTabId

/-! ## Credential store and token lifecycle (`main.js`)

Instants are integers, the milliseconds since the epoch that `Date.getTime()` returns; a
stored ISO string (`toISOString()`) is identified with its instant, and the range limit of
`Date` is not modelled. Numbers of a response are integers. -/

/-- A tenant record of the credential map. `none` stands for a field that is absent or
`null`, and for a date field that `new Date(...)` does not read as a date. -/
structure ClientRecord where
  clientid : Option String
  clientsecret : Option String
  tokenurl : Option String
  apiurl : Option String
  accesstoken : Option String
  refreshtoken : Option String
  effectivedatetime : Option Int
  expirationdatetime : Option Int
  refreshExpirationDateTime : Option Int
  editdatetime : Option Int
deriving DecidableEq, Repr

/-- The empty object `{}` used for a tenant without a record. -/
def ClientRecord.empty : ClientRecord :=
  { clientid := none, clientsecret := none, tokenurl := none, apiurl := none
    accesstoken := none, refreshtoken := none, effectivedatetime := none
    expirationdatetime := none, refreshExpirationDateTime := none, editdatetime := none }

/-- The credential map stored under the key `clientdata` of `chrome.storage.local`: one
record per tenant base URL. -/
abbrev ClientData := String → Option ClientRecord

/-- The assignment `data[key] = record`. -/
def ClientData.set (data : ClientData) (key : String) (record : ClientRecord) : ClientData :=
  fun k => if k = key then some record else data k

/-- The expression `data[key] || {}`. -/
def ClientData.recordOrEmpty (data : ClientData) (key : String) : ClientRecord :=
  (data key).getD ClientRecord.empty

/-- Truthiness of a possibly missing number: it is present and not zero. -/
def truthyNumber (n : Option Int) : Bool :=
  match n with
  | some v => v != 0
  | none => false

/-- What the user is shown: the text of the `alert`, and the text put on the button. -/
structure Feedback where
  alert : Option String
  button : Option String
deriving DecidableEq, Repr

/-- The token response `{ accessToken, refreshToken, expiresInSeconds }` after
destructuring; a response that is not an object has none of the fields. -/
structure TokenResponse where
  accessToken : Option String
  refreshToken : Option String
  expiresInSeconds : Option Int
deriving DecidableEq, Repr

/-- The credential map after a call of `processTokenResponse`, and the feedback shown. -/
structure TokenOutcome where
  data : ClientData
  feedback : Feedback

/-- The function `processTokenResponse(result, tokenurl, clientID)`; `now` is the reading
`new Date()` of the call and `data` the credential map it loads. The refresh of the
display and of the timers that follows a successful save does not write the credential
map. -/
def processTokenResponse (parseURL : String → Option URL) (now : Int) (result : TokenResponse)
    (tokenurl clientID : String) (data : ClientData) : TokenOutcome :=
  if !truthyString result.accessToken || !truthyString result.refreshToken
      || !truthyNumber result.expiresInSeconds then
    { data := data
      feedback := { alert := some "Failed to fetch token: Invalid response."
                    button := some "Token Failed!" } }
  else
    match parseURL tokenurl with
    | none => { data := data, feedback := { alert := none, button := some "Token Failed!" } }
    | some url =>
      let baseClientUrl := url.origin ++ "/"
      let existing := data.recordOrEmpty baseClientUrl
      { data := data.set baseClientUrl
          { existing with
            clientid := some clientID
            tokenurl := some tokenurl
            apiurl :=
              if truthyString existing.apiurl then existing.apiurl
              else some (baseClientUrl ++ "api")
            accesstoken := result.accessToken
            refreshtoken := result.refreshToken
            effectivedatetime := some now
            expirationdatetime := result.expiresInSeconds.map (fun s => now + s * 1000)
            refreshExpirationDateTime := some (now + 8 * 60 * 60 * 1000)
            editdatetime := some now }
        feedback := { alert := none, button := some "Token Retrieved!" } }

/-- The request that `refreshAccessToken` sends with `fetch`. -/
structure RefreshRequest where
  url : String
  refresh_token : Option String
  client_id : Option String
  client_secret : Option String
deriving DecidableEq, Repr

/-- How the `fetch` of `refreshAccessToken` ends. -/
inductive FetchResult where
  /-- The call `fetch(...)` or `response.json()` throws an error with this message. -/
  | thrown (message : String)
  /-- The response has `response.ok` false and this status. -/
  | httpError (status : Nat)
  /-- The response is the JSON object `{ access_token, expires_in }`. -/
  | json (access_token : Option String) (expires_in : Option Int)
deriving DecidableEq, Repr

/-- The credential map after a call of `refreshAccessToken`, the requests it sent, and the
feedback shown. -/
structure RefreshOutcome where
  data : ClientData
  requests : List RefreshRequest
  feedback : Feedback

/-- The test `new Date() > new Date(expiry)`: an expiry that is missing gives an invalid
date, and the comparison is false. -/
def isPast (now : Int) (expiry : Option Int) : Bool :=
  match expiry with
  | some e => decide (now > e)
  | none => false

/-- The `catch` block of `refreshAccessToken`. -/
def refreshFailed (message : String) : Feedback :=
  { alert := some ("Failed to refresh access token: " ++ message)
    button := some "Refresh Failed!" }

/-- The function `refreshAccessToken()`. `clienturl` is what `getClientUrl()` resolves to,
`validSession` what `isValidSession()` resolves to, `now` the clock reading of the
refresh-token test, `later` the clock reading after the response, `response` the end of
the `fetch`, and `data` the credential map the call loads. -/
def refreshAccessToken (clienturl : Option String) (validSession : Bool) (now later : Int)
    (response : FetchResult) (data : ClientData) : RefreshOutcome :=
  match clienturl with
  | none =>
    { data := data, requests := []
      feedback := { alert := some "Requires a valid ADP Workforce Manager session."
                    button := none } }
  | some url =>
    if url == "" || !validSession then
      { data := data, requests := []
        feedback := { alert := some "Requires a valid ADP Workforce Manager session."
                      button := none } }
    else
      let client := data.recordOrEmpty url
      if !truthyString client.refreshtoken || client.refreshtoken == some "Refresh Token"
          || isPast now client.refreshExpirationDateTime then
        { data := data, requests := []
          feedback :=
            { alert := some
                "No valid Refresh Token found. Please retrieve an Access Token first."
              button := some "No Valid Token!" } }
      else if !truthyString client.clientsecret
          || client.clientsecret == some "Enter Client Secret" then
        { data := data, requests := []
          feedback :=
            { alert := some "Client Secret is required to refresh the Access Token."
              button := some "Missing Secret!" } }
      else
        let request : RefreshRequest :=
          { url := url ++ "api/authentication/access_token"
            refresh_token := client.refreshtoken
            client_id := client.clientid
            client_secret := client.clientsecret }
        match response with
        | FetchResult.thrown message =>
          { data := data, requests := [request], feedback := refreshFailed message }
        | FetchResult.httpError status =>
          { data := data, requests := [request]
            feedback := refreshFailed
              ("Failed to refresh access token. HTTP status: " ++ toString status) }
        | FetchResult.json access_token expires_in =>
          if !truthyString access_token || !truthyNumber expires_in then
            { data := data, requests := [request]
              feedback := refreshFailed
                "Response is missing required fields: 'access_token' or 'expires_in'." }
          else
            { data := data.set url
                { client with
                  accesstoken := access_token
                  expirationdatetime := expires_in.map (fun s => later + s * 1000)
                  editdatetime := some later }
              requests := [request]
              feedback := { alert := none, button := some "Token Refreshed!" } }

/-- The feedback of `refreshAccessToken` for a refresh token that is missing or expired. -/
def noValidTokenFeedback : Feedback :=
  { alert := some "No valid Refresh Token found. Please retrieve an Access Token first."
    button := some "No Valid Token!" }

/-- The feedback of `refreshAccessToken` for a missing client secret. -/
def missingSecretFeedback : Feedback :=
  { alert := some "Client Secret is required to refresh the Access Token."
    button := some "Missing Secret!" }

/-- A store with a linked tab id has a linked URL. -/
def LinkHasUrl (s : Session) : Prop :=
  s.hermesLinkedTabId ≠ none → truthyString s.hermesLinkedUrl = true

/-! ## Countdown timers (`main.js`)

The two timers are built alike, so they are embedded by one set of functions with the kind
of the timer as an argument; the functions of the source are the instances for the two
kinds. A remaining time of `none` is the number `NaN`, which `Math.floor` gives for a
missing expiry. Every call in the source hands the element `timer` to the access-token
functions and the element `refresh-timer` to the refresh-token functions, so the argument
`timerBox` is the timer box of the slot. The entries that the functions write to the debug
log are left out. -/

/-- The two kinds of token, with one countdown each. -/
inductive TimerKind where
  | access
  | refresh
deriving DecidableEq, Repr

/-- An interval that `setInterval(updateTimer, 1000)` has created and that has not been
cleared, with the variable `remainingTime` that its callback closes over. -/
structure Interval where
  id : Nat
  kind : TimerKind
  remainingTime : Option Int
deriving DecidableEq, Repr

/-- What belongs to one kind of token in the side panel. -/
structure TimerSlot where
  /-- The global variable `accessTokenTimerInterval` or `refreshTokenTimerInterval`. -/
  interval : Option Nat
  /-- The text of the timer box (`#timer` or `#refresh-timer`). -/
  timerBox : String
  /-- The value of the token box (`#access-token` or `#refresh-token`). -/
  tokenBox : String
  /-- The storage key `accessTokenTimer` or `refreshTokenTimer`. -/
  persisted : Option Int
deriving DecidableEq, Repr

/-- The side panel as the timers see it: the two slots, the intervals the platform holds
active, the last interval id handed out, and the credential map in storage. -/
structure TimerWorld where
  access : TimerSlot
  refresh : TimerSlot
  intervals : List Interval
  nextId : Nat
  clientdata : ClientData

/-- The slot of a kind. -/
def TimerWorld.slot (w : TimerWorld) : TimerKind → TimerSlot
  | TimerKind.access => w.access
  | TimerKind.refresh => w.refresh

/-- Assignment to the slot of a kind. -/
def TimerWorld.setSlot (w : TimerWorld) (kind : TimerKind) (slot : TimerSlot) : TimerWorld :=
  match kind with
  | TimerKind.access => { w with access := slot }
  | TimerKind.refresh => { w with refresh := slot }

/-- Truthiness of an interval variable: it holds an id, and the id is not zero. -/
def truthyTimer (interval : Option Nat) : Bool :=
  match interval with
  | some id => id != 0
  | none => false

/-- The platform call `clearInterval(id)`; `clearInterval(null)` does nothing. -/
def clearInterval (interval : Option Nat) (intervals : List Interval) : List Interval :=
  match interval with
  | some id => intervals.filter (fun x => x.id != id)
  | none => intervals

/-- The method `padStart(2, "0")`. -/
def padStart2 (s : String) : String :=
  String.mk (List.replicate (2 - s.length) '0') ++ s

/-- The text `mm:ss` that `updateTimer` displays for a positive remaining time. -/
def formatTime (remainingTime : Int) : String :=
  padStart2 (toString (remainingTime / 60)) ++ ":" ++ padStart2 (toString (remainingTime % 60))

/-- The closure `updateTimer` of `startAccessTokenTimer` and of `startRefreshTokenTimer`,
applied to its variable `remainingTime`; it returns the new value of the variable. Only
the access timer removes its storage key when it expires. -/
def updateTimer (kind : TimerKind) (w : TimerWorld) (remainingTime : Option Int) :
    TimerWorld × Option Int :=
  match remainingTime with
  | none =>
    (w.setSlot kind { w.slot kind with timerBox := "NaN:NaN", persisted := none }, none)
  | some r =>
    if r ≤ 0 then
      (({ w with intervals := clearInterval (w.slot kind).interval w.intervals }).setSlot kind
          { w.slot kind with
            interval := none
            timerBox := "--:--"
            persisted :=
              match kind with
              | TimerKind.access => none
              | TimerKind.refresh => (w.slot kind).persisted },
        some r)
    else
      (w.setSlot kind { w.slot kind with timerBox := formatTime r, persisted := some (r - 1) },
        some (r - 1))

/-- The body shared by `startAccessTokenTimer(seconds, timerBox)` and
`startRefreshTokenTimer(seconds, timerBox)`: clear the interval on record, run `updateTimer`
once, then create the interval; `setInterval` returns a fresh id greater than zero. -/
def startTimer (kind : TimerKind) (seconds : Option Int) (w : TimerWorld) : TimerWorld :=
  let cleared :=
    if truthyTimer (w.slot kind).interval then
      ({ w with intervals := clearInterval (w.slot kind).interval w.intervals }).setSlot kind
        { w.slot kind with interval := none }
    else w
  let ticked := updateTimer kind cleared seconds
  let id := ticked.1.nextId + 1
  let created : TimerWorld :=
    { ticked.1 with
      intervals := ticked.1.intervals ++ [{ id := id, kind := kind, remainingTime := ticked.2 }]
      nextId := id }
  created.setSlot kind { created.slot kind with interval := some id }

/-- The function `startAccessTokenTimer(seconds, timerBox)`. -/
def startAccessTokenTimer (seconds : Option Int) (w : TimerWorld) : TimerWorld :=
  startTimer TimerKind.access seconds w

/-- The function `startRefreshTokenTimer(seconds, timerBox)`. -/
def startRefreshTokenTimer (seconds : Option Int) (w : TimerWorld) : TimerWorld :=
  startTimer TimerKind.refresh seconds w

/-- The body shared by `stopAccessTokenTimer(timerBox)` and `stopRefreshTokenTimer(timerBox)`. -/
def stopTimer (kind : TimerKind) (w : TimerWorld) : TimerWorld :=
  if truthyTimer (w.slot kind).interval then
    ({ w with intervals := clearInterval (w.slot kind).interval w.intervals }).setSlot kind
      { w.slot kind with interval := none, timerBox := "--:--" }
  else w

/-- The function `stopAccessTokenTimer(timerBox)`. -/
def stopAccessTokenTimer (w : TimerWorld) : TimerWorld :=
  stopTimer TimerKind.access w

/-- The function `stopRefreshTokenTimer(timerBox)`. -/
def stopRefreshTokenTimer (w : TimerWorld) : TimerWorld :=
  stopTimer TimerKind.refresh w

/-- A timer tick: the platform runs the callback of the interval `id`, if that interval is
active, and the callback's variable `remainingTime` keeps its new value. -/
def fireInterval (id : Nat) (w : TimerWorld) : TimerWorld :=
  match w.intervals.find? (fun x => x.id == id) with
  | none => w
  | some x =>
    let ticked := updateTimer x.kind w x.remainingTime
    { ticked.1 with
      intervals := ticked.1.intervals.map
        (fun y => if y.id == id then { y with remainingTime := ticked.2 } else y) }

/-- One timer operation: a start, a stop, or a tick of the platform. -/
inductive TimerOp where
  | startAccessTokenTimer (seconds : Option Int)
  | stopAccessTokenTimer
  | startRefreshTokenTimer (seconds : Option Int)
  | stopRefreshTokenTimer
  | tick (id : Nat)
deriving DecidableEq, Repr

/-- The world after one timer operation. -/
def TimerOp.run (op : TimerOp) (w : TimerWorld) : TimerWorld :=
  match op with
  | TimerOp.startAccessTokenTimer seconds => Hermes.startAccessTokenTimer seconds w
  | TimerOp.stopAccessTokenTimer => Hermes.stopAccessTokenTimer w
  | TimerOp.startRefreshTokenTimer seconds => Hermes.startRefreshTokenTimer seconds w
  | TimerOp.stopRefreshTokenTimer => Hermes.stopRefreshTokenTimer w
  | TimerOp.tick id => fireInterval id w

/-- The world after a sequence of timer operations, run in order. -/
def runTimerOps (ops : List TimerOp) (w : TimerWorld) : TimerWorld :=
  ops.foldl (fun acc op => op.run acc) w

/-- The world when the page has loaded: both interval variables are `null` and no interval
exists. -/
def TimerWorld.loaded (w : TimerWorld) : Prop :=
  w.access.interval = none ∧ w.refresh.interval = none ∧ w.intervals = []

/-- The active intervals of a kind. -/
def TimerWorld.active (w : TimerWorld) (kind : TimerKind) : List Interval :=
  w.intervals.filter (fun x => x.kind == kind)

/-- A tick of the interval `id`, `n` times in a row. -/
def fireTimes (id : Nat) : Nat → TimerWorld → TimerWorld
  | 0, w => w
  | n + 1, w => fireTimes id n (fireInterval id w)

/-- The expression `Math.floor((expirationTime - currentDateTime) / 1000)`; it is `NaN`
for an expiry that is not a date. -/
def remainingSeconds (now : Int) (expiry : Option Int) : Option Int :=
  expiry.map (fun e => (e - now) / 1000)

/-- The test `currentDateTime < expirationTime`: false for an expiry that is not a date. -/
def isBefore (now : Int) (expiry : Option Int) : Bool :=
  match expiry with
  | some e => decide (now < e)
  | none => false

/-- The body shared by `populateAccessToken()` and `populateRefreshToken()`, for the token
and the expiry of the tenant's record and the texts of the kind. -/
def populateToken (kind : TimerKind) (loginText expiredText emptyText : String)
    (clienturl : Option String) (token : ClientRecord → Option String)
    (expiry : ClientRecord → Option Int) (now : Int) (w : TimerWorld) : TimerWorld :=
  match clienturl with
  | none => w.setSlot kind { w.slot kind with tokenBox := loginText, timerBox := "--:--" }
  | some url =>
    if url == "" then
      w.setSlot kind { w.slot kind with tokenBox := loginText, timerBox := "--:--" }
    else
      let record := w.clientdata.recordOrEmpty url
      if truthyString (token record) then
        if isPast now (expiry record) then
          w.setSlot kind { w.slot kind with tokenBox := expiredText, timerBox := "--:--" }
        else
          startTimer kind (remainingSeconds now (expiry record))
            (w.setSlot kind { w.slot kind with tokenBox := (token record).getD "" })
      else
        w.setSlot kind { w.slot kind with tokenBox := emptyText, timerBox := "--:--" }

/-- The function `populateAccessToken()`; `clienturl` is what `getClientUrl()` resolves
to and `now` the reading `new Date()`. -/
def populateAccessToken (clienturl : Option String) (now : Int) (w : TimerWorld) : TimerWorld :=
  populateToken TimerKind.access "Requires WFMgr Login" "Access Token Expired" "Get Token"
    clienturl (fun r => r.accesstoken) (fun r => r.expirationdatetime) now w

/-- The function `populateRefreshToken()`. -/
def populateRefreshToken (clienturl : Option String) (now : Int) (w : TimerWorld) : TimerWorld :=
  populateToken TimerKind.refresh "Requires WFMgr Login" "Refresh Token Expired"
    "Refresh Token" clienturl (fun r => r.refreshtoken)
    (fun r => r.refreshExpirationDateTime) now w

/-- One half of `restoreTokenTimers()`: the timer of one kind of token. -/
def restoreTimer (kind : TimerKind) (token : Option String) (expiry : Option Int) (now : Int)
    (w : TimerWorld) : TimerWorld :=
  if truthyString token then
    if isBefore now expiry then startTimer kind (remainingSeconds now expiry) w
    else w.setSlot kind { w.slot kind with timerBox := "--:--" }
  else w.setSlot kind { w.slot kind with timerBox := "--:--" }

/-- The function `restoreTokenTimers()`. -/
def restoreTokenTimers (clienturl : Option String) (now : Int) (w : TimerWorld) : TimerWorld :=
  match clienturl with
  | none => stopRefreshTokenTimer (stopAccessTokenTimer w)
  | some url =>
    if url == "" then stopRefreshTokenTimer (stopAccessTokenTimer w)
    else
      let clientData := w.clientdata.recordOrEmpty url
      restoreTimer TimerKind.refresh clientData.refreshtoken
        clientData.refreshExpirationDateTime now
        (restoreTimer TimerKind.access clientData.accesstoken clientData.expirationdatetime
          now w)

/-- The test of `executeApiCall()` that sends it for a new token:
`!clientData.accesstoken || new Date(clientData.expirationdatetime) < new Date()`. -/
def executeApiCallNeedsToken (clientData : ClientRecord) (now : Int) : Bool :=
  !truthyString clientData.accesstoken || isPast now clientData.expirationdatetime

/-! ### Saving credentials and fetching a token (`main.js`) -/

/-- The function `saveClientSecretClick()`. `clienturl` is what `getClientUrl()` resolves
to, `validSession` what `isValidSession()` resolves to, `clientsecret` the trimmed value of
the input box, `now` the reading `new Date()` and `data` the credential map the call
loads. -/
def saveClientSecretClick (clienturl : Option String) (validSession : Bool)
    (clientsecret : String) (now : Int) (data : ClientData) : TokenOutcome :=
  if !validSession then
    { data := data
      feedback := { alert := some "Requires a valid ADP Workforce Manager session."
                    button := none } }
  else
    match clienturl with
    | none => { data := data, feedback := { alert := none, button := none } }
    | some url =>
      if url == "" then { data := data, feedback := { alert := none, button := none } }
      else if clientsecret == "" then
        { data := data
          feedback := { alert := some "Client Secret cannot be empty!", button := none } }
      else
        { data := data.set url
            { data.recordOrEmpty url with
              clientsecret := some clientsecret
              editdatetime := some now }
          feedback := { alert := none, button := some "Client Secret Saved!" } }

/-- The function `saveClientIDClick()`, with the arguments of `saveClientSecretClick`. -/
def saveClientIDClick (clienturl : Option String) (validSession : Bool) (clientid : String)
    (now : Int) (data : ClientData) : TokenOutcome :=
  if !validSession then
    { data := data
      feedback := { alert := some "Requires a valid ADP Workforce Manager session."
                    button := none } }
  else
    match clienturl with
    | none => { data := data, feedback := { alert := none, button := none } }
    | some url =>
      if url == "" then { data := data, feedback := { alert := none, button := none } }
      else if clientid == "" then
        { data := data
          feedback := { alert := some "Client ID cannot be empty!", button := none } }
      else
        { data := data.set url
            { data.recordOrEmpty url with
              clientid := some clientid
              tokenurl := some (url ++ "accessToken?clientId=" ++ clientid)
              apiurl := some (url ++ "api")
              editdatetime := some now }
          feedback := { alert := none, button := some "Client ID Saved!" } }

/-- How the `fetch` of `fetchTokenDirectly` ends. -/
inductive TokenFetch where
  /-- The call `fetch(...)` or `response.json()` throws an error with this message. -/
  | thrown (message : String)
  /-- The response has `response.ok` false and this status. -/
  | httpError (status : Nat)
  /-- The response is a JSON value with these fields. -/
  | json (result : TokenResponse)
deriving DecidableEq, Repr

/-- The credential map after a token fetch, the feedback shown, and the URLs requested. -/
structure FetchOutcome where
  data : ClientData
  feedback : Feedback
  requested : List String

/-- The function `fetchTokenDirectly(tokenurl, clienturl, clientID)`. Its call
`processTokenResponse(result, clienturl, clientID, tokenurl)` hands the base URL to the
second parameter of `processTokenResponse`, which is the parameter `tokenurl`; the fourth
argument has no parameter. -/
def fetchTokenDirectly (parseURL : String → Option URL) (now : Int) (response : TokenFetch)
    (tokenurl clienturl clientID : String) (data : ClientData) : FetchOutcome :=
  match response with
  | TokenFetch.thrown message =>
    { data := data
      feedback := { alert := some ("Failed to fetch token: " ++ message), button := none }
      requested := [tokenurl] }
  | TokenFetch.httpError status =>
    { data := data
      feedback :=
        { alert := some ("Failed to fetch token: " ++
            ("Failed to fetch token. HTTP status: " ++ toString status))
          button := none }
      requested := [tokenurl] }
  | TokenFetch.json result =>
    let processed := processTokenResponse parseURL now result clienturl clientID data
    { data := processed.data, feedback := processed.feedback, requested := [tokenurl] }

/-- The function `fetchToken()` in a window that is not incognito, where it goes on with
`fetchTokenDirectly`. `clientID` is the trimmed value of the input box. -/
def fetchToken (parseURL : String → Option URL) (clienturl : Option String)
    (validSession : Bool) (clientID : String) (now : Int) (response : TokenFetch)
    (data : ClientData) : FetchOutcome :=
  match clienturl with
  | none =>
    { data := data
      feedback := { alert := some "Requires a valid ADP Workforce Manager session."
                    button := none }
      requested := [] }
  | some url =>
    if url == "" || !validSession then
      { data := data
        feedback := { alert := some "Requires a valid ADP Workforce Manager session."
                      button := none }
        requested := [] }
    else if clientID == "" then
      { data := data
        feedback := { alert := some "Please enter a Client ID first.", button := none }
        requested := [] }
    else
      fetchTokenDirectly parseURL now response (url ++ "accessToken?clientId=" ++ clientID)
        url clientID data

/-! ### Two calls that load and save the credential map

`loadClientData()` and `saveClientData(data)` are awaited, so another call can run between
the load and the save of a call. A call that passes its checks loads the whole map, changes
its copy, and saves the whole map. -/

/-- What a call does with the credential map: `none` when it returns before it loads the
map, otherwise the map it saves as a function of the map it loaded. -/
abbrev StorageCall := Option (ClientData → ClientData)

/-- The call `saveClientSecretClick()` as a storage call. -/
def saveClientSecretCall (clienturl : Option String) (validSession : Bool)
    (clientsecret : String) (now : Int) : StorageCall :=
  if validSession && truthyString clienturl && clientsecret != "" then
    some (fun data => (saveClientSecretClick clienturl validSession clientsecret now data).data)
  else none

/-- The call `processTokenResponse(result, tokenurl, clientID)` as a storage call. -/
def processTokenResponseCall (parseURL : String → Option URL) (now : Int)
    (result : TokenResponse) (tokenurl clientID : String) : StorageCall :=
  if truthyString result.accessToken && truthyString result.refreshToken
      && truthyNumber result.expiresInSeconds && (parseURL tokenurl).isSome then
    some (fun data => (processTokenResponse parseURL now result tokenurl clientID data).data)
  else none

/-- The steps of two storage calls: the load and the save of the first call and of the
second call. -/
inductive StorageStep where
  | firstLoad
  | firstSave
  | secondLoad
  | secondSave
deriving DecidableEq, Repr

/-- The stored credential map, and the copy each of the two calls holds once it has loaded
the map. -/
structure RaceState where
  stored : ClientData
  firstCopy : Option ClientData
  secondCopy : Option ClientData

/-- One step of one of the two calls. -/
def StorageStep.run (first second : StorageCall) (step : StorageStep) (st : RaceState) :
    RaceState :=
  match step with
  | StorageStep.firstLoad =>
    match first with
    | some _ => { st with firstCopy := some st.stored }
    | none => st
  | StorageStep.firstSave =>
    match first, st.firstCopy with
    | some update, some copy => { st with stored := update copy }
    | _, _ => st
  | StorageStep.secondLoad =>
    match second with
    | some _ => { st with secondCopy := some st.stored }
    | none => st
  | StorageStep.secondSave =>
    match second, st.secondCopy with
    | some update, some copy => { st with stored := update copy }
    | _, _ => st

/-- The stored credential map after the steps of a schedule, run in order. -/
def runSchedule (first second : StorageCall) (schedule : List StorageStep)
    (data : ClientData) : ClientData :=
  (schedule.foldl
    (fun (st : RaceState) (step : StorageStep) => step.run first second st)
    { stored := data, firstCopy := none, secondCopy := none }).stored

/-- The interleavings of `x :: xs` with a second sequence, by recursion on the second
sequence; `rest` gives the interleavings of `xs`. -/
def interleaveWith {α : Type} (x : α) (xs : List α) (rest : List α → List (List α)) :
    List α → List (List α)
  | [] => [x :: xs]
  | y :: ys =>
    (rest (y :: ys)).map (fun l => x :: l)
      ++ (interleaveWith x xs rest ys).map (fun l => y :: l)

/-- All interleavings of two sequences of steps: each sequence keeps its order. -/
def interleavings {α : Type} : List α → List α → List (List α)
  | [] => fun ys => [ys]
  | x :: xs => interleaveWith x xs (interleavings xs)

/-- The schedules of two storage calls: each call loads before it saves. -/
def schedules : List (List StorageStep) :=
  interleavings [StorageStep.firstLoad, StorageStep.firstSave]
    [StorageStep.secondLoad, StorageStep.secondSave]

/-- The schedules in which one call has saved before the other call loads. -/
def serialSchedules : List (List StorageStep) :=
  [[StorageStep.firstLoad, StorageStep.firstSave, StorageStep.secondLoad,
      StorageStep.secondSave],
    [StorageStep.secondLoad, StorageStep.secondSave, StorageStep.firstLoad,
      StorageStep.firstSave]]

/-! ### The debug log -/

/-- An entry of the log stored under the key `extension_logs`. -/
structure LogEntry where
  timestamp : String
  level : String
  message : String
deriving DecidableEq, Repr

/-- The method `appLogger.appendToStorage(level, message)` of both scripts, applied to the
stored log `extension_logs`; `timestamp` is what `this.timestamp()` returns. -/
def appendToStorage (timestamp level message : String) (extension_logs : List LogEntry) :
    List LogEntry :=
  let logs := extension_logs ++ [{ timestamp := timestamp, level := level, message := message }]
  if logs.length > 1000 then logs.tail else logs

/-! ### Revalidations and tab events, interleaved

A call of `validateAndUpdateState` in the side panel and the handlers `handleTabUpdate` and
`handleTabRemoved` of `bg.js` are `async`: each runs until an `await` and resumes later, so
their steps interleave. A handler first awaits the read of `hermesLinkedTabId` and writes
afterwards, without reading again. -/

/-- A tab event of the platform, with the arguments its handler receives:
`chrome.tabs.onUpdated` or `chrome.tabs.onRemoved`. -/
inductive TabEvent where
  | updated (tabId : Int) (changeInfo : ChangeInfo) (tab : Tab)
  | removed (tabId : Int)
deriving DecidableEq, Repr

/-- Where the handler of a tab event stands. -/
inductive HandlerPhase where
  /-- The handler has not yet read the session store. -/
  | start
  /-- The read `await chrome.storage.session.get('hermesLinkedTabId')` has given `linked`. -/
  | read (linked : Option Int)
  /-- The handler `handleTabUpdate` is past its `if (changeInfo.url)` block; the block
  `if (changeInfo.title)` is still to come. -/
  | written
  /-- The handler has returned. -/
  | done
deriving DecidableEq, Repr

/-- One step of the handler of a tab event: the code between two `await`s of the second
`try` block of `handleTabUpdate` (the first only sets side-panel options), or of
`handleTabRemoved`. A write is made on the store as it is when the step runs. -/
def stepTabEvent (parseURL : String → Option URL) (now : Nat) (event : TabEvent)
    (s : Session) : HandlerPhase → Session × HandlerPhase
  | HandlerPhase.start => (s, HandlerPhase.read s.hermesLinkedTabId)
  | HandlerPhase.read linked =>
    match event with
    | TabEvent.removed tabId =>
      if truthyId linked && some tabId == linked then
        (clearLinkedContext now "closed" s, HandlerPhase.done)
      else (s, HandlerPhase.done)
    | TabEvent.updated tabId changeInfo tab =>
      if !truthyId linked || some tabId != linked then (s, HandlerPhase.done)
      else
        match changeInfo.url with
        | none => (s, HandlerPhase.written)
        | some url =>
          if url == "" then (s, HandlerPhase.written)
          else
            let validation := validateWebPage url
            if validation.valid then
              let linkedContext := setLinkedContext parseURL now
                { id := some tabId, windowId := tab.windowId, url := some url
                  title := tab.title } s
              match linkedContext.thrown with
              | some _ => (linkedContext.session, HandlerPhase.done)
              | none => (linkedContext.session, HandlerPhase.written)
            else
              ({ s with
                 hermesLinkedStatus := some "stale"
                 hermesLinkedUrl := some url
                 hermesLastValidation := some now
                 hermesValidationMessage := some validation.message },
                HandlerPhase.written)
  | HandlerPhase.written =>
    match event with
    | TabEvent.updated _ changeInfo _ => (updateLinkedTitle now changeInfo s, HandlerPhase.done)
    | TabEvent.removed _ => (s, HandlerPhase.done)
  | HandlerPhase.done => (s, HandlerPhase.done)

/-- The handler of a tab event run from its start to its end without another step in
between. -/
def runTabEvent (parseURL : String → Option URL) (now : Nat) (event : TabEvent)
    (s : Session) : Session × HandlerPhase :=
  let first := stepTabEvent parseURL now event s HandlerPhase.start
  let second := stepTabEvent parseURL now event first.1 first.2
  stepTabEvent parseURL now event second.1 second.2

/-- The side panel and the background script at work: the state of the panel, the calls of
`validateAndUpdateState` by number, and the handlers of tab events by number, each with
its event. -/
structure Activity where
  panel : PanelState
  calls : Nat → CallPhase
  handlers : Nat → TabEvent × HandlerPhase

/-- One move: a call of `validateAndUpdateState` or the handler of a tab event starts or
resumes, and runs to its next `await`. `tabsGet` answers the lookup of the call. -/
inductive Move where
  | resume (call : Nat) (now : Nat) (tabsGet : Int → Option Tab)
  | handle (handler : Nat) (now : Nat)

/-- The state after a move. -/
def Move.run (parseURL : String → Option URL) (move : Move) (st : Activity) : Activity :=
  match move with
  | Move.resume call now tabsGet =>
    let stepped := stepCall now tabsGet st.panel (st.calls call)
    { st with
      panel := stepped.1
      calls := fun c => if c = call then stepped.2 else st.calls c }
  | Move.handle handler now =>
    let stepped := stepTabEvent parseURL now (st.handlers handler).1 st.panel.session
      (st.handlers handler).2
    { st with
      panel := { st.panel with session := stepped.1 }
      handlers := fun h =>
        if h = handler then ((st.handlers handler).1, stepped.2) else st.handlers h }

/-- The state after a sequence of moves, made in order. -/
def runMoves (parseURL : String → Option URL) (moves : List Move) (st : Activity) : Activity :=
  moves.foldl (fun (acc : Activity) (move : Move) => move.run parseURL acc) st

/-- The handler of the event, having read `linked`, goes on to `setLinkedContext` and
links its tab: the event is an update of the tab `linked` with a URL that is not empty,
that `validateWebPage` accepts and that `new URL` parses. -/
def TabEvent.relinks (parseURL : String → Option URL) (linked : Option Int) :
    TabEvent → Bool
  | TabEvent.removed _ => false
  | TabEvent.updated tabId changeInfo _ =>
    truthyId linked && some tabId == linked &&
      match changeInfo.url with
      | none => false
      | some url => url != "" && (validateWebPage url).valid && (parseURL url).isSome

/-- A late writer: a call of `validateAndUpdateState` that awaits its tab lookup, or the
handler of a tab update that has read the linked tab id and goes on to link its tab. -/
def Activity.LateWriter (parseURL : String → Option URL) (st : Activity) : Prop :=
  (∃ call id, st.calls call = CallPhase.awaitTab id)
    ∨ ∃ handler linked, (st.handlers handler).2 = HandlerPhase.read linked
        ∧ (st.handlers handler).1.relinks parseURL linked = true

/-! ### Auxiliary notions used in the statements -/

/-- Two strings are equal up to the letter case of ASCII letters. -/
def sameIgnoringCase (a b : String) : Bool :=
  a.toList.map canonicalize == b.toList.map canonicalize

/-- A string without its last character. -/
def withoutLastChar (s : String) : String :=
  String.mk s.toList.dropLast

/-- The platform parser reads a serialised origin back: the string `protocol//hostname/`
parses, with that protocol and that hostname. -/
def ReadsBackOrigin (parseURL : String → Option URL) (protocol hostname : String) : Prop :=
  ∃ q : URL, parseURL (protocol ++ "//" ++ hostname ++ "/") = some q
    ∧ q.protocol = protocol ∧ q.hostname = hostname

/-- The scenario "link tab, then the tab is removed": the store after `setLinkedContext(tab)`
followed by `handleTabRemoved(id)`. -/
def linkThenRemove (parseURL : String → Option URL) (now later : Nat) (tab : Tab) (id : Int)
    (s : Session) : Session :=
  handleTabRemoved later id (setLinkedContext parseURL now tab s).session

/-- The operation hands over a tab that has an id. Only `relinkToCurrentTab` stores the id
of its tab without testing it. -/
def LinkOp.carriesTabId : LinkOp → Bool
  | LinkOp.relinkToCurrentTab _ _ _ tab => tab.id.isSome
  | _ => true

/-- The link-state invariant of the data model: status `ok` implies that the linked tab id
and the linked origin are set. -/
def LinkInvariant (s : Session) : Prop :=
  s.hermesLinkedStatus = some "ok" → s.hermesLinkedTabId ≠ none ∧ s.hermesLinkedOrigin ≠ none

/-- The inductive strengthening of `LinkInvariant`: a store with a linked tab id has a
linked origin, and status `ok` implies a linked tab id. -/
def LinkConsistent (s : Session) : Prop :=
  (s.hermesLinkedTabId ≠ none → s.hermesLinkedOrigin ≠ none)
    ∧ (s.hermesLinkedStatus = some "ok" → s.hermesLinkedTabId ≠ none)

/-- A plain host: not empty, host characters only, no upper-case letter. -/
def PlainHost (host : List Char) : Prop :=
  host ≠ [] ∧ ∀ c ∈ host, isHostChar c = true ∧ c.toLower = c

/-- The bookkeeping of the intervals: every active interval has an id between 1 and the last
id handed out and is the interval on record in the variable of its kind, and no two active
intervals share an id. -/
def TimerWorld.Tracked (w : TimerWorld) : Prop :=
  (∀ x ∈ w.intervals, 1 ≤ x.id ∧ x.id ≤ w.nextId ∧ (w.slot x.kind).interval = some x.id)
    ∧ w.intervals.Pairwise (fun x y => x.id ≠ y.id)

/-- The world with other values under the storage keys `accessTokenTimer` and
`refreshTokenTimer`. -/
def TimerWorld.withCounters (accessTokenTimer refreshTokenTimer : Option Int)
    (w : TimerWorld) : TimerWorld :=
  { w with
    access := { w.access with persisted := accessTokenTimer }
    refresh := { w.refresh with persisted := refreshTokenTimer } }

/-- Two worlds that differ at most in the values under the storage keys `accessTokenTimer`
and `refreshTokenTimer`. -/
def TimerWorld.SameButCounters (w v : TimerWorld) : Prop :=
  w.intervals = v.intervals ∧ w.nextId = v.nextId ∧ w.clientdata = v.clientdata
    ∧ w.access.interval = v.access.interval ∧ w.access.timerBox = v.access.timerBox
    ∧ w.access.tokenBox = v.access.tokenBox
    ∧ w.refresh.interval = v.refresh.interval ∧ w.refresh.timerBox = v.refresh.timerBox
    ∧ w.refresh.tokenBox = v.refresh.tokenBox

/-! ## Properties of the string primitives -/

theorem includesChars_iff_occurs (s pat : List Char) :
    includesChars s pat = true ↔ pat <:+: s := by
  induction s with
  | nil => simp [includesChars, List.isEmpty_iff]
  | cons c cs ih =>
    simp only [includesChars, Bool.or_eq_true, List.isPrefixOf_iff_prefix, ih,
      List.infix_cons_iff]

theorem includes_iff_occurs (s pat : String) :
    includes s pat = true ↔ pat.toList <:+: s.toList :=
  includesChars_iff_occurs s.toList pat.toList

/-- A string that contains `pat` contains every substring of `pat`. -/
theorem includes_of_includes (s pat sub : String) (hsub : includes pat sub = true)
    (h : includes s pat = true) : includes s sub = true := by
  rw [includes_iff_occurs] at *
  exact hsub.trans h

theorem includes_append_middle (a b c : String) : includes (a ++ b ++ c) b = true := by
  rw [includes_iff_occurs]
  simp only [String.toList, String.data_append]
  exact List.infix_append _ _ _

/-- An occurrence of `pat` in `s` lies in `s` without its last element, or ends `s`. -/
theorem infix_dropLast_or_suffix (pat s : List Char) (h : pat <:+: s) :
    pat <:+: s.dropLast ∨ pat <:+ s := by
  obtain ⟨a, b, hab⟩ := h
  rcases List.eq_nil_or_concat b with hb | ⟨b', z, hb⟩
  · right
    subst hb
    exact ⟨a, by simpa using hab⟩
  · left
    subst hb
    subst hab
    refine ⟨a, b', ?_⟩
    rw [List.concat_eq_append, ← List.append_assoc, List.dropLast_concat]

/-- Replacing where the first occurrence of `pat` starts after `a`. -/
theorem replaceChars_first (pat rep b : List Char) (hpat : pat ≠ []) :
    ∀ a : List Char, ¬ pat <:+: a ++ pat.dropLast →
      replaceChars (a ++ pat ++ b) pat rep = a ++ rep ++ b := by
  intro a
  induction a with
  | nil =>
    intro _
    obtain ⟨c, cs, hc⟩ := List.exists_cons_of_ne_nil hpat
    have hpre : pat.isPrefixOf (pat ++ b) = true :=
      List.isPrefixOf_iff_prefix.mpr (List.prefix_append _ _)
    have hshape : [] ++ pat ++ b = c :: (cs ++ b) := by simp [hc]
    rw [hshape, replaceChars, ← hshape]
    simp only [List.nil_append, hpre, if_true, List.drop_left]
  | cons x a ih =>
    intro hno
    have hnot : pat.isPrefixOf (x :: (a ++ pat ++ b)) = false := by
      rw [Bool.eq_false_iff]
      intro hp
      rw [List.isPrefixOf_iff_prefix] at hp
      apply hno
      have hlong : (x :: a ++ pat.dropLast) <+: x :: (a ++ pat ++ b) := by
        obtain ⟨t, ht⟩ := List.dropLast_prefix pat
        refine ⟨t ++ b, ?_⟩
        conv_rhs => rw [← ht]
        simp
      have hlen : pat.length ≤ (x :: a ++ pat.dropLast).length := by
        have := List.length_pos.mpr hpat
        simp only [List.length_append, List.length_cons, List.length_dropLast]
        omega
      exact (List.prefix_of_prefix_length_le hp hlong hlen).isInfix
    have hrest : ¬ pat <:+: a ++ pat.dropLast := by
      intro hin
      apply hno
      exact List.infix_cons_iff.mpr (Or.inr hin)
    have hshape : x :: a ++ pat ++ b = x :: (a ++ pat ++ b) := by simp
    rw [hshape, replaceChars, hnot]
    simp only [Bool.false_eq_true, if_false]
    rw [ih hrest]
    simp

/-- After replacing an occurrence of `pat`, the replacement occurs in the result. -/
theorem infix_replaceChars (pat rep : List Char) :
    ∀ s : List Char, pat <:+: s → rep <:+: replaceChars s pat rep := by
  intro s
  induction s with
  | nil =>
    intro h
    have hnil : pat = [] := List.infix_nil.mp h
    subst hnil
    simp [replaceChars]
  | cons c cs ih =>
    intro h
    rw [replaceChars]
    split
    · exact (List.prefix_append _ _).isInfix
    · rename_i hnot
      rcases List.infix_cons_iff.mp h with hp | hin
      · exact absurd (List.isPrefixOf_iff_prefix.mpr hp) hnot
      · exact List.infix_cons_iff.mpr (Or.inr (ih hin))

/-! ## Properties of `getVanityUrl` -/

/-- A hostname that carries the marker `-nosso` is left alone. -/
theorem rewriteHostname_of_nosso (hostname : String)
    (h : includes hostname "-nosso" = true) : rewriteHostname hostname = hostname := by
  simp [rewriteHostname, h]

/-- Replacing an environment suffix puts the marker `-nosso` into the hostname. -/
theorem includes_nosso_replace (hostname pat rep : String)
    (hrep : includes rep "-nosso" = true) (h : includes hostname pat = true) :
    includes (replace hostname pat rep) "-nosso" = true := by
  rw [includes_iff_occurs] at *
  exact hrep.trans (infix_replaceChars _ _ _ h)

/-- The hostname rewrite either changes nothing or produces a hostname with `-nosso`. -/
theorem rewriteHostname_cases (hostname : String) :
    rewriteHostname hostname = hostname
      ∨ includes (rewriteHostname hostname) "-nosso" = true := by
  unfold rewriteHostname
  split
  · split
    · right
      exact includes_nosso_replace _ _ _ (by decide) (by assumption)
    · split
      · right
        exact includes_nosso_replace _ _ _ (by decide) (by assumption)
      · left; rfl
  · left; rfl

/-- The hostname rewrite is idempotent. -/
theorem rewriteHostname_idempotent (hostname : String) :
    rewriteHostname (rewriteHostname hostname) = rewriteHostname hostname := by
  rcases rewriteHostname_cases hostname with h | h
  · rw [h, h]
  · exact rewriteHostname_of_nosso _ h

/-- Replacing `pat` in a string that ends with `pat` and has no earlier occurrence of it
replaces that ending. -/
theorem replace_trailing (before pat rep : String) (hpat : pat.toList ≠ [])
    (hfirst : includes (withoutLastChar (before ++ pat)) pat = false) :
    replace (before ++ pat) pat rep = before ++ rep := by
  have hno : ¬ pat.toList <:+: before.toList ++ pat.toList.dropLast := by
    rw [← List.dropLast_append_of_ne_nil _ hpat]
    intro hin
    have hyes : includes (withoutLastChar (before ++ pat)) pat = true := by
      rw [includes_iff_occurs]
      simpa [withoutLastChar, String.toList, String.data_append] using hin
    rw [hyes] at hfirst
    cases hfirst
  have hrep := replaceChars_first pat.toList rep.toList [] hpat before.toList hno
  apply String.ext
  simp only [replace, String.toList, String.data_append, List.append_nil] at hrep ⊢
  exact hrep

/-- A string ending with one pattern, and containing no pattern of the same length before
its last character, does not contain a different pattern of that length. -/
theorem not_includes_other (before pat other : String)
    (hlen : other.toList.length = pat.toList.length) (hne : other.toList ≠ pat.toList)
    (hfirst : includes (withoutLastChar (before ++ pat)) other = false) :
    includes (before ++ pat) other = false := by
  rw [Bool.eq_false_iff]
  intro hin
  rw [includes_iff_occurs] at hin
  rcases infix_dropLast_or_suffix _ _ hin with hearly | hend
  · have hyes : includes (withoutLastChar (before ++ pat)) other = true := by
      rw [includes_iff_occurs]
      exact hearly
    rw [hyes] at hfirst
    cases hfirst
  · have hpat : pat.toList <:+ (before ++ pat).toList := by
      simp only [String.toList, String.data_append]
      exact List.suffix_append _ _
    have hsuffix := List.suffix_of_suffix_length_le hend hpat (le_of_eq hlen)
    exact hne (hsuffix.eq_of_length hlen)

/-! ## Properties of `validateWebPage` -/

/-- The loop over `invalidPatterns`, unrolled. -/
theorem firstInvalid_invalidPatterns (url : String) :
    firstInvalid url invalidPatterns =
      if includes url "mykronos.com/authn/" then
        some { valid := false, message := "Invalid Login - Authentication Required" }
      else if includes url "mykronos.com/wfd/unauthorized" then
        some { valid := false, message := "Invalid Login - Unauthorized Access" }
      else if testLiteralIgnoreCase "://adp-developer.mykronos.com/" url then
        some { valid := false, message := "Developer Portal not supported for API session" }
      else none := by
  simp only [invalidPatterns, firstInvalid, patternMatches]

/-- Every rejection found by the loop has `valid = false`. -/
theorem firstInvalid_valid (url : String) (table : List (Pattern × String))
    (rejection : Validation) (h : firstInvalid url table = some rejection) :
    rejection.valid = false := by
  induction table with
  | nil => simp [firstInvalid] at h
  | cons entry rest ih =>
    obtain ⟨pattern, message⟩ := entry
    simp only [firstInvalid] at h
    split at h
    · cases h
      rfl
    · exact ih h

/-- C1: a URL string that contains `mykronos.com/authn/` is rejected with
"Invalid Login - Authentication Required", and one that contains
`mykronos.com/wfd/unauthorized` but not `mykronos.com/authn/` is rejected with
"Invalid Login - Unauthorized Access"; either reason differs from "Invalid Domain". -/
theorem validateWebPage_forbidden_path (url : String)
    (h : includes url "mykronos.com/authn/" = true
      ∨ includes url "mykronos.com/wfd/unauthorized" = true) :
    validateWebPage url =
        { valid := false
          message :=
            if includes url "mykronos.com/authn/" then "Invalid Login - Authentication Required"
            else "Invalid Login - Unauthorized Access" }
      ∧ (validateWebPage url).message ≠ "Invalid Domain" := by
  have hdomain : includes url "mykronos.com" = true := by
    rcases h with h | h
    · exact includes_of_includes url _ _ (by decide) h
    · exact includes_of_includes url _ _ (by decide) h
  have hres : validateWebPage url =
      { valid := false
        message :=
          if includes url "mykronos.com/authn/" then "Invalid Login - Authentication Required"
          else "Invalid Login - Unauthorized Access" } := by
    simp only [validateWebPage, hdomain, firstInvalid_invalidPatterns]
    by_cases hauthn : includes url "mykronos.com/authn/" = true
    · simp [hauthn]
    · have hwfd : includes url "mykronos.com/wfd/unauthorized" = true := by
        rcases h with h | h
        · exact absurd h hauthn
        · exact h
      simp [hauthn, hwfd]
  refine ⟨hres, ?_⟩
  rw [hres]
  by_cases hauthn : includes url "mykronos.com/authn/" = true
  · simp only [hauthn, if_true]
    decide
  · simp only [hauthn]
    decide

/-- Witness for C1 at `https://foo.prd.mykronos.com/authn/login`. -/
theorem validateWebPage_forbidden_path_witness :
    validateWebPage "https://foo.prd.mykronos.com/authn/login" =
        { valid := false, message := "Invalid Login - Authentication Required" }
      ∧ (validateWebPage "https://foo.prd.mykronos.com/authn/login").message
          ≠ "Invalid Domain" :=
  validateWebPage_forbidden_path "https://foo.prd.mykronos.com/authn/login"
    (Or.inl (by decide))

/-- The body of `validateWebPage` as a cascade of tests, the loop unrolled. -/
theorem validateWebPage_cascade (url : String) :
    validateWebPage url =
      (if !includes url "mykronos.com" then
        { valid := false, message := "Invalid Domain" }
      else if includes url "mykronos.com/authn/" then
        { valid := false, message := "Invalid Login - Authentication Required" }
      else if includes url "mykronos.com/wfd/unauthorized" then
        { valid := false, message := "Invalid Login - Unauthorized Access" }
      else if testLiteralIgnoreCase "://adp-developer.mykronos.com/" url then
        { valid := false, message := "Developer Portal not supported for API session" }
      else { valid := true, message := "Valid" }) := by
  simp only [validateWebPage, firstInvalid_invalidPatterns]
  cases includes url "mykronos.com" <;> cases includes url "mykronos.com/authn/" <;>
    cases includes url "mykronos.com/wfd/unauthorized" <;>
    cases testLiteralIgnoreCase "://adp-developer.mykronos.com/" url <;> rfl

/-- C6: `validateWebPage` is total and returns one of five results, decided in this order:
"Invalid Domain", "Invalid Login - Authentication Required",
"Invalid Login - Unauthorized Access", "Developer Portal not supported for API session",
and `valid = true` with "Valid". So `valid` holds exactly when the message is "Valid", and
no result, in particular no rejection, has an empty message. -/
theorem validateWebPage_decision_order (url : String) :
    validateWebPage url =
        (if !includes url "mykronos.com" then
          { valid := false, message := "Invalid Domain" }
        else if includes url "mykronos.com/authn/" then
          { valid := false, message := "Invalid Login - Authentication Required" }
        else if includes url "mykronos.com/wfd/unauthorized" then
          { valid := false, message := "Invalid Login - Unauthorized Access" }
        else if testLiteralIgnoreCase "://adp-developer.mykronos.com/" url then
          { valid := false, message := "Developer Portal not supported for API session" }
        else { valid := true, message := "Valid" })
      ∧ ((validateWebPage url).valid = true ↔ (validateWebPage url).message = "Valid")
      ∧ (validateWebPage url).message ≠ "" := by
  refine ⟨validateWebPage_cascade url, ?_, ?_⟩
  · rw [validateWebPage_cascade url]
    split
    · simp only [Bool.false_eq_true, false_iff]; decide
    · split
      · simp only [Bool.false_eq_true, false_iff]; decide
      · split
        · simp only [Bool.false_eq_true, false_iff]; decide
        · split
          · simp only [Bool.false_eq_true, false_iff]; decide
          · simp
  · rw [validateWebPage_cascade url]
    split
    · decide
    · split
      · decide
      · split
        · decide
        · split <;> decide

/-- C2, evaluation at the failing input: the URL `https://evil.example/?q=mykronos.com` has
the host `evil.example`, which is neither `mykronos.com` nor one of its subdomains, and
`validateWebPage` accepts it. -/
theorem validateWebPage_accepts_foreign_host :
    (referenceParseURL "https://evil.example/?q=mykronos.com").map URL.hostname
        = some "evil.example"
      ∧ validateWebPage "https://evil.example/?q=mykronos.com"
        = { valid := true, message := "Valid" } := by
  constructor
  · rfl
  · decide

/-- The developer-portal pattern matches every string in which `://`, the portal host in any
letter case, and `/` follow one another. -/
theorem testLiteralIgnoreCase_portal (before host after : String)
    (hhost : sameIgnoringCase host "adp-developer.mykronos.com" = true) :
    testLiteralIgnoreCase "://adp-developer.mykronos.com/"
      (before ++ "://" ++ host ++ "/" ++ after) = true := by
  have hmap : host.toList.map canonicalize
      = "adp-developer.mykronos.com".toList.map canonicalize := by
    simpa [sameIgnoringCase] using hhost
  have hlit : "://adp-developer.mykronos.com/".toList.map canonicalize
      = "://".toList.map canonicalize ++ "adp-developer.mykronos.com".toList.map canonicalize
        ++ "/".toList.map canonicalize := by
    decide
  unfold testLiteralIgnoreCase
  rw [includesChars_iff_occurs, hlit, ← hmap]
  simp only [String.toList, String.data_append, List.map_append]
  refine ⟨before.data.map canonicalize, after.data.map canonicalize, ?_⟩
  simp only [List.append_assoc]

/-- C3 (amended): a URL string in which `://`, the host `adp-developer.mykronos.com` in any
letter case, and `/` follow one another directly is rejected, whatever precedes `://` and
whatever path, query or fragment follows the slash. -/
theorem validateWebPage_developer_portal (before host after : String)
    (hhost : sameIgnoringCase host "adp-developer.mykronos.com" = true) :
    (validateWebPage (before ++ "://" ++ host ++ "/" ++ after)).valid = false := by
  have hmatch := testLiteralIgnoreCase_portal before host after hhost
  rw [validateWebPage_cascade]
  split
  · rfl
  · split
    · rfl
    · split
      · rfl
      · simp [hmatch]

/-- Witness for C3 (amended): the developer portal written in mixed case, with a path. -/
theorem validateWebPage_developer_portal_witness :
    sameIgnoringCase "ADP-Developer.MyKronos.com" "adp-developer.mykronos.com" = true
      ∧ (validateWebPage
          ("https" ++ "://" ++ "ADP-Developer.MyKronos.com" ++ "/" ++ "docs?x=1")).valid
        = false :=
  ⟨by decide,
    validateWebPage_developer_portal "https" "ADP-Developer.MyKronos.com" "docs?x=1"
      (by decide)⟩

/-- C3, counterexample: with a port, or without a trailing slash, the developer-portal host
is accepted. -/
theorem validateWebPage_developer_portal_counterexample :
    ((referenceParseURL "https://adp-developer.mykronos.com:8443/").map URL.hostname
        = some "adp-developer.mykronos.com"
      ∧ (validateWebPage "https://adp-developer.mykronos.com:8443/").valid = true)
    ∧ ((referenceParseURL "https://adp-developer.mykronos.com").map URL.hostname
        = some "adp-developer.mykronos.com"
      ∧ (validateWebPage "https://adp-developer.mykronos.com").valid = true) := by
  refine ⟨⟨?_, ?_⟩, ?_, ?_⟩
  · rfl
  · decide
  · rfl
  · decide

/-- C4: `getVanityUrl` is idempotent. For every URL `u` that parses (accepted by
`validateWebPage` or not), applying `getVanityUrl` to its own result returns that result
again, given that the platform parser reads the serialised origin back. -/
theorem getVanityUrl_idempotent (parseURL : String → Option URL) (u : String) (p : URL)
    (hparse : parseURL u = some p)
    (hback : ReadsBackOrigin parseURL p.protocol (rewriteHostname p.hostname)) :
    (getVanityUrl parseURL u >>= getVanityUrl parseURL) = getVanityUrl parseURL u := by
  obtain ⟨q, hq, hprotocol, hhostname⟩ := hback
  have hfirst : getVanityUrl parseURL u
      = Except.ok (p.protocol ++ "//" ++ rewriteHostname p.hostname ++ "/") := by
    simp only [getVanityUrl, hparse]
  rw [hfirst]
  show getVanityUrl parseURL (p.protocol ++ "//" ++ rewriteHostname p.hostname ++ "/") = _
  simp only [getVanityUrl, hq, hprotocol, hhostname, rewriteHostname_idempotent]

/-- Witness for C4 at the tenant URL `https://foo.prd.mykronos.com/somepath`. -/
theorem getVanityUrl_idempotent_witness :
    (validateWebPage "https://foo.prd.mykronos.com/somepath").valid = true
      ∧ (getVanityUrl referenceParseURL "https://foo.prd.mykronos.com/somepath"
            >>= getVanityUrl referenceParseURL)
          = getVanityUrl referenceParseURL "https://foo.prd.mykronos.com/somepath" :=
  ⟨by decide,
    getVanityUrl_idempotent referenceParseURL "https://foo.prd.mykronos.com/somepath"
      { protocol := "https:", hostname := "foo.prd.mykronos.com"
        origin := "https://foo.prd.mykronos.com" }
      rfl
      ⟨{ protocol := "https:", hostname := "foo-nosso.prd.mykronos.com"
         origin := "https://foo-nosso.prd.mykronos.com" }, rfl, rfl, rfl⟩⟩

/-- The first occurrence of a pattern that occurs. -/
theorem exists_first_occurrence (pat : List Char) (hpat : pat ≠ []) :
    ∀ s : List Char, pat <:+: s →
      ∃ a b : List Char, s = a ++ pat ++ b ∧ ¬ pat <:+: a ++ pat.dropLast := by
  intro s
  induction s with
  | nil =>
    intro h
    exact absurd (List.infix_nil.mp h) hpat
  | cons c cs ih =>
    intro h
    by_cases hpre : pat <+: c :: cs
    · obtain ⟨b, hb⟩ := hpre
      refine ⟨[], b, by simpa using hb.symm, ?_⟩
      intro hin
      have hlen := hin.length_le
      have := List.length_pos.mpr hpat
      simp only [List.nil_append, List.length_dropLast] at hlen
      omega
    · rcases List.infix_cons_iff.mp h with hp | hin
      · exact absurd hp hpre
      · obtain ⟨a, b, hsplit, hfirst⟩ := ih hin
        refine ⟨c :: a, b, by simp [hsplit], ?_⟩
        intro hocc
        rcases List.infix_cons_iff.mp hocc with hp | hrest
        · apply hpre
          have hlong : (c :: (a ++ pat.dropLast)) <+: c :: cs := by
            obtain ⟨t, ht⟩ := List.dropLast_prefix pat
            refine ⟨t ++ b, ?_⟩
            rw [hsplit]
            conv_rhs => rw [← ht]
            simp
          exact hp.trans hlong
        · exact hfirst hrest

/-- Replacing an occurrence of `q` that starts before the ending `sfx` does not give the
string with the mark put in front of the ending, when `q` and the mark start with different
characters. -/
theorem replaced_earlier_ne (a b before q sfx mark : List Char) (x y : Char)
    (hq : q.head? = some x) (hmark : mark.head? = some y) (hxy : x ≠ y)
    (hsplit : a ++ q ++ b = before ++ sfx) (hshort : a.length < before.length) :
    a ++ (mark ++ q) ++ b ≠ before ++ mark ++ sfx := by
  rw [List.append_assoc] at hsplit
  rcases List.append_eq_append_iff.mp hsplit with ⟨c, hbefore, hrest⟩ | ⟨c, ha, -⟩
  · subst hbefore
    intro heq
    simp only [List.append_assoc, List.append_cancel_left_eq] at heq
    cases c with
    | nil => simp at hshort
    | cons z c =>
      cases q with
      | nil => simp at hq
      | cons x' q' =>
        cases mark with
        | nil => simp at hmark
        | cons y' mark' =>
          simp only [List.head?_cons, Option.some.injEq] at hq hmark
          simp only [List.cons_append, List.cons.injEq] at hrest heq
          apply hxy
          rw [← hq, ← hmark, hrest.1, heq.1]
  · subst ha
    simp only [List.length_append] at hshort
    omega

/-- Where `replace` puts the mark when the pattern occurs: a hostname that ends with `sfx`
and in which the pattern `q` (as long as `sfx`) occurs gets the mark in front of its
trailing `sfx` exactly when `q` is `sfx` and does not occur before the last character. -/
theorem replace_marks_ending (before q sfx mark : String) (x y : Char)
    (hq : q.toList.head? = some x) (hmark : mark.toList.head? = some y) (hxy : x ≠ y)
    (hlen : q.toList.length = sfx.toList.length)
    (hocc : includes (before ++ sfx) q = true) :
    replace (before ++ sfx) q (mark ++ q) = before ++ mark ++ sfx ↔
      (q = sfx ∧ includes (withoutLastChar (before ++ sfx)) q = false) := by
  have hpat : q.toList ≠ [] := by
    intro h
    rw [h] at hq
    simp at hq
  constructor
  · intro heq
    rw [includes_iff_occurs] at hocc
    obtain ⟨a, b, hsplit, hfirst⟩ := exists_first_occurrence q.toList hpat _ hocc
    have hreplaced := replaceChars_first q.toList (mark ++ q).toList b hpat a hfirst
    rw [← hsplit] at hreplaced
    have hdata : a ++ (mark.toList ++ q.toList) ++ b
        = before.toList ++ mark.toList ++ sfx.toList := by
      have := congrArg String.toList heq
      simp only [replace, String.toList, String.data_append] at this hreplaced ⊢
      rw [← this, hreplaced]
    simp only [String.toList, String.data_append] at hsplit
    have hlength := congrArg List.length hsplit
    simp only [List.length_append] at hlength
    have hlen' : q.data.length = sfx.data.length := hlen
    by_cases hshort : a.length < before.data.length
    · exact absurd hdata
        (replaced_earlier_ne a b before.toList q.toList sfx.toList mark.toList x y hq hmark hxy
          hsplit.symm hshort)
    · have hb : b = [] := by
        apply List.eq_nil_of_length_eq_zero
        omega
      subst hb
      simp only [List.append_nil] at hsplit
      have ha : a.length = before.data.length := by
        simp only [List.length_nil] at hlength
        omega
      obtain ⟨hab, hqs⟩ := List.append_inj hsplit.symm ha
      have hsame : q = sfx := String.ext (by simpa [String.toList] using hqs)
      refine ⟨hsame, ?_⟩
      rw [Bool.eq_false_iff]
      intro hin
      rw [includes_iff_occurs] at hin
      apply hfirst
      subst hsame
      simp only [withoutLastChar, String.toList, String.data_append] at hin
      have hpat' : q.data ≠ [] := hpat
      rw [List.dropLast_append_of_ne_nil _ hpat'] at hin
      rw [hab]
      exact hin
  · rintro ⟨hsame, hfirst⟩
    subst hsame
    rw [replace_trailing before q (mark ++ q) hpat hfirst]
    apply String.ext
    simp only [String.data_append, List.append_assoc]

/-- C5 (amended): for every URL whose hostname ends with the environment suffix
`.prd.mykronos.com` or `.npr.mykronos.com` and does not contain `-nosso`, `getVanityUrl`
returns the protocol, `//`, the hostname with `-nosso` put in front of that trailing suffix,
and `/` (path, query and fragment are dropped) exactly when the suffix does not occur in
the hostname before its last character and, for the suffix `.npr.mykronos.com`, the
hostname does not contain `.prd.mykronos.com`. -/
theorem getVanityUrl_environment_suffix (parseURL : String → Option URL) (u : String)
    (p : URL) (before suffix : String)
    (hparse : parseURL u = some p)
    (hsuffix : suffix = ".prd.mykronos.com" ∨ suffix = ".npr.mykronos.com")
    (hhost : p.hostname = before ++ suffix)
    (hnosso : includes p.hostname "-nosso" = false) :
    getVanityUrl parseURL u
        = Except.ok (p.protocol ++ "//" ++ (before ++ "-nosso" ++ suffix) ++ "/")
      ↔ (includes (withoutLastChar p.hostname) suffix = false
          ∧ (suffix = ".npr.mykronos.com" →
              includes p.hostname ".prd.mykronos.com" = false)) := by
  have hdomain : includes p.hostname ".mykronos.com" = true := by
    rw [hhost]
    have hin : includes (before ++ suffix) suffix = true := by
      simpa using includes_append_middle before suffix ""
    refine includes_of_includes _ suffix _ ?_ hin
    rcases hsuffix with h | h <;> subst h <;> decide
  have hresult : getVanityUrl parseURL u
        = Except.ok (p.protocol ++ "//" ++ (before ++ "-nosso" ++ suffix) ++ "/")
      ↔ rewriteHostname p.hostname = before ++ "-nosso" ++ suffix := by
    simp only [getVanityUrl, hparse]
    constructor
    · intro h
      injection h with h
      have hdata := congrArg String.data h
      simp only [String.data_append] at hdata
      have hleft := List.append_cancel_left (List.append_cancel_right hdata)
      exact String.ext (by simpa [String.data_append] using hleft)
    · intro h
      rw [h]
  rw [hresult]
  have hmarked : ("-nosso.prd.mykronos.com" : String) = "-nosso" ++ ".prd.mykronos.com"
      ∧ ("-nosso.npr.mykronos.com" : String) = "-nosso" ++ ".npr.mykronos.com" := by
    decide
  have hends : includes p.hostname suffix = true := by
    rw [hhost]
    simpa using includes_append_middle before suffix ""
  rcases hsuffix with h | h
  · subst h
    have hrewrite : rewriteHostname p.hostname
        = replace (before ++ ".prd.mykronos.com") ".prd.mykronos.com"
            ("-nosso" ++ ".prd.mykronos.com") := by
      simp only [rewriteHostname, hdomain, hnosso, hends, Bool.not_false, Bool.and_self,
        if_true]
      rw [hhost, hmarked.1]
    rw [hrewrite, hhost]
    rw [replace_marks_ending before ".prd.mykronos.com" ".prd.mykronos.com" "-nosso" '.' '-'
      (by decide) (by decide) (by decide) rfl (by rw [← hhost]; exact hends)]
    constructor
    · rintro ⟨-, hfirst⟩
      exact ⟨hfirst, fun hno => absurd hno (by decide)⟩
    · rintro ⟨hfirst, -⟩
      exact ⟨rfl, hfirst⟩
  · subst h
    cases hprd : includes p.hostname ".prd.mykronos.com" with
    | true =>
      have hrewrite : rewriteHostname p.hostname
          = replace (before ++ ".npr.mykronos.com") ".prd.mykronos.com"
              ("-nosso" ++ ".prd.mykronos.com") := by
        simp only [rewriteHostname, hdomain, hnosso, hprd, Bool.not_false, Bool.and_self,
          if_true]
        rw [hhost, hmarked.1]
      rw [hrewrite, hhost]
      rw [replace_marks_ending before ".prd.mykronos.com" ".npr.mykronos.com" "-nosso" '.' '-'
        (by decide) (by decide) (by decide) (by decide) (by rw [← hhost]; exact hprd)]
      constructor
      · rintro ⟨hsame, -⟩
        exact absurd hsame (by decide)
      · rintro ⟨-, hno⟩
        exact absurd (hno rfl) (by decide)
    | false =>
      have hrewrite : rewriteHostname p.hostname
          = replace (before ++ ".npr.mykronos.com") ".npr.mykronos.com"
              ("-nosso" ++ ".npr.mykronos.com") := by
        simp only [rewriteHostname, hdomain, hnosso, hprd, hends, Bool.not_false,
          Bool.and_self, if_true, Bool.false_eq_true, if_false]
        rw [hhost, hmarked.2]
      rw [hrewrite, hhost]
      rw [replace_marks_ending before ".npr.mykronos.com" ".npr.mykronos.com" "-nosso" '.' '-'
        (by decide) (by decide) (by decide) rfl (by rw [← hhost]; exact hends)]
      constructor
      · rintro ⟨-, hfirst⟩
        exact ⟨hfirst, fun _ => rfl⟩
      · rintro ⟨hfirst, -⟩
        exact ⟨rfl, hfirst⟩

/-- Witness for C5 (amended): `https://foo.prd.mykronos.com/somepath` gives
`https://foo-nosso.prd.mykronos.com/`, and the hostname
`x.npr.mykronos.com.prd.mykronos.com`, in which only the other suffix occurs earlier, gets
`-nosso` in front of its trailing suffix as well. -/
theorem getVanityUrl_environment_suffix_witness :
    getVanityUrl referenceParseURL "https://foo.prd.mykronos.com/somepath"
        = Except.ok ("https:" ++ "//" ++ ("foo" ++ "-nosso" ++ ".prd.mykronos.com") ++ "/")
      ∧ getVanityUrl referenceParseURL "https://x.npr.mykronos.com.prd.mykronos.com/somepath"
        = Except.ok ("https:" ++ "//"
            ++ ("x.npr.mykronos.com" ++ "-nosso" ++ ".prd.mykronos.com") ++ "/") :=
  ⟨(getVanityUrl_environment_suffix referenceParseURL "https://foo.prd.mykronos.com/somepath"
      { protocol := "https:", hostname := "foo.prd.mykronos.com"
        origin := "https://foo.prd.mykronos.com" }
      "foo" ".prd.mykronos.com" rfl (Or.inl rfl) (by decide) (by decide)).mpr
      ⟨by decide, fun h => absurd h (by decide)⟩,
    (getVanityUrl_environment_suffix referenceParseURL
      "https://x.npr.mykronos.com.prd.mykronos.com/somepath"
      { protocol := "https:", hostname := "x.npr.mykronos.com.prd.mykronos.com"
        origin := "https://x.npr.mykronos.com.prd.mykronos.com" }
      "x.npr.mykronos.com" ".prd.mykronos.com" rfl (Or.inl rfl) (by decide) (by decide)).mpr
      ⟨by decide, fun h => absurd h (by decide)⟩⟩

/-- C5, counterexample: the hostname `a.prd.mykronos.com.prd.mykronos.com` ends with
`.prd.mykronos.com` and has no `-nosso`, but `getVanityUrl` rewrites the first occurrence
of the suffix, not the trailing one. -/
theorem getVanityUrl_environment_suffix_counterexample :
    (referenceParseURL "https://a.prd.mykronos.com.prd.mykronos.com/x").map URL.hostname
        = some ("a.prd.mykronos.com" ++ ".prd.mykronos.com")
      ∧ includes ("a.prd.mykronos.com" ++ ".prd.mykronos.com") "-nosso" = false
      ∧ getVanityUrl referenceParseURL "https://a.prd.mykronos.com.prd.mykronos.com/x"
        = Except.ok "https://a-nosso.prd.mykronos.com.prd.mykronos.com/"
      ∧ "https://a-nosso.prd.mykronos.com.prd.mykronos.com/"
        ≠ "https:" ++ "//" ++ ("a.prd.mykronos.com" ++ "-nosso" ++ ".prd.mykronos.com") ++ "/" := by
  refine ⟨?_, ?_, ?_, ?_⟩
  · rfl
  · decide
  · rfl
  · decide

/-! ## Properties of the link operations -/

/-- What `setLinkedContext` stores for a tab with an id and a valid URL that parses. -/
theorem setLinkedContext_links (parseURL : String → Option URL) (now : Nat) (tab : Tab)
    (id : Int) (url : String) (p : URL) (s : Session)
    (hid : tab.id = some id) (hnonzero : id ≠ 0) (hurl : tab.url = some url)
    (hvalid : (validateWebPage url).valid = true) (hparse : parseURL url = some p) :
    setLinkedContext parseURL now tab s =
      { session :=
          { s with
            hermesLinkedTabId := some id
            hermesLinkedWindowId := storeDefined tab.windowId s.hermesLinkedWindowId
            hermesLinkedUrl := some url
            hermesLinkedOrigin := some (p.protocol ++ "//" ++ rewriteHostname p.hostname ++ "/")
            hermesLinkedTitle := some (titleOrEmpty tab.title)
            hermesLinkedStatus := some "ok"
            hermesLastValidation := some now
            hermesValidationMessage := some (validateWebPage url).message }
        thrown := none } := by
  simp [setLinkedContext, truthyId, hid, hnonzero, hurl, hvalid, getVanityUrl, hparse]

/-- C7 (amended): for every tab whose URL `validateWebPage` rejects, `relinkToCurrentTab`
throws and leaves the session store as it was; the error message is the validator's
rejection message when the URL is not empty, and "No active tab" when it is the empty
string. -/
theorem relinkToCurrentTab_rejected (parseURL : String → Option URL) (now : Nat)
    (tabsGet : Int → Option Tab) (checkingState : Bool) (tab : Tab) (s : Session)
    (url : String) (hurl : tab.url = some url)
    (hrejected : (validateWebPage url).valid = false) :
    relinkToCurrentTab parseURL now tabsGet checkingState tab s =
      { session := s
        thrown := some (Thrown.error
          (if url = "" then "No active tab" else (validateWebPage url).message)) } := by
  by_cases hempty : url = ""
  · simp [relinkToCurrentTab, hurl, hempty]
  · simp [relinkToCurrentTab, hurl, hempty, hrejected]

/-- Witness for C7 (amended): a tab on `https://example.com/` is refused with
"Invalid Domain" and the empty store stays empty. -/
theorem relinkToCurrentTab_rejected_witness :
    relinkToCurrentTab referenceParseURL 5 (fun _ => none) false
        { id := some 7, windowId := some 1, url := some "https://example.com/"
          title := some "Example" } Session.empty
      = { session := Session.empty, thrown := some (Thrown.error "Invalid Domain") } :=
  relinkToCurrentTab_rejected referenceParseURL 5 (fun _ => none) false
    { id := some 7, windowId := some 1, url := some "https://example.com/"
      title := some "Example" } Session.empty "https://example.com/" rfl (by decide)

/-- C7, counterexample: the empty URL is rejected by `validateWebPage` with
"Invalid Domain", but `relinkToCurrentTab` throws "No active tab" for a tab with that URL. -/
theorem relinkToCurrentTab_rejected_counterexample :
    validateWebPage "" = { valid := false, message := "Invalid Domain" }
      ∧ (relinkToCurrentTab referenceParseURL 5 (fun _ => none) false
          { id := some 7, windowId := some 1, url := some "", title := none }
          Session.empty).thrown
        = some (Thrown.error "No active tab")
      ∧ "No active tab" ≠ (validateWebPage "").message := by
  refine ⟨?_, ?_, ?_⟩
  · decide
  · rfl
  · decide

/-- C8, evaluation at the failing input: for the tab with id 7 on
`https://foo.prd.mykronos.com/somepath`, `relinkToCurrentTab` stores status `ok`, the id and
the URL, but stores the plain origin `https://foo.prd.mykronos.com`, whereas `getVanityUrl`
of the URL, which `setLinkedContext` stores, is `https://foo-nosso.prd.mykronos.com/`. -/
theorem relinkToCurrentTab_stores_plain_origin :
    (relinkToCurrentTab referenceParseURL 5
        (fun _ => some { id := some 7, windowId := some 1
                         url := some "https://foo.prd.mykronos.com/somepath"
                         title := some "WFM" })
        false
        { id := some 7, windowId := some 1
          url := some "https://foo.prd.mykronos.com/somepath", title := some "WFM" }
        Session.empty).session
      = { hermesLinkedTabId := some 7, hermesLinkedWindowId := some 1
          hermesLinkedUrl := some "https://foo.prd.mykronos.com/somepath"
          hermesLinkedOrigin := some "https://foo.prd.mykronos.com"
          hermesLinkedTitle := some "WFM", hermesLinkedStatus := some "ok"
          hermesLastValidation := some 5, hermesValidationMessage := some "Session active"
          hermesGlobalOpen := none }
    ∧ getVanityUrl referenceParseURL "https://foo.prd.mykronos.com/somepath"
      = Except.ok "https://foo-nosso.prd.mykronos.com/"
    ∧ (setLinkedContext referenceParseURL 5
        { id := some 7, windowId := some 1
          url := some "https://foo.prd.mykronos.com/somepath", title := some "WFM" }
        Session.empty).session.hermesLinkedOrigin
      = some "https://foo-nosso.prd.mykronos.com/" := by
  refine ⟨?_, ?_, ?_⟩
  · decide
  · rfl
  · decide

/-- C9, evaluation at the failing input: from the empty store, `relinkToCurrentTab` with a
tab that has a valid URL but no id reaches a store with status `ok` and no linked tab id. -/
theorem reachable_ok_without_tab_id :
    ∃ s : Session, Reachable referenceParseURL s
      ∧ s.hermesLinkedStatus = some "ok" ∧ s.hermesLinkedTabId = none := by
  refine ⟨runOps referenceParseURL
    [LinkOp.relinkToCurrentTab 5 (fun _ => none) false
      { id := none, windowId := some 1, url := some "https://foo.prd.mykronos.com/wfd/home"
        title := some "WFM" }] Session.empty, ⟨_, rfl⟩, ?_, ?_⟩
  · decide
  · decide

/-- C10: after `setLinkedContext(A)` succeeds for a tab `A` with a valid URL and
`handleTabRemoved(A.id)` runs, the status is `closed`, the linked tab id, URL and origin
are null, `getBaseUrl` returns null, and `getClientUrl` resolves to null whenever there is
no active tab or the active tab's URL does not pass `validateWebPage`. -/
theorem linkThenRemove_closed (parseURL : String → Option URL) (now later : Nat) (tab : Tab)
    (id : Int) (url : String) (p : URL) (s : Session)
    (hid : tab.id = some id) (hnonzero : id ≠ 0) (hurl : tab.url = some url)
    (hvalid : (validateWebPage url).valid = true) (hparse : parseURL url = some p) :
    ((setLinkedContext parseURL now tab s).thrown = none
      ∧ (setLinkedContext parseURL now tab s).session.hermesLinkedStatus = some "ok"
      ∧ (setLinkedContext parseURL now tab s).session.hermesLinkedTabId = some id)
    ∧ (linkThenRemove parseURL now later tab id s).hermesLinkedStatus = some "closed"
    ∧ (linkThenRemove parseURL now later tab id s).hermesLinkedTabId = none
    ∧ (linkThenRemove parseURL now later tab id s).hermesLinkedUrl = none
    ∧ (linkThenRemove parseURL now later tab id s).hermesLinkedOrigin = none
    ∧ getBaseUrl (linkThenRemove parseURL now later tab id s) = none
    ∧ ∀ tabs : List Tab,
        (∀ active ∈ tabs.head?, ∃ w, active.url = some w ∧ (validateWebPage w).valid = false) →
        getClientUrl parseURL (linkThenRemove parseURL now later tab id s) tabs
          = Settled.resolved none := by
  have hlinked := setLinkedContext_links parseURL now tab id url p s hid hnonzero hurl hvalid
    hparse
  have hremoved : linkThenRemove parseURL now later tab id s
      = clearLinkedContext later "closed" (setLinkedContext parseURL now tab s).session := by
    simp [linkThenRemove, handleTabRemoved, hlinked, truthyId, hnonzero]
  have hbase : getBaseUrl (linkThenRemove parseURL now later tab id s) = none := by
    rw [hremoved]
    simp [getBaseUrl, clearLinkedContext]
  refine ⟨⟨?_, ?_, ?_⟩, ?_, ?_, ?_, ?_, hbase, ?_⟩
  · rw [hlinked]
  · rw [hlinked]
  · rw [hlinked]
  · rw [hremoved]; rfl
  · rw [hremoved]; rfl
  · rw [hremoved]; rfl
  · rw [hremoved]; rfl
  · intro tabs hactive
    simp only [getClientUrl, hbase]
    cases tabs with
    | nil => rfl
    | cons active rest =>
      obtain ⟨w, hw, hinvalid⟩ := hactive active (by simp)
      simp [clientUrlFromActiveTab, hw, hinvalid]

/-- Witness for C10: tab 7 on `https://foo.prd.mykronos.com/somepath` is linked and then
removed, while the active tab shows `https://example.com/`. -/
theorem linkThenRemove_closed_witness :
    (linkThenRemove referenceParseURL 5 6
        { id := some 7, windowId := some 1
          url := some "https://foo.prd.mykronos.com/somepath", title := some "WFM" }
        7 Session.empty).hermesLinkedStatus = some "closed"
      ∧ getClientUrl referenceParseURL
          (linkThenRemove referenceParseURL 5 6
            { id := some 7, windowId := some 1
              url := some "https://foo.prd.mykronos.com/somepath", title := some "WFM" }
            7 Session.empty)
          [{ id := some 8, windowId := some 1, url := some "https://example.com/"
             title := some "Example" }]
        = Settled.resolved none :=
  have h := linkThenRemove_closed referenceParseURL 5 6
    { id := some 7, windowId := some 1
      url := some "https://foo.prd.mykronos.com/somepath", title := some "WFM" }
    7 "https://foo.prd.mykronos.com/somepath"
    { protocol := "https:", hostname := "foo.prd.mykronos.com"
      origin := "https://foo.prd.mykronos.com" }
    Session.empty rfl (by decide) rfl (by decide) rfl
  ⟨h.2.1, h.2.2.2.2.2.2 _ (by
    intro active hmem
    refine ⟨"https://example.com/", ?_, by decide⟩
    simp only [List.head?_cons, Option.mem_def, Option.some.injEq] at hmem
    rw [← hmem])⟩

/-! ### The link-state invariant for tabs that carry an id -/

theorem setLinkedContext_consistent (parseURL : String → Option URL) (now : Nat) (tab : Tab)
    (s : Session) (h : LinkConsistent s) :
    LinkConsistent (setLinkedContext parseURL now tab s).session := by
  cases hid : truthyId tab.id with
  | false => simpa [setLinkedContext, hid] using h
  | true =>
    cases hurl : tab.url with
    | none => simpa [setLinkedContext, hid, hurl] using h
    | some url =>
      cases hvalid : (validateWebPage url).valid with
      | false => simpa [setLinkedContext, hid, hurl, hvalid] using h
      | true =>
        cases hvanity : getVanityUrl parseURL url with
        | error e => simpa [setLinkedContext, hid, hurl, hvalid, hvanity] using h
        | ok origin =>
          cases htab : tab.id with
          | none => simp [truthyId, htab] at hid
          | some id =>
            rw [htab] at hid
            simp [setLinkedContext, hid, hurl, hvalid, hvanity, LinkConsistent, htab]

theorem clearLinkedContext_consistent (now : Nat) (s : Session) :
    LinkConsistent (clearLinkedContext now "closed" s) := by
  simp [LinkConsistent, clearLinkedContext]

theorem updateLinkedTitle_consistent (now : Nat) (changeInfo : ChangeInfo) (s : Session)
    (h : LinkConsistent s) : LinkConsistent (updateLinkedTitle now changeInfo s) := by
  cases htitle : truthyString changeInfo.title with
  | false => simpa [updateLinkedTitle, htitle] using h
  | true => simpa [updateLinkedTitle, htitle, LinkConsistent] using h

/-- Marking the store `stale` keeps it consistent, whatever else but the tab id, the origin
and the status is written along. -/
theorem stale_consistent (s marked : Session) (h : LinkConsistent s)
    (hid : marked.hermesLinkedTabId = s.hermesLinkedTabId)
    (horigin : marked.hermesLinkedOrigin = s.hermesLinkedOrigin)
    (hstatus : marked.hermesLinkedStatus = some "stale") : LinkConsistent marked := by
  refine ⟨?_, ?_⟩
  · rw [hid, horigin]
    exact h.1
  · rw [hstatus]
    intro hok
    simp at hok

theorem handleHermesOpen_consistent (parseURL : String → Option URL) (now : Nat)
    (panel : Option Thrown) (tab : Tab) (s : Session) (h : LinkConsistent s) :
    LinkConsistent (handleHermesOpen parseURL now panel tab s).session := by
  have hopen : LinkConsistent { s with hermesGlobalOpen := some true } := h
  cases panel with
  | some e => simpa [handleHermesOpen] using h
  | none =>
    cases hurl : tab.url with
    | none => simpa [handleHermesOpen, hurl] using hopen
    | some url =>
      cases hvalid : (validateWebPage url).valid with
      | true =>
        simpa [handleHermesOpen, hurl, hvalid]
          using setLinkedContext_consistent parseURL now tab _ hopen
      | false =>
        simp only [handleHermesOpen, hurl, hvalid]
        exact stale_consistent s _ h rfl rfl rfl

theorem handleTabUpdate_consistent (parseURL : String → Option URL) (now : Nat) (tabId : Int)
    (changeInfo : ChangeInfo) (tab : Tab) (s : Session) (h : LinkConsistent s) :
    LinkConsistent (handleTabUpdate parseURL now tabId changeInfo tab s) := by
  cases hguard : (!truthyId s.hermesLinkedTabId || some tabId != s.hermesLinkedTabId) with
  | true => simpa [handleTabUpdate, hguard] using h
  | false =>
    cases hurl : changeInfo.url with
    | none =>
      simpa [handleTabUpdate, hguard, hurl] using updateLinkedTitle_consistent now changeInfo s h
    | some url =>
      cases hempty : (url == "") with
      | true =>
        simpa [handleTabUpdate, hguard, hurl, hempty]
          using updateLinkedTitle_consistent now changeInfo s h
      | false =>
        cases hvalid : (validateWebPage url).valid with
        | true =>
          have hset := setLinkedContext_consistent parseURL now
            { id := some tabId, windowId := tab.windowId, url := some url, title := tab.title }
            s h
          cases hthrown : (setLinkedContext parseURL now
            { id := some tabId, windowId := tab.windowId, url := some url, title := tab.title }
            s).thrown with
          | some e => simpa [handleTabUpdate, hguard, hurl, hempty, hvalid, hthrown] using hset
          | none =>
            simpa [handleTabUpdate, hguard, hurl, hempty, hvalid, hthrown]
              using updateLinkedTitle_consistent now changeInfo _ hset
        | false =>
          simp only [handleTabUpdate, hguard, hurl, hempty, hvalid]
          exact updateLinkedTitle_consistent now changeInfo _
            (stale_consistent s _ h rfl rfl rfl)

theorem handleTabRemoved_consistent (now : Nat) (tabId : Int) (s : Session)
    (h : LinkConsistent s) : LinkConsistent (handleTabRemoved now tabId s) := by
  cases hguard : (truthyId s.hermesLinkedTabId && some tabId == s.hermesLinkedTabId) with
  | true => simpa [handleTabRemoved, hguard] using clearLinkedContext_consistent now s
  | false => simpa [handleTabRemoved, hguard] using h

theorem validateSession_consistent (now : Nat) (tabsGet : Int → Option Tab) (s : Session)
    (h : LinkConsistent s) : LinkConsistent (validateSession now tabsGet s).1 := by
  cases hguard : (!truthyString s.hermesLinkedUrl || !truthyId s.hermesLinkedTabId) with
  | true => simpa [validateSession, hguard] using h
  | false =>
    have hid : s.hermesLinkedTabId ≠ none := by
      intro hnone
      simp [hnone, truthyId] at hguard
    have hkeep : ∀ status message,
        LinkConsistent (updateLinkedStatus now status message s) :=
      fun _ _ => ⟨h.1, fun _ => hid⟩
    cases htab : s.hermesLinkedTabId.bind tabsGet with
    | none => simpa [validateSession, hguard, htab] using hkeep _ _
    | some tab =>
      cases hurl : tab.url with
      | none => simpa [validateSession, hguard, htab, hurl] using hkeep _ _
      | some url =>
        cases hvalid : (validateWebPage url).valid with
        | false => simpa [validateSession, hguard, htab, hurl, hvalid] using hkeep _ _
        | true => simpa [validateSession, hguard, htab, hurl, hvalid] using hkeep _ _

theorem validateAndUpdateState_consistent (now : Nat) (tabsGet : Int → Option Tab)
    (checkingState : Bool) (s : Session) (h : LinkConsistent s) :
    LinkConsistent (validateAndUpdateState now tabsGet checkingState s).1 := by
  cases checkingState with
  | true => simpa [validateAndUpdateState] using h
  | false => simpa [validateAndUpdateState] using validateSession_consistent now tabsGet s h

theorem relinkToCurrentTab_consistent (parseURL : String → Option URL) (now : Nat)
    (tabsGet : Int → Option Tab) (checkingState : Bool) (tab : Tab) (s : Session)
    (hid : tab.id.isSome = true) (h : LinkConsistent s) :
    LinkConsistent (relinkToCurrentTab parseURL now tabsGet checkingState tab s).session := by
  obtain ⟨id, hsome⟩ := Option.isSome_iff_exists.mp hid
  cases hurl : tab.url with
  | none => simpa [relinkToCurrentTab, hurl] using h
  | some url =>
    cases hempty : (url == "") with
    | true => simpa [relinkToCurrentTab, hurl, hempty] using h
    | false =>
      cases hvalid : (validateWebPage url).valid with
      | false => simpa [relinkToCurrentTab, hurl, hempty, hvalid] using h
      | true =>
        cases hparse : parseURL url with
        | none => simpa [relinkToCurrentTab, hurl, hempty, hvalid, hparse] using h
        | some parsed =>
          simp only [relinkToCurrentTab, hurl, hempty, hvalid, hparse]
          apply validateAndUpdateState_consistent
          simp [LinkConsistent, storeDefined, hsome]

/-- Each link operation that carries a tab id keeps the store consistent. -/
theorem LinkOp.run_consistent (parseURL : String → Option URL) (op : LinkOp) (s : Session)
    (hop : op.carriesTabId = true) (h : LinkConsistent s) :
    LinkConsistent (op.run parseURL s) := by
  cases op with
  | setLinkedContext now tab => exact setLinkedContext_consistent parseURL now tab s h
  | clearLinkedContextClosed now => exact clearLinkedContext_consistent now s
  | handleHermesOpen now panel tab =>
    exact handleHermesOpen_consistent parseURL now panel tab s h
  | handleTabUpdate now tabId changeInfo tab =>
    exact handleTabUpdate_consistent parseURL now tabId changeInfo tab s h
  | handleTabRemoved now tabId => exact handleTabRemoved_consistent now tabId s h
  | validateSession now tabsGet => exact validateSession_consistent now tabsGet s h
  | relinkToCurrentTab now tabsGet checkingState tab =>
    exact relinkToCurrentTab_consistent parseURL now tabsGet checkingState tab s hop h

/-- The link-state invariant holds in every store reached from the empty store by link
operations whose tabs carry an id: the only way to break it is `relinkToCurrentTab` with a
tab that has no id. -/
theorem linkInvariant_of_carriesTabId (parseURL : String → Option URL) (ops : List LinkOp)
    (hops : ∀ op ∈ ops, op.carriesTabId = true) :
    LinkInvariant (runOps parseURL ops Session.empty) := by
  have hgeneral : ∀ (ops : List LinkOp) (s : Session),
      (∀ op ∈ ops, op.carriesTabId = true) → LinkConsistent s →
      LinkConsistent (runOps parseURL ops s) := by
    intro ops
    induction ops with
    | nil => intro s _ h; exact h
    | cons op rest ih =>
      intro s hall h
      exact ih _ (fun o ho => hall o (List.mem_cons_of_mem _ ho))
        (LinkOp.run_consistent parseURL op s (hall op (List.mem_cons_self _ _)) h)
  have hempty : LinkConsistent Session.empty := by
    simp [LinkConsistent, Session.empty]
  have hc := hgeneral ops Session.empty hops hempty
  intro hok
  exact ⟨hc.2 hok, hc.1 (hc.2 hok)⟩

/-! ### The reference parser reads origins back -/

theorem toLower_eq_self (c : Char) (h : ¬ (c.toNat ≥ 65 ∧ c.toNat ≤ 90)) : c.toLower = c := by
  simp only [Char.toLower]
  rw [if_neg h]

theorem toLower_toLower (c : Char) : c.toLower.toLower = c.toLower := by
  by_cases h : c.toNat ≥ 65 ∧ c.toNat ≤ 90
  · have hc : c = Char.ofNat c.toNat := (Char.ofNat_toNat c).symm
    obtain ⟨h1, h2⟩ := h
    generalize c.toNat = n at *
    subst hc
    interval_cases n <;> decide
  · rw [toLower_eq_self c h]
    exact toLower_eq_self c h

/-- A host character is none of the delimiters that end the host. -/
theorem isHostChar_not_delimiter (c : Char) (h : isHostChar c = true) :
    (c != ':') = true ∧ (c != '/' && c != '?' && c != '#') = true := by
  refine ⟨?_, ?_⟩
  · rw [bne_iff_ne]
    intro hc
    subst hc
    exact absurd h (by decide)
  · simp only [Bool.and_eq_true, bne_iff_ne]
    refine ⟨⟨?_, ?_⟩, ?_⟩ <;>
    · intro hc
      subst hc
      exact absurd h (by decide)

theorem referenceURL_some (scheme host port : List Char) (p : URL)
    (h : referenceURL scheme host port = some p) :
    p.protocol = String.mk scheme ++ ":" ∧ p.hostname = String.mk host
      ∧ host ≠ [] ∧ ∀ c ∈ host, isHostChar c = true := by
  unfold referenceURL at h
  split at h
  · cases h
  · rename_i hcond
    simp only [Bool.or_eq_true, not_or, Bool.not_eq_true, Bool.not_eq_false',
      List.isEmpty_eq_false, List.all_eq_true] at hcond
    simp only [Option.some.injEq] at h
    subst h
    refine ⟨rfl, rfl, ?_, hcond.1.2⟩
    intro hnil
    simp [hnil] at hcond

/-- What the reference parser returns: an `http` or `https` protocol and a plain host. -/
theorem referenceParseURL_some (u : String) (p : URL) (h : referenceParseURL u = some p) :
    ∃ scheme host : List Char, (scheme = "http".toList ∨ scheme = "https".toList)
      ∧ p.protocol = String.mk scheme ++ ":" ∧ p.hostname = String.mk host
      ∧ PlainHost host := by
  unfold referenceParseURL at h
  simp only at h
  split at h
  · rename_i hcond
    simp only [Bool.and_eq_true, Bool.or_eq_true, beq_iff_eq] at hcond
    obtain ⟨hprotocol, hhostname, hne, hall⟩ := referenceURL_some _ _ _ p h
    refine ⟨_, _, hcond.1, hprotocol, hhostname, hne, ?_⟩
    intro c hc
    refine ⟨hall c hc, ?_⟩
    obtain ⟨c0, _, hc0⟩ := List.mem_map.mp hc
    rw [← hc0]
    exact toLower_toLower c0
  · cases h

/-- The reference parser reads the origin of a plain host back. -/
theorem referenceParseURL_origin (scheme host : List Char)
    (hscheme : scheme = "http".toList ∨ scheme = "https".toList) (hhost : PlainHost host) :
    ReadsBackOrigin referenceParseURL (String.mk scheme ++ ":") (String.mk host) := by
  obtain ⟨hne, hall⟩ := hhost
  have hcolon : ∀ c ∈ host, (c != ':') = true := fun c hc =>
    (isHostChar_not_delimiter c (hall c hc).1).1
  have hdelim : ∀ c ∈ host, (c != '/' && c != '?' && c != '#') = true := fun c hc =>
    (isHostChar_not_delimiter c (hall c hc).1).2
  have hlower : host.map Char.toLower = host := by
    conv_rhs => rw [← List.map_id host]
    exact List.map_congr_left (fun c hc => (hall c hc).2)
  have hauthority :
      (host ++ ['/']).takeWhile (fun c => c != '/' && c != '?' && c != '#') = host := by
    rw [List.takeWhile_append_of_pos hdelim]
    simp
  have htake : host.takeWhile (fun c => c != ':') = host :=
    List.takeWhile_eq_self_iff.mpr hcolon
  have hdrop : host.dropWhile (fun c => c != ':') = [] :=
    List.dropWhile_eq_nil_iff.mpr hcolon
  have hurl : referenceURL scheme host [] =
      some { protocol := String.mk scheme ++ ":", hostname := String.mk host
             origin := String.mk scheme ++ ":" ++ "//" ++ String.mk host ++ "" } := by
    have hallhost : host.all isHostChar = true :=
      List.all_eq_true.mpr (fun c hc => (hall c hc).1)
    have hempty : host.isEmpty = false := by
      cases host with
      | nil => exact absurd rfl hne
      | cons _ _ => rfl
    simp [referenceURL, hallhost, hempty]
  refine ⟨{ protocol := String.mk scheme ++ ":", hostname := String.mk host
            origin := String.mk scheme ++ ":" ++ "//" ++ String.mk host ++ "" }, ?_, rfl, rfl⟩
  rw [← hurl]
  rcases hscheme with hs | hs
  · subst hs
    have hchars : (String.mk "http".toList ++ ":" ++ "//" ++ String.mk host ++ "/").toList
        = "http".toList ++ (':' :: '/' :: '/' :: (host ++ ['/'])) := by
      simp [String.toList, String.data_append]
    simp only [referenceParseURL, hchars]
    rw [List.takeWhile_append_of_pos (by decide), List.dropWhile_append_of_pos (by decide)]
    simp [hauthority, htake, hdrop, hlower]
  · subst hs
    have hchars : (String.mk "https".toList ++ ":" ++ "//" ++ String.mk host ++ "/").toList
        = "https".toList ++ (':' :: '/' :: '/' :: (host ++ ['/'])) := by
      simp [String.toList, String.data_append]
    simp only [referenceParseURL, hchars]
    rw [List.takeWhile_append_of_pos (by decide), List.dropWhile_append_of_pos (by decide)]
    simp [hauthority, htake, hdrop, hlower]

/-- Replacing an occurrence of `pat` cuts the text around the first occurrence. -/
theorem replaceChars_decompose (pat rep : List Char) :
    ∀ s : List Char, pat <:+: s →
      ∃ a b : List Char, s = a ++ pat ++ b ∧ replaceChars s pat rep = a ++ rep ++ b := by
  intro s
  induction s with
  | nil =>
    intro h
    have hnil : pat = [] := List.infix_nil.mp h
    subst hnil
    exact ⟨[], [], rfl, by simp [replaceChars]⟩
  | cons c cs ih =>
    intro h
    rw [replaceChars]
    split
    · rename_i hprefix
      obtain ⟨t, ht⟩ := List.isPrefixOf_iff_prefix.mp hprefix
      refine ⟨[], t, by simpa using ht.symm, ?_⟩
      rw [← ht]
      simp
    · rename_i hnot
      rcases List.infix_cons_iff.mp h with hp | hin
      · exact absurd (List.isPrefixOf_iff_prefix.mpr hp) hnot
      · obtain ⟨a, b, hs, hr⟩ := ih hin
        exact ⟨c :: a, b, by simp [hs], by simp [hr]⟩

/-- Replacing an environment suffix in a plain host by a plain text gives a plain host. -/
theorem plainHost_replace (hostname pat rep : String) (hhost : PlainHost hostname.toList)
    (hrep : PlainHost rep.toList) (hin : includes hostname pat = true) :
    PlainHost (replace hostname pat rep).toList := by
  rw [includes_iff_occurs] at hin
  obtain ⟨a, b, hs, hr⟩ := replaceChars_decompose pat.toList rep.toList _ hin
  show PlainHost (replaceChars hostname.toList pat.toList rep.toList)
  rw [hr]
  refine ⟨?_, ?_⟩
  · intro hnil
    have hrepnil : rep.toList = [] := by
      have := congrArg List.length hnil
      simp only [List.length_append, List.length_nil] at this
      exact List.eq_nil_of_length_eq_zero (by omega)
    exact hrep.1 hrepnil
  · intro c hc
    simp only [List.mem_append] at hc
    rcases hc with (hc | hc) | hc
    · exact hhost.2 c (by rw [hs]; simp [hc])
    · exact hrep.2 c hc
    · exact hhost.2 c (by rw [hs]; simp [hc])

/-- The hostname rewrite keeps a plain host plain. -/
theorem plainHost_rewriteHostname (hostname : String) (hhost : PlainHost hostname.toList) :
    PlainHost (rewriteHostname hostname).toList := by
  unfold rewriteHostname
  split
  · split
    · exact plainHost_replace _ _ _ hhost ⟨by decide, by decide⟩ (by assumption)
    · split
      · exact plainHost_replace _ _ _ hhost ⟨by decide, by decide⟩ (by assumption)
      · exact hhost
  · exact hhost

/-- For every URL that the reference parser accepts, it reads the canonical origin back: the
read-back assumption made for idempotence holds for this parser throughout. -/
theorem referenceParseURL_readsBack (u : String) (p : URL)
    (h : referenceParseURL u = some p) :
    ReadsBackOrigin referenceParseURL p.protocol (rewriteHostname p.hostname) := by
  obtain ⟨scheme, host, hscheme, hprotocol, hhostname, hplain⟩ := referenceParseURL_some u p h
  rw [hprotocol, hhostname]
  exact referenceParseURL_origin scheme (rewriteHostname (String.mk host)).toList hscheme
    (plainHost_rewriteHostname (String.mk host) hplain)

/-! ## Properties of revalidation -/

/-- C11 (amended): when `validateSession` runs on a store that holds a link whose tab no
longer exists, it sets the link status to `stale`, with the validation message
"Linked tab was closed", and returns the result code `closed`; the linked tab id, URL and
origin stay as they were. -/
theorem validateSession_tab_gone (now : Nat) (tabsGet : Int → Option Tab) (s : Session)
    (hlink : hasLink s = true) (hgone : s.hermesLinkedTabId.bind tabsGet = none) :
    (validateSession now tabsGet s).1.hermesLinkedStatus = some "stale"
      ∧ (validateSession now tabsGet s).1.hermesValidationMessage
          = some "Linked tab was closed"
      ∧ (validateSession now tabsGet s).2.code = "closed"
      ∧ (validateSession now tabsGet s).1.hermesLinkedTabId = s.hermesLinkedTabId
      ∧ (validateSession now tabsGet s).1.hermesLinkedUrl = s.hermesLinkedUrl
      ∧ (validateSession now tabsGet s).1.hermesLinkedOrigin = s.hermesLinkedOrigin := by
  have hguard : (!truthyString s.hermesLinkedUrl || !truthyId s.hermesLinkedTabId) = false := by
    simp only [hasLink, Bool.and_eq_true] at hlink
    simp [hlink.1, hlink.2]
  simp [validateSession, hguard, hgone, updateLinkedStatus]

/-- Witness for C11 (amended): tab 7 is linked and then no longer exists. -/
theorem validateSession_tab_gone_witness :
    (validateSession 9 (fun _ => none)
        (setLinkedContext referenceParseURL 5
          { id := some 7, windowId := some 1
            url := some "https://foo.prd.mykronos.com/somepath", title := some "WFM" }
          Session.empty).session).1.hermesLinkedStatus = some "stale" :=
  (validateSession_tab_gone 9 (fun _ => none)
    (setLinkedContext referenceParseURL 5
      { id := some 7, windowId := some 1
        url := some "https://foo.prd.mykronos.com/somepath", title := some "WFM" }
      Session.empty).session (by decide) (by decide)).1

/-- C11, counterexample: tab 7 is linked and then no longer exists; `validateSession`
stores the status `stale`, which is not `closed`; `closed` is only the code of the result
it returns. -/
theorem validateSession_tab_gone_counterexample :
    (setLinkedContext referenceParseURL 5
        { id := some 7, windowId := some 1
          url := some "https://foo.prd.mykronos.com/somepath", title := some "WFM" }
        Session.empty).session.hermesLinkedTabId = some 7
    ∧ (validateSession 9 (fun _ => none)
        (setLinkedContext referenceParseURL 5
          { id := some 7, windowId := some 1
            url := some "https://foo.prd.mykronos.com/somepath", title := some "WFM" }
          Session.empty).session).1.hermesLinkedStatus ≠ some "closed"
    ∧ (validateSession 9 (fun _ => none)
        (setLinkedContext referenceParseURL 5
          { id := some 7, windowId := some 1
            url := some "https://foo.prd.mykronos.com/somepath", title := some "WFM" }
          Session.empty).session).2.code = "closed" := by
  refine ⟨?_, ?_, ?_⟩ <;> decide

/-- C12: when `validateSession` runs on a store that holds a link and the linked tab still
exists with the live URL `url`: if `validateWebPage` rejects `url`, the status becomes
`stale` and the validation message becomes the validator's rejection message; if it
accepts `url`, the status becomes `ok`; in both cases the linked tab id, the linked URL
and the linked origin stay as they were. -/
theorem validateSession_live_tab (now : Nat) (tabsGet : Int → Option Tab) (s : Session)
    (tab : Tab) (url : String) (hlink : hasLink s = true)
    (htab : s.hermesLinkedTabId.bind tabsGet = some tab) (hurl : tab.url = some url) :
    ((validateWebPage url).valid = false →
        (validateSession now tabsGet s).1.hermesLinkedStatus = some "stale"
          ∧ (validateSession now tabsGet s).1.hermesValidationMessage
              = some (validateWebPage url).message)
      ∧ ((validateWebPage url).valid = true →
        (validateSession now tabsGet s).1.hermesLinkedStatus = some "ok")
      ∧ (validateSession now tabsGet s).1.hermesLinkedTabId = s.hermesLinkedTabId
      ∧ (validateSession now tabsGet s).1.hermesLinkedUrl = s.hermesLinkedUrl
      ∧ (validateSession now tabsGet s).1.hermesLinkedOrigin = s.hermesLinkedOrigin := by
  have hguard : (!truthyString s.hermesLinkedUrl || !truthyId s.hermesLinkedTabId) = false := by
    simp only [hasLink, Bool.and_eq_true] at hlink
    simp [hlink.1, hlink.2]
  cases hvalid : (validateWebPage url).valid with
  | false => simp [validateSession, hguard, htab, hurl, hvalid, updateLinkedStatus]
  | true => simp [validateSession, hguard, htab, hurl, hvalid, updateLinkedStatus]

/-- Witness for C12: tab 7, linked on a tenant page, has moved to the login page. -/
theorem validateSession_live_tab_witness :
    (validateSession 9
        (fun _ => some { id := some 7, windowId := some 1
                         url := some "https://foo.prd.mykronos.com/authn/login"
                         title := some "Login" })
        (setLinkedContext referenceParseURL 5
          { id := some 7, windowId := some 1
            url := some "https://foo.prd.mykronos.com/somepath", title := some "WFM" }
          Session.empty).session).1.hermesValidationMessage
      = some "Invalid Login - Authentication Required" :=
  ((validateSession_live_tab 9
      (fun _ => some { id := some 7, windowId := some 1
                       url := some "https://foo.prd.mykronos.com/authn/login"
                       title := some "Login" })
      (setLinkedContext referenceParseURL 5
        { id := some 7, windowId := some 1
          url := some "https://foo.prd.mykronos.com/somepath", title := some "WFM" }
        Session.empty).session
      { id := some 7, windowId := some 1
        url := some "https://foo.prd.mykronos.com/authn/login", title := some "Login" }
      "https://foo.prd.mykronos.com/authn/login" (by decide) (by decide) rfl).1
    (by decide)).2

/-- A call of `validateAndUpdateState` made while the latch is set returns `undefined` at
once: the panel state, with its lookup and write counts, is unchanged. -/
theorem runCall_latched (now : Nat) (tabsGet : Int → Option Tab) (q : PanelState)
    (hlatch : q.checkingState = true) :
    runCall now tabsGet q = (q, CallPhase.returned none) := by
  simp [runCall, stepsCall, stepCall, hlatch]

/-- A single call on a store without a link issues no lookup and no write. -/
theorem runCall_without_link (now : Nat) (tabsGet : Int → Option Tab) (p : PanelState)
    (hlatch : p.checkingState = false) (hlink : hasLink p.session = false) :
    (runCall now tabsGet p).1 = p
      ∧ (runCall now tabsGet p).2 = CallPhase.returned (some
          { ok := false, code := "nolink", message := some "No linked session found"
            validation := none }) := by
  have hguard : (!truthyString p.session.hermesLinkedUrl
      || !truthyId p.session.hermesLinkedTabId) = true := by
    simp only [hasLink, Bool.and_eq_false_iff] at hlink
    rcases hlink with h | h <;> simp [h]
  obtain ⟨session, checking, lookups, writes⟩ := p
  simp only at hlatch hguard
  subst hlatch
  simp [runCall, stepsCall, stepCall, hguard]

/-- A single call on a store with a link, run to its end: it issues one lookup and one
write, leaves the store that `validateSession` computes, returns its result and releases
the latch. -/
theorem runCall_with_link (now : Nat) (tabsGet : Int → Option Tab) (p : PanelState)
    (hlatch : p.checkingState = false) (hlink : hasLink p.session = true) :
    runCall now tabsGet p =
      ({ session := (validateSession now tabsGet p.session).1
         checkingState := false
         tabLookups := p.tabLookups + 1
         linkWrites := p.linkWrites + 1 },
        CallPhase.returned (some (validateSession now tabsGet p.session).2)) := by
  obtain ⟨session, checking, lookups, writes⟩ := p
  simp only at hlatch hlink
  subst hlatch
  simp only [hasLink, Bool.and_eq_true] at hlink
  obtain ⟨hurl, hid⟩ := hlink
  cases hlinked : session.hermesLinkedTabId with
  | none => simp [hlinked, truthyId] at hid
  | some id =>
    rw [hlinked] at hid
    cases htab : tabsGet id with
    | none =>
      simp [runCall, stepsCall, stepCall, issueWrite, validateSession, hurl, hid, hlinked, htab]
    | some tab =>
      cases hlive : tab.url with
      | none =>
        simp [runCall, stepsCall, stepCall, issueWrite, validateSession, hurl, hid, hlinked,
          htab, hlive]
      | some url =>
        cases hvalid : (validateWebPage url).valid with
        | false =>
          simp [runCall, stepsCall, stepCall, issueWrite, validateSession, hurl, hid, hlinked,
            htab, hlive, hvalid]
        | true =>
          simp [runCall, stepsCall, stepCall, issueWrite, validateSession, hurl, hid, hlinked,
            htab, hlive, hvalid]

/-- A call that has returned stays returned. -/
theorem stepsCall_returned (now : Nat) (tabsGet : Int → Option Tab) (n : Nat)
    (q : PanelState) (result : Option SessionCheck) :
    stepsCall now tabsGet n (q, CallPhase.returned result) = (q, CallPhase.returned result) := by
  induction n with
  | zero => rfl
  | succ n ih => simpa [stepsCall, stepCall] using ih

theorem stepsCall_add (now : Nat) (tabsGet : Int → Option Tab) (a b : Nat)
    (state : PanelState × CallPhase) :
    stepsCall now tabsGet (a + b) state
      = stepsCall now tabsGet b (stepsCall now tabsGet a state) := by
  induction a generalizing state with
  | zero => simp [stepsCall]
  | succ a ih =>
    rw [Nat.succ_add]
    simp only [stepsCall]
    exact ih _

/-- After five steps a call that started with the latch clear has returned. -/
theorem runCall_returned (now : Nat) (tabsGet : Int → Option Tab) (p : PanelState)
    (hlatch : p.checkingState = false) :
    ∃ result, (runCall now tabsGet p).2 = CallPhase.returned result := by
  cases hlink : hasLink p.session with
  | true => exact ⟨_, congrArg Prod.snd (runCall_with_link now tabsGet p hlatch hlink)⟩
  | false => exact ⟨_, (runCall_without_link now tabsGet p hlatch hlink).2⟩

/-- While a call is in flight (it has started and not yet returned) the latch is set, less
than five steps are done, and the steps that remain finish the call. -/
theorem stepsCall_in_flight (now : Nat) (tabsGet : Int → Option Tab) (p : PanelState)
    (k : Nat) (hlatch : p.checkingState = false)
    (hflight : (stepsCall now tabsGet k (p, CallPhase.start)).2.inFlight = true) :
    (stepsCall now tabsGet k (p, CallPhase.start)).1.checkingState = true
      ∧ stepsCall now tabsGet (5 - k) (stepsCall now tabsGet k (p, CallPhase.start))
          = runCall now tabsGet p := by
  have hlast : k ≤ 4 := by
    by_contra hlate
    obtain ⟨n, hn⟩ : ∃ n, k = 5 + n := ⟨k - 5, by omega⟩
    obtain ⟨result, hresult⟩ := runCall_returned now tabsGet p hlatch
    have hdone : stepsCall now tabsGet k (p, CallPhase.start)
        = ((runCall now tabsGet p).1, CallPhase.returned result) := by
      rw [hn, stepsCall_add]
      show stepsCall now tabsGet n (runCall now tabsGet p) = _
      rw [show runCall now tabsGet p = ((runCall now tabsGet p).1, CallPhase.returned result)
        from Prod.ext rfl hresult]
      exact stepsCall_returned now tabsGet n _ result
    rw [hdone] at hflight
    simp [CallPhase.inFlight] at hflight
  obtain ⟨session, checking, lookups, writes⟩ := p
  simp only at hlatch
  subst hlatch
  cases hguard : (!truthyString session.hermesLinkedUrl || !truthyId session.hermesLinkedTabId) with
  | true =>
    interval_cases k <;>
      simp [runCall, stepsCall, stepCall, hguard, CallPhase.inFlight] at hflight ⊢
  | false =>
    cases hlinked : session.hermesLinkedTabId with
    | none => simp [hlinked, truthyId] at hguard
    | some id =>
      rw [hlinked] at hguard
      cases htab : tabsGet id with
      | none =>
        interval_cases k <;>
          simp [runCall, stepsCall, stepCall, issueWrite, hguard, hlinked, htab,
            CallPhase.inFlight] at hflight ⊢
      | some tab =>
        cases hlive : tab.url with
        | none =>
          interval_cases k <;>
            simp [runCall, stepsCall, stepCall, issueWrite, hguard, hlinked, htab, hlive,
              CallPhase.inFlight] at hflight ⊢
        | some url =>
          cases hvalid : (validateWebPage url).valid with
          | false =>
            interval_cases k <;>
              simp [runCall, stepsCall, stepCall, issueWrite, hguard, hlinked, htab, hlive,
                hvalid, CallPhase.inFlight] at hflight ⊢
          | true =>
            interval_cases k <;>
              simp [runCall, stepsCall, stepCall, issueWrite, hguard, hlinked, htab, hlive,
                hvalid, CallPhase.inFlight] at hflight ⊢

/-- C13: a call of `validateAndUpdateState` made while the latch `checkingState` is set
issues no linked-tab lookup and no link-state write; so when a second call starts while a
first call on a store with a link is in flight, the two calls together issue exactly one
lookup and one write, those of the first call. -/
theorem overlapping_revalidation (now : Nat) (tabsGet : Int → Option Tab) (now2 : Nat)
    (tabsGet2 : Int → Option Tab) (p : PanelState) (k : Nat)
    (hlatch : p.checkingState = false) (hlink : hasLink p.session = true)
    (hflight : (stepsCall now tabsGet k (p, CallPhase.start)).2.inFlight = true) :
    (∀ q : PanelState, q.checkingState = true →
        runCall now2 tabsGet2 q = (q, CallPhase.returned none))
      ∧ (stepsCall now tabsGet k (p, CallPhase.start)).1.checkingState = true
      ∧ (runOverlapping now tabsGet now2 tabsGet2 k p).2 = CallPhase.returned none
      ∧ (runOverlapping now tabsGet now2 tabsGet2 k p).1.1.tabLookups = p.tabLookups + 1
      ∧ (runOverlapping now tabsGet now2 tabsGet2 k p).1.1.linkWrites = p.linkWrites + 1
      ∧ (runOverlapping now tabsGet now2 tabsGet2 k p).1.1.session
          = (validateSession now tabsGet p.session).1
      ∧ (runOverlapping now tabsGet now2 tabsGet2 k p).1.2
          = CallPhase.returned (some (validateSession now tabsGet p.session).2) := by
  obtain ⟨hset, hrest⟩ := stepsCall_in_flight now tabsGet p k hlatch hflight
  have hsecond := runCall_latched now2 tabsGet2 _ hset
  have hpair : runOverlapping now tabsGet now2 tabsGet2 k p
      = (runCall now tabsGet p, CallPhase.returned none) := by
    unfold runOverlapping
    simp only
    rw [show stepsCall now2 tabsGet2 5
        ((stepsCall now tabsGet k (p, CallPhase.start)).1, CallPhase.start)
        = runCall now2 tabsGet2 (stepsCall now tabsGet k (p, CallPhase.start)).1 from rfl]
    rw [hsecond]
    simp only [Prod.mk.eta, hrest]
  have hsingle := runCall_with_link now tabsGet p hlatch hlink
  refine ⟨fun q hq => runCall_latched now2 tabsGet2 q hq, hset, ?_, ?_, ?_, ?_, ?_⟩
  · rw [hpair]
  · rw [hpair, hsingle]
  · rw [hpair, hsingle]
  · rw [hpair, hsingle]
  · rw [hpair, hsingle]

/-- Witness for C13: tab 7 is linked and still on its page; a second call starts when the
first call has issued its lookup (two steps done). -/
theorem overlapping_revalidation_witness :
    (runOverlapping 9
        (fun _ => some { id := some 7, windowId := some 1
                         url := some "https://foo.prd.mykronos.com/somepath"
                         title := some "WFM" })
        10 (fun _ => none) 2
        { session := (setLinkedContext referenceParseURL 5
            { id := some 7, windowId := some 1
              url := some "https://foo.prd.mykronos.com/somepath", title := some "WFM" }
            Session.empty).session
          checkingState := false, tabLookups := 0, linkWrites := 0 }).1.1.tabLookups = 0 + 1
    ∧ (runOverlapping 9
        (fun _ => some { id := some 7, windowId := some 1
                         url := some "https://foo.prd.mykronos.com/somepath"
                         title := some "WFM" })
        10 (fun _ => none) 2
        { session := (setLinkedContext referenceParseURL 5
            { id := some 7, windowId := some 1
              url := some "https://foo.prd.mykronos.com/somepath", title := some "WFM" }
            Session.empty).session
          checkingState := false, tabLookups := 0, linkWrites := 0 }).1.1.linkWrites = 0 + 1 :=
  have h := overlapping_revalidation 9
    (fun _ => some { id := some 7, windowId := some 1
                     url := some "https://foo.prd.mykronos.com/somepath"
                     title := some "WFM" })
    10 (fun _ => none)
    { session := (setLinkedContext referenceParseURL 5
        { id := some 7, windowId := some 1
          url := some "https://foo.prd.mykronos.com/somepath", title := some "WFM" }
        Session.empty).session
      checkingState := false, tabLookups := 0, linkWrites := 0 }
    2 rfl (by decide) (by decide)
  ⟨h.2.2.2.1, h.2.2.2.2.1⟩

/-! ## Properties of `getClientUrl` -/

/-- A URL that `validateWebPage` accepts is not the empty string. -/
theorem valid_ne_empty (url : String) (h : (validateWebPage url).valid = true) :
    (url != "") = true := by
  rw [bne_iff_ne]
  intro hempty
  subst hempty
  exact absurd h (by decide)

/-- The result of `getVanityUrl` is never the empty string, so `vanityUrl || null` is the
result itself. -/
theorem orNull_getVanityUrl (parseURL : String → Option URL) (url vanityUrl : String)
    (h : getVanityUrl parseURL url = Except.ok vanityUrl) : orNull vanityUrl = some vanityUrl := by
  unfold getVanityUrl at h
  split at h
  · cases h
  · rename_i parsed _
    injection h with h
    have hne : (vanityUrl == "") = false := by
      rw [beq_eq_false_iff_ne]
      intro hempty
      rw [hempty] at h
      have := congrArg (fun t : String => t.data.length) h
      simp [String.data_append] at this
    simp [orNull, hne]

/-- The fallback of `getClientUrl` for an active tab whose URL is accepted. -/
theorem clientUrlFromActiveTab_valid (parseURL : String → Option URL) (tab : Tab)
    (rest : List Tab) (url vanityUrl : String) (hurl : tab.url = some url)
    (hvalid : (validateWebPage url).valid = true)
    (hvanity : getVanityUrl parseURL url = Except.ok vanityUrl) :
    clientUrlFromActiveTab parseURL (tab :: rest) = Settled.resolved (some vanityUrl) := by
  simp [clientUrlFromActiveTab, hurl, hvalid, hvanity, orNull_getVanityUrl parseURL url _ hvanity]

/-- Every value the fallback resolves to is `getVanityUrl` of an accepted URL, the URL of
the active tab. -/
theorem clientUrlFromActiveTab_some (parseURL : String → Option URL) (tabs : List Tab)
    (vanityUrl : String)
    (h : clientUrlFromActiveTab parseURL tabs = Settled.resolved (some vanityUrl)) :
    ∃ tab rest url, tabs = tab :: rest ∧ tab.url = some url
      ∧ (validateWebPage url).valid = true
      ∧ getVanityUrl parseURL url = Except.ok vanityUrl := by
  cases tabs with
  | nil => simp [clientUrlFromActiveTab] at h
  | cons tab rest =>
    cases hurl : tab.url with
    | none => simp [clientUrlFromActiveTab, hurl] at h
    | some url =>
      cases hvalid : (validateWebPage url).valid with
      | false => simp [clientUrlFromActiveTab, hurl, hvalid] at h
      | true =>
        cases hvanity : getVanityUrl parseURL url with
        | error e => simp [clientUrlFromActiveTab, hurl, hvalid, hvanity] at h
        | ok v =>
          simp [clientUrlFromActiveTab, hurl, hvalid, hvanity,
            orNull_getVanityUrl parseURL url v hvanity] at h
          exact ⟨tab, rest, url, rfl, hurl, hvalid, by rw [hvanity, h]⟩

/-- When the linked source does not pass, `getClientUrl` is its fallback. -/
theorem getClientUrl_fallback (parseURL : String → Option URL) (s : Session) (tabs : List Tab)
    (hlinked : ∀ b, getBaseUrl s = some b → (validateWebPage b).valid = false) :
    getClientUrl parseURL s tabs = clientUrlFromActiveTab parseURL tabs := by
  unfold getClientUrl
  cases hbase : getBaseUrl s with
  | none => rfl
  | some b => simp [hlinked b hbase]

/-- When the active tab has a URL: `getBaseUrl` returns the stored linked origin when the
status is `ok` and null for every other status; `getClientUrl` resolves to `getVanityUrl`
of the linked origin when that origin is returned and passes `validateWebPage`, otherwise
to `getVanityUrl` of the active tab's URL when that URL passes, and to null exactly when
neither source passes; so every non-null result is `getVanityUrl` of a URL that
`validateWebPage` accepts. The platform is taken to parse the accepted URLs it hands
over. -/
theorem getClientUrl_sources (parseURL : String → Option URL) (s : Session) (tabs : List Tab)
    (hlinked : ∀ b, getBaseUrl s = some b → (validateWebPage b).valid = true →
      ∃ v, getVanityUrl parseURL b = Except.ok v)
    (hactive : ∀ tab ∈ tabs.head?, ∃ w, tab.url = some w
      ∧ ((validateWebPage w).valid = true → ∃ v, getVanityUrl parseURL w = Except.ok v)) :
    ((s.hermesLinkedStatus = some "ok" → getBaseUrl s = s.hermesLinkedOrigin)
        ∧ (s.hermesLinkedStatus ≠ some "ok" → getBaseUrl s = none))
      ∧ (∀ b v, getBaseUrl s = some b → (validateWebPage b).valid = true →
          getVanityUrl parseURL b = Except.ok v →
          getClientUrl parseURL s tabs = Settled.resolved (some v))
      ∧ ((∀ b, getBaseUrl s = some b → (validateWebPage b).valid = false) →
          ∀ tab rest w v, tabs = tab :: rest → tab.url = some w →
            (validateWebPage w).valid = true → getVanityUrl parseURL w = Except.ok v →
            getClientUrl parseURL s tabs = Settled.resolved (some v))
      ∧ (getClientUrl parseURL s tabs = Settled.resolved none ↔
          (∀ b, getBaseUrl s = some b → (validateWebPage b).valid = false)
            ∧ (∀ tab ∈ tabs.head?, ∀ w, tab.url = some w → (validateWebPage w).valid = false))
      ∧ (∀ v, getClientUrl parseURL s tabs = Settled.resolved (some v) →
          ∃ url, (validateWebPage url).valid = true
            ∧ getVanityUrl parseURL url = Except.ok v) := by
  have hfromLinked : ∀ b v, getBaseUrl s = some b → (validateWebPage b).valid = true →
      getVanityUrl parseURL b = Except.ok v →
      getClientUrl parseURL s tabs = Settled.resolved (some v) := by
    intro b v hbase hvalid hvanity
    simp [getClientUrl, hbase, valid_ne_empty b hvalid, hvalid, hvanity,
      orNull_getVanityUrl parseURL b v hvanity]
  refine ⟨⟨?_, ?_⟩, hfromLinked, ?_, ⟨?_, ?_⟩, ?_⟩
  · intro hok
    simp [getBaseUrl, hok]
  · intro hother
    simp [getBaseUrl, hother]
  · intro hnone tab rest w v htabs hurl hvalid hvanity
    rw [getClientUrl_fallback parseURL s tabs hnone, htabs]
    exact clientUrlFromActiveTab_valid parseURL tab rest w v hurl hvalid hvanity
  · intro hnull
    have hnone : ∀ b, getBaseUrl s = some b → (validateWebPage b).valid = false := by
      intro b hbase
      cases hvalid : (validateWebPage b).valid with
      | false => rfl
      | true =>
        obtain ⟨v, hv⟩ := hlinked b hbase hvalid
        rw [hfromLinked b v hbase hvalid hv] at hnull
        cases hnull
    refine ⟨hnone, ?_⟩
    intro tab htab w hurl
    cases hvalid : (validateWebPage w).valid with
    | false => rfl
    | true =>
      obtain ⟨w', hw', hparse⟩ := hactive tab htab
      rw [hurl] at hw'
      cases hw'
      obtain ⟨v, hv⟩ := hparse hvalid
      cases tabs with
      | nil => simp at htab
      | cons first rest =>
        simp only [List.head?_cons, Option.mem_def, Option.some.injEq] at htab
        subst htab
        rw [getClientUrl_fallback parseURL s _ hnone,
          clientUrlFromActiveTab_valid parseURL first rest w v hurl hvalid hv] at hnull
        cases hnull
  · rintro ⟨hnone, hrejected⟩
    rw [getClientUrl_fallback parseURL s tabs hnone]
    cases tabs with
    | nil => rfl
    | cons first rest =>
      obtain ⟨w, hw, _⟩ := hactive first (by simp)
      have hinvalid := hrejected first (by simp) w hw
      simp [clientUrlFromActiveTab, hw, hinvalid]
  · intro v hsome
    by_cases hpass : ∃ b, getBaseUrl s = some b ∧ (validateWebPage b).valid = true
    · obtain ⟨b, hbase, hvalid⟩ := hpass
      obtain ⟨v', hv'⟩ := hlinked b hbase hvalid
      rw [hfromLinked b v' hbase hvalid hv'] at hsome
      injection hsome with hsome
      injection hsome with hsome
      exact ⟨b, hvalid, by rw [hv', hsome]⟩
    · have hnone : ∀ b, getBaseUrl s = some b → (validateWebPage b).valid = false := by
        intro b hbase
        cases hvalid : (validateWebPage b).valid with
        | false => rfl
        | true => exact absurd ⟨b, hbase, hvalid⟩ hpass
      rw [getClientUrl_fallback parseURL s tabs hnone] at hsome
      obtain ⟨tab, rest, url, _, _, hvalid, hvanity⟩ :=
        clientUrlFromActiveTab_some parseURL tabs v hsome
      exact ⟨url, hvalid, hvanity⟩

/-- An instance: the store links tab 7 on a tenant page with status `ok`; the linked
origin is accepted and `getClientUrl` resolves to its canonical form, whatever the active
tab shows. -/
theorem getClientUrl_sources_witness :
    getClientUrl referenceParseURL
        (setLinkedContext referenceParseURL 5
          { id := some 7, windowId := some 1
            url := some "https://foo.prd.mykronos.com/somepath", title := some "WFM" }
          Session.empty).session
        [{ id := some 8, windowId := some 1, url := some "https://example.com/"
           title := some "Example" }]
      = Settled.resolved (some "https://foo-nosso.prd.mykronos.com/") :=
  (getClientUrl_sources referenceParseURL
      (setLinkedContext referenceParseURL 5
        { id := some 7, windowId := some 1
          url := some "https://foo.prd.mykronos.com/somepath", title := some "WFM" }
        Session.empty).session
      [{ id := some 8, windowId := some 1, url := some "https://example.com/"
         title := some "Example" }]
      (by
        intro b hbase _
        have hb : b = "https://foo-nosso.prd.mykronos.com/" := by
          have hstored : getBaseUrl (setLinkedContext referenceParseURL 5
              { id := some 7, windowId := some 1
                url := some "https://foo.prd.mykronos.com/somepath", title := some "WFM" }
              Session.empty).session = some "https://foo-nosso.prd.mykronos.com/" := by
            decide
          rw [hstored] at hbase
          injection hbase with hbase
          exact hbase.symm
        subst hb
        exact ⟨"https://foo-nosso.prd.mykronos.com/", rfl⟩)
      (by
        intro tab htab
        simp only [List.head?_cons, Option.mem_def, Option.some.injEq] at htab
        subst htab
        exact ⟨"https://example.com/", rfl, fun h => absurd h (by decide)⟩)).2.1
    "https://foo-nosso.prd.mykronos.com/" "https://foo-nosso.prd.mykronos.com/"
    (by decide) (by decide) rfl

/-- C14: with no link in the store and an active tab that has no URL, neither source
passes, yet `getClientUrl` does not resolve to null: the callback of `chrome.tabs.query`
throws in `validateWebPage(undefined)` and the promise never settles. Without an active
tab, and with an active tab on a page that is rejected, it resolves to null. -/
theorem getClientUrl_never_settles :
    getBaseUrl Session.empty = none
      ∧ getClientUrl referenceParseURL Session.empty
          [{ id := some 8, windowId := some 1, url := none, title := some "New Tab" }]
        = Settled.pending
      ∧ getClientUrl referenceParseURL Session.empty [] = Settled.resolved none
      ∧ getClientUrl referenceParseURL Session.empty
          [{ id := some 8, windowId := some 1, url := some "https://example.com/"
             title := some "Example" }]
        = Settled.resolved none := by
  decide

/-! ## Properties of the token lifecycle -/

theorem ClientData.set_same (data : ClientData) (key : String) (record : ClientRecord) :
    data.set key record key = some record := by
  simp [ClientData.set]

theorem ClientData.set_other (data : ClientData) (key other : String) (record : ClientRecord)
    (h : other ≠ key) : data.set key record other = data other := by
  simp [ClientData.set, h]

/-- C15: for every token response in which `accessToken`, `refreshToken` or
`expiresInSeconds` is missing, empty or zero, `processTokenResponse` fails with
"Failed to fetch token: Invalid response." and writes nothing: the credential map after
the call is the map before it. -/
theorem processTokenResponse_invalid (parseURL : String → Option URL) (now : Int)
    (result : TokenResponse) (tokenurl clientID : String) (data : ClientData)
    (hmissing : truthyString result.accessToken = false
      ∨ truthyString result.refreshToken = false
      ∨ truthyNumber result.expiresInSeconds = false) :
    (processTokenResponse parseURL now result tokenurl clientID data).data = data
      ∧ (processTokenResponse parseURL now result tokenurl clientID data).feedback
        = { alert := some "Failed to fetch token: Invalid response."
            button := some "Token Failed!" } := by
  have hguard : (!truthyString result.accessToken || !truthyString result.refreshToken
      || !truthyNumber result.expiresInSeconds) = true := by
    rcases hmissing with h | h | h <;> simp [h]
  simp only [processTokenResponse, hguard, if_true, and_self]

/-- Witness for C15: a response whose `expiresInSeconds` is zero, for a tenant that has a
record. -/
theorem processTokenResponse_invalid_witness :
    (processTokenResponse referenceParseURL 1000
        { accessToken := some "A", refreshToken := some "R", expiresInSeconds := some 0 }
        "https://foo-nosso.prd.mykronos.com/" "client"
        (fun _ => some { ClientRecord.empty with clientid := some "client" })).data
        "https://foo-nosso.prd.mykronos.com/"
      = some { ClientRecord.empty with clientid := some "client" } :=
  congrFun (processTokenResponse_invalid referenceParseURL 1000
    { accessToken := some "A", refreshToken := some "R", expiresInSeconds := some 0 }
    "https://foo-nosso.prd.mykronos.com/" "client"
    (fun _ => some { ClientRecord.empty with clientid := some "client" })
    (Or.inr (Or.inr rfl))).1 "https://foo-nosso.prd.mykronos.com/"

/-- What a successful `processTokenResponse` stores: the tenant's record with the fields
of the token fetch overwritten, under the key `new URL(tokenurl).origin + "/"`. -/
theorem processTokenResponse_stores (parseURL : String → Option URL) (now : Int)
    (result : TokenResponse) (tokenurl clientID : String) (data : ClientData) (url : URL)
    (haccess : truthyString result.accessToken = true)
    (hrefresh : truthyString result.refreshToken = true)
    (hexpires : truthyNumber result.expiresInSeconds = true)
    (hparse : parseURL tokenurl = some url) :
    processTokenResponse parseURL now result tokenurl clientID data =
      { data := data.set (url.origin ++ "/")
          { data.recordOrEmpty (url.origin ++ "/") with
            clientid := some clientID
            tokenurl := some tokenurl
            apiurl :=
              if truthyString (data.recordOrEmpty (url.origin ++ "/")).apiurl then
                (data.recordOrEmpty (url.origin ++ "/")).apiurl
              else some (url.origin ++ "/" ++ "api")
            accesstoken := result.accessToken
            refreshtoken := result.refreshToken
            effectivedatetime := some now
            expirationdatetime := result.expiresInSeconds.map (fun s => now + s * 1000)
            refreshExpirationDateTime := some (now + 8 * 60 * 60 * 1000)
            editdatetime := some now }
        feedback := { alert := none, button := some "Token Retrieved!" } } := by
  simp [processTokenResponse, haccess, hrefresh, hexpires, hparse]

/-- C16: for every valid token response with `expiresInSeconds = secs`, processed at the
instant `now`, the record stored for the tenant has the access-token expiry
`now + 1000 * secs` milliseconds and the refresh-token expiry `now + 28800000`
milliseconds (8 hours), whatever the other fields of the response are. -/
theorem processTokenResponse_expiry (parseURL : String → Option URL) (now : Int)
    (result : TokenResponse) (tokenurl clientID : String) (data : ClientData) (url : URL)
    (secs : Int)
    (haccess : truthyString result.accessToken = true)
    (hrefresh : truthyString result.refreshToken = true)
    (hsecs : result.expiresInSeconds = some secs) (hnonzero : secs ≠ 0)
    (hparse : parseURL tokenurl = some url) :
    ∃ record : ClientRecord,
      (processTokenResponse parseURL now result tokenurl clientID data).data (url.origin ++ "/")
          = some record
        ∧ record.expirationdatetime = some (now + 1000 * secs)
        ∧ record.refreshExpirationDateTime = some (now + 28800000) := by
  have hexpires : truthyNumber result.expiresInSeconds = true := by
    simp [truthyNumber, hsecs, hnonzero]
  rw [processTokenResponse_stores parseURL now result tokenurl clientID data url haccess
    hrefresh hexpires hparse]
  refine ⟨_, ClientData.set_same _ _ _, ?_, ?_⟩
  · simp only [hsecs, Option.map_some', Option.some.injEq]
    ring
  · simp only [Option.some.injEq]
    norm_num

/-- Witness for C16: `expiresInSeconds = 3600` at the instant `1000` gives the expiries
`1000 + 3600 s` and `1000 + 8 h`. -/
theorem processTokenResponse_expiry_witness :
    ∃ record : ClientRecord,
      (processTokenResponse referenceParseURL 1000
          { accessToken := some "A", refreshToken := some "R", expiresInSeconds := some 3600 }
          "https://foo-nosso.prd.mykronos.com/" "client" (fun _ => none)).data
          ("https://foo-nosso.prd.mykronos.com" ++ "/")
          = some record
        ∧ record.expirationdatetime = some (1000 + 1000 * 3600)
        ∧ record.refreshExpirationDateTime = some (1000 + 28800000) :=
  processTokenResponse_expiry referenceParseURL 1000
    { accessToken := some "A", refreshToken := some "R", expiresInSeconds := some 3600 }
    "https://foo-nosso.prd.mykronos.com/" "client" (fun _ => none)
    { protocol := "https:", hostname := "foo-nosso.prd.mykronos.com"
      origin := "https://foo-nosso.prd.mykronos.com" }
    3600 rfl rfl rfl (by decide) rfl

/-- C17: a successful `processTokenResponse` merges into the tenant's existing record: the
stored record is the existing one with the fields of the token fetch overwritten, so the
client secret keeps its value, an existing non-empty `apiurl` keeps its value, and the
records of all other tenants are unchanged. -/
theorem processTokenResponse_merge (parseURL : String → Option URL) (now : Int)
    (result : TokenResponse) (tokenurl clientID : String) (data : ClientData) (url : URL)
    (haccess : truthyString result.accessToken = true)
    (hrefresh : truthyString result.refreshToken = true)
    (hexpires : truthyNumber result.expiresInSeconds = true)
    (hparse : parseURL tokenurl = some url) :
    ∃ record : ClientRecord,
      (processTokenResponse parseURL now result tokenurl clientID data).data (url.origin ++ "/")
          = some record
        ∧ record.clientsecret = (data.recordOrEmpty (url.origin ++ "/")).clientsecret
        ∧ (truthyString (data.recordOrEmpty (url.origin ++ "/")).apiurl = true →
            record.apiurl = (data.recordOrEmpty (url.origin ++ "/")).apiurl)
        ∧ record =
            { data.recordOrEmpty (url.origin ++ "/") with
              clientid := record.clientid
              tokenurl := record.tokenurl
              apiurl := record.apiurl
              accesstoken := record.accesstoken
              refreshtoken := record.refreshtoken
              effectivedatetime := record.effectivedatetime
              expirationdatetime := record.expirationdatetime
              refreshExpirationDateTime := record.refreshExpirationDateTime
              editdatetime := record.editdatetime }
        ∧ ∀ other : String, other ≠ url.origin ++ "/" →
            (processTokenResponse parseURL now result tokenurl clientID data).data other
              = data other := by
  rw [processTokenResponse_stores parseURL now result tokenurl clientID data url haccess
    hrefresh hexpires hparse]
  refine ⟨_, ClientData.set_same _ _ _, rfl, ?_, rfl, ?_⟩
  · intro hapi
    simp [hapi]
  · intro other hother
    exact ClientData.set_other _ _ _ _ hother

/-- Witness for C17: the tenant has a record with a client secret and an `apiurl`; both
survive the token fetch. -/
theorem processTokenResponse_merge_witness :
    ∃ record : ClientRecord,
      (processTokenResponse referenceParseURL 1000
          { accessToken := some "A", refreshToken := some "R", expiresInSeconds := some 3600 }
          "https://foo-nosso.prd.mykronos.com/" "client"
          (fun _ => some { ClientRecord.empty with
                            clientsecret := some "S", apiurl := some "https://api/" })).data
          ("https://foo-nosso.prd.mykronos.com" ++ "/")
          = some record
        ∧ record.clientsecret = some "S" ∧ record.apiurl = some "https://api/" :=
  have h := processTokenResponse_merge referenceParseURL 1000
    { accessToken := some "A", refreshToken := some "R", expiresInSeconds := some 3600 }
    "https://foo-nosso.prd.mykronos.com/" "client"
    (fun _ => some { ClientRecord.empty with
                      clientsecret := some "S", apiurl := some "https://api/" })
    { protocol := "https:", hostname := "foo-nosso.prd.mykronos.com"
      origin := "https://foo-nosso.prd.mykronos.com" }
    rfl rfl rfl rfl
  h.elim fun record hrecord => ⟨record, hrecord.1, hrecord.2.1, hrecord.2.2.1 rfl⟩

/-- With a valid session, a refresh token that is missing or expired stops
`refreshAccessToken` before any request. -/
theorem refreshAccessToken_no_token (clienturl : String) (now later : Int)
    (response : FetchResult) (data : ClientData) (hurl : clienturl ≠ "")
    (hfail : truthyString (data.recordOrEmpty clienturl).refreshtoken = false
      ∨ isPast now (data.recordOrEmpty clienturl).refreshExpirationDateTime = true) :
    refreshAccessToken (some clienturl) true now later response data =
      { data := data, requests := [], feedback := noValidTokenFeedback } := by
  have hguard : (!truthyString (data.recordOrEmpty clienturl).refreshtoken
      || (data.recordOrEmpty clienturl).refreshtoken == some "Refresh Token"
      || isPast now (data.recordOrEmpty clienturl).refreshExpirationDateTime) = true := by
    rcases hfail with h | h <;> simp [h]
  have hne : (clienturl == "") = false := beq_eq_false_iff_ne.mpr hurl
  simp only [refreshAccessToken, hne, Bool.not_true, Bool.or_self, Bool.false_eq_true,
    if_false, hguard, if_true, noValidTokenFeedback]

/-- With a valid session and a usable refresh token, a missing client secret stops
`refreshAccessToken` before any request. -/
theorem refreshAccessToken_no_secret (clienturl : String) (now later : Int)
    (response : FetchResult) (data : ClientData) (hurl : clienturl ≠ "")
    (htoken : (!truthyString (data.recordOrEmpty clienturl).refreshtoken
      || (data.recordOrEmpty clienturl).refreshtoken == some "Refresh Token"
      || isPast now (data.recordOrEmpty clienturl).refreshExpirationDateTime) = false)
    (hsecret : truthyString (data.recordOrEmpty clienturl).clientsecret = false) :
    refreshAccessToken (some clienturl) true now later response data =
      { data := data, requests := [], feedback := missingSecretFeedback } := by
  have hne : (clienturl == "") = false := beq_eq_false_iff_ne.mpr hurl
  simp only [refreshAccessToken, hne, Bool.not_true, Bool.or_self, Bool.false_eq_true,
    if_false, htoken, hsecret, Bool.not_false, Bool.true_or, if_true, missingSecretFeedback]

/-- C18: with a valid session, if the stored record has no refresh token, or its
`refreshExpirationDateTime` is in the past, or it has no client secret, then
`refreshAccessToken` sends no request and leaves the credential map as it was. -/
theorem refreshAccessToken_preconditions (clienturl : String) (now later : Int)
    (response : FetchResult) (data : ClientData) (hurl : clienturl ≠ "")
    (hfail : truthyString (data.recordOrEmpty clienturl).refreshtoken = false
      ∨ (∃ expiry, (data.recordOrEmpty clienturl).refreshExpirationDateTime = some expiry
          ∧ expiry < now)
      ∨ truthyString (data.recordOrEmpty clienturl).clientsecret = false) :
    (refreshAccessToken (some clienturl) true now later response data).requests = []
      ∧ (refreshAccessToken (some clienturl) true now later response data).data = data := by
  cases htoken : (!truthyString (data.recordOrEmpty clienturl).refreshtoken
      || (data.recordOrEmpty clienturl).refreshtoken == some "Refresh Token"
      || isPast now (data.recordOrEmpty clienturl).refreshExpirationDateTime) with
  | true =>
    have hne : (clienturl == "") = false := beq_eq_false_iff_ne.mpr hurl
    simp only [refreshAccessToken, hne, Bool.not_true, Bool.or_self, Bool.false_eq_true,
      if_false, htoken, if_true, and_self]
  | false =>
    have hsecret : truthyString (data.recordOrEmpty clienturl).clientsecret = false := by
      simp only [Bool.or_eq_false_iff, Bool.not_eq_false'] at htoken
      rcases hfail with h | ⟨expiry, hexpiry, hpast⟩ | h
      · rw [h] at htoken
        exact absurd htoken.1.1 (by decide)
      · have : isPast now (data.recordOrEmpty clienturl).refreshExpirationDateTime = true := by
          simp [isPast, hexpiry, hpast]
        rw [this] at htoken
        exact absurd htoken.2 (by decide)
      · exact h
    rw [refreshAccessToken_no_secret clienturl now later response data hurl htoken hsecret]
    exact ⟨rfl, rfl⟩

/-- Witness for C18: the refresh token of the record expired at the instant 500, and the
call is made at the instant 1000. -/
theorem refreshAccessToken_preconditions_witness :
    (refreshAccessToken (some "https://foo-nosso.prd.mykronos.com/") true 1000 2000
        (FetchResult.json (some "T") (some 3600))
        (fun _ => some { ClientRecord.empty with
                          refreshtoken := some "R", refreshExpirationDateTime := some 500
                          clientsecret := some "S" })).requests = []
      ∧ (refreshAccessToken (some "https://foo-nosso.prd.mykronos.com/") true 1000 2000
        (FetchResult.json (some "T") (some 3600))
        (fun _ => some { ClientRecord.empty with
                          refreshtoken := some "R", refreshExpirationDateTime := some 500
                          clientsecret := some "S" })).data
        = (fun _ => some { ClientRecord.empty with
                            refreshtoken := some "R", refreshExpirationDateTime := some 500
                            clientsecret := some "S" }) :=
  refreshAccessToken_preconditions "https://foo-nosso.prd.mykronos.com/" 1000 2000
    (FetchResult.json (some "T") (some 3600))
    (fun _ => some { ClientRecord.empty with
                      refreshtoken := some "R", refreshExpirationDateTime := some 500
                      clientsecret := some "S" })
    (by decide) (Or.inr (Or.inl ⟨500, rfl, by decide⟩))

/-- C19 (amended): `refreshAccessToken` reports its precondition failures with two
reasons: a missing refresh token and an expired refresh token yield the same reason
("No valid Refresh Token found. Please retrieve an Access Token first."), and a missing
client secret, with a usable refresh token, yields a different reason
("Client Secret is required to refresh the Access Token."). -/
theorem refreshAccessToken_reasons (clienturl : String) (now later : Int)
    (response : FetchResult) (missing expired secretless : ClientData)
    (hurl : clienturl ≠ "")
    (hmissing : truthyString (missing.recordOrEmpty clienturl).refreshtoken = false)
    (hexpired : isPast now (expired.recordOrEmpty clienturl).refreshExpirationDateTime = true)
    (htoken : (!truthyString (secretless.recordOrEmpty clienturl).refreshtoken
      || (secretless.recordOrEmpty clienturl).refreshtoken == some "Refresh Token"
      || isPast now (secretless.recordOrEmpty clienturl).refreshExpirationDateTime) = false)
    (hsecret : truthyString (secretless.recordOrEmpty clienturl).clientsecret = false) :
    (refreshAccessToken (some clienturl) true now later response missing).feedback
        = noValidTokenFeedback
      ∧ (refreshAccessToken (some clienturl) true now later response expired).feedback
        = noValidTokenFeedback
      ∧ (refreshAccessToken (some clienturl) true now later response secretless).feedback
        = missingSecretFeedback
      ∧ noValidTokenFeedback.alert ≠ missingSecretFeedback.alert
      ∧ noValidTokenFeedback.button ≠ missingSecretFeedback.button := by
  rw [refreshAccessToken_no_token clienturl now later response missing hurl (Or.inl hmissing),
    refreshAccessToken_no_token clienturl now later response expired hurl (Or.inr hexpired),
    refreshAccessToken_no_secret clienturl now later response secretless hurl htoken hsecret]
  exact ⟨rfl, rfl, rfl, by decide, by decide⟩

/-- Witness for C19 (amended): three records for one tenant, the first without a refresh
token, the second with an expired one, the third without a client secret. -/
theorem refreshAccessToken_reasons_witness :
    (refreshAccessToken (some "https://foo-nosso.prd.mykronos.com/") true 1000 2000
        (FetchResult.json (some "T") (some 3600))
        (fun _ => some { ClientRecord.empty with clientsecret := some "S" })).feedback
      = (refreshAccessToken (some "https://foo-nosso.prd.mykronos.com/") true 1000 2000
        (FetchResult.json (some "T") (some 3600))
        (fun _ => some { ClientRecord.empty with
                          refreshtoken := some "R", refreshExpirationDateTime := some 500
                          clientsecret := some "S" })).feedback :=
  have h := refreshAccessToken_reasons "https://foo-nosso.prd.mykronos.com/" 1000 2000
    (FetchResult.json (some "T") (some 3600))
    (fun _ => some { ClientRecord.empty with clientsecret := some "S" })
    (fun _ => some { ClientRecord.empty with
                      refreshtoken := some "R", refreshExpirationDateTime := some 500
                      clientsecret := some "S" })
    (fun _ => some { ClientRecord.empty with
                      refreshtoken := some "R", refreshExpirationDateTime := some 5000 })
    (by decide) rfl (by decide) (by decide) rfl
  h.1.trans h.2.1.symm

/-- C19, counterexample: a record with no refresh token and a record whose refresh token
has expired are refused with one and the same reason. -/
theorem refreshAccessToken_reasons_counterexample :
    truthyString (ClientData.recordOrEmpty
        (fun _ => some { ClientRecord.empty with clientsecret := some "S" })
        "https://foo-nosso.prd.mykronos.com/").refreshtoken = false
      ∧ truthyString (ClientData.recordOrEmpty
        (fun _ => some { ClientRecord.empty with
                          refreshtoken := some "R", refreshExpirationDateTime := some 500
                          clientsecret := some "S" })
        "https://foo-nosso.prd.mykronos.com/").refreshtoken = true
      ∧ (refreshAccessToken (some "https://foo-nosso.prd.mykronos.com/") true 1000 2000
          (FetchResult.json (some "T") (some 3600))
          (fun _ => some { ClientRecord.empty with clientsecret := some "S" })).feedback
        = (refreshAccessToken (some "https://foo-nosso.prd.mykronos.com/") true 1000 2000
          (FetchResult.json (some "T") (some 3600))
          (fun _ => some { ClientRecord.empty with
                            refreshtoken := some "R", refreshExpirationDateTime := some 500
                            clientsecret := some "S" })).feedback := by
  refine ⟨?_, ?_, ?_⟩ <;> decide

/-- C20: for every stored record and every valid refresh response, a successful
`refreshAccessToken` sends one request and replaces, in the tenant's record, only the
access token, its expiry (the instant after the response plus `expires_in` seconds) and
the last-edited timestamp; the refresh token, its expiry, `clientid`, `clientsecret`,
`tokenurl` and `apiurl` are as before, and so are the records of all other tenants. -/
theorem refreshAccessToken_success (clienturl : String) (now later : Int)
    (token : String) (secs : Int) (data : ClientData) (hurl : clienturl ≠ "")
    (htoken : (!truthyString (data.recordOrEmpty clienturl).refreshtoken
      || (data.recordOrEmpty clienturl).refreshtoken == some "Refresh Token"
      || isPast now (data.recordOrEmpty clienturl).refreshExpirationDateTime) = false)
    (hsecret : (!truthyString (data.recordOrEmpty clienturl).clientsecret
      || (data.recordOrEmpty clienturl).clientsecret == some "Enter Client Secret") = false)
    (haccess : token ≠ "") (hsecs : secs ≠ 0) :
    ∃ record : ClientRecord,
      (refreshAccessToken (some clienturl) true now later
          (FetchResult.json (some token) (some secs)) data).data clienturl = some record
        ∧ record =
            { data.recordOrEmpty clienturl with
              accesstoken := some token
              expirationdatetime := some (later + secs * 1000)
              editdatetime := some later }
        ∧ record.refreshtoken = (data.recordOrEmpty clienturl).refreshtoken
        ∧ record.refreshExpirationDateTime
            = (data.recordOrEmpty clienturl).refreshExpirationDateTime
        ∧ record.clientid = (data.recordOrEmpty clienturl).clientid
        ∧ record.clientsecret = (data.recordOrEmpty clienturl).clientsecret
        ∧ record.tokenurl = (data.recordOrEmpty clienturl).tokenurl
        ∧ record.apiurl = (data.recordOrEmpty clienturl).apiurl
        ∧ (∀ other : String, other ≠ clienturl →
            (refreshAccessToken (some clienturl) true now later
              (FetchResult.json (some token) (some secs)) data).data other = data other)
        ∧ (refreshAccessToken (some clienturl) true now later
            (FetchResult.json (some token) (some secs)) data).requests.length = 1 := by
  have hout : refreshAccessToken (some clienturl) true now later
      (FetchResult.json (some token) (some secs)) data =
      { data := data.set clienturl
          { data.recordOrEmpty clienturl with
            accesstoken := some token
            expirationdatetime := some (later + secs * 1000)
            editdatetime := some later }
        requests :=
          [{ url := clienturl ++ "api/authentication/access_token"
             refresh_token := (data.recordOrEmpty clienturl).refreshtoken
             client_id := (data.recordOrEmpty clienturl).clientid
             client_secret := (data.recordOrEmpty clienturl).clientsecret }]
        feedback := { alert := none, button := some "Token Refreshed!" } } := by
    have hne : (clienturl == "") = false := beq_eq_false_iff_ne.mpr hurl
    have haccess' : truthyString (some token) = true := by simp [truthyString, haccess]
    have hsecs' : truthyNumber (some secs) = true := by simp [truthyNumber, hsecs]
    simp only [refreshAccessToken, hne, htoken, hsecret, haccess', hsecs', Bool.not_true,
      Bool.or_self, Bool.false_eq_true, if_false, Option.map_some']
  rw [hout]
  exact ⟨_, ClientData.set_same _ _ _, rfl, rfl, rfl, rfl, rfl, rfl, rfl,
    fun other hother => ClientData.set_other _ _ _ _ hother, rfl⟩

/-- Witness for C20: a record with refresh token and client secret, refreshed at the
instant 2000 with `expires_in = 3600`. -/
theorem refreshAccessToken_success_witness :
    ∃ record : ClientRecord,
      (refreshAccessToken (some "https://foo-nosso.prd.mykronos.com/") true 1000 2000
          (FetchResult.json (some "T") (some 3600))
          (fun _ => some { ClientRecord.empty with
                            refreshtoken := some "R", refreshExpirationDateTime := some 5000
                            clientsecret := some "S" })).data
          "https://foo-nosso.prd.mykronos.com/" = some record
        ∧ record.accesstoken = some "T"
        ∧ record.expirationdatetime = some (2000 + 3600 * 1000)
        ∧ record.refreshtoken = some "R" :=
  have h := refreshAccessToken_success "https://foo-nosso.prd.mykronos.com/" 1000 2000 "T"
    3600
    (fun _ => some { ClientRecord.empty with
                      refreshtoken := some "R", refreshExpirationDateTime := some 5000
                      clientsecret := some "S" })
    (by decide) (by decide) (by decide) (by decide) (by decide)
  h.elim fun record hrecord =>
    ⟨record, hrecord.1, by rw [hrecord.2.1], by rw [hrecord.2.1], hrecord.2.2.1⟩

/-! ### A linked tab id comes with a linked URL -/

/-- Writes that leave the linked tab id and the linked URL alone keep `LinkHasUrl`. -/
theorem linkHasUrl_of_same (s t : Session) (h : LinkHasUrl s)
    (hid : t.hermesLinkedTabId = s.hermesLinkedTabId)
    (hurl : t.hermesLinkedUrl = s.hermesLinkedUrl) : LinkHasUrl t := by
  unfold LinkHasUrl
  rw [hid, hurl]
  exact h

/-- Writing a non-empty linked URL establishes `LinkHasUrl`. -/
theorem linkHasUrl_of_url (t : Session) (url : String) (hurl : t.hermesLinkedUrl = some url)
    (hne : (url != "") = true) : LinkHasUrl t := by
  intro _
  rw [hurl]
  exact hne

theorem setLinkedContext_hasUrl (parseURL : String → Option URL) (now : Nat) (tab : Tab)
    (s : Session) (h : LinkHasUrl s) :
    LinkHasUrl (setLinkedContext parseURL now tab s).session := by
  cases hid : truthyId tab.id with
  | false => simpa [setLinkedContext, hid] using h
  | true =>
    cases hurl : tab.url with
    | none => simpa [setLinkedContext, hid, hurl] using h
    | some url =>
      cases hvalid : (validateWebPage url).valid with
      | false => simpa [setLinkedContext, hid, hurl, hvalid] using h
      | true =>
        cases hvanity : getVanityUrl parseURL url with
        | error e => simpa [setLinkedContext, hid, hurl, hvalid, hvanity] using h
        | ok origin =>
          simp only [setLinkedContext, hid, hurl, hvalid, hvanity]
          exact linkHasUrl_of_url _ url rfl (valid_ne_empty url hvalid)

theorem updateLinkedTitle_hasUrl (now : Nat) (changeInfo : ChangeInfo) (s : Session)
    (h : LinkHasUrl s) : LinkHasUrl (updateLinkedTitle now changeInfo s) := by
  cases htitle : truthyString changeInfo.title with
  | false => simpa [updateLinkedTitle, htitle] using h
  | true =>
    simp only [updateLinkedTitle, htitle]
    exact linkHasUrl_of_same s _ h rfl rfl

theorem handleHermesOpen_hasUrl (parseURL : String → Option URL) (now : Nat)
    (panel : Option Thrown) (tab : Tab) (s : Session) (h : LinkHasUrl s) :
    LinkHasUrl (handleHermesOpen parseURL now panel tab s).session := by
  have hopen : LinkHasUrl { s with hermesGlobalOpen := some true } := h
  cases panel with
  | some e => simpa [handleHermesOpen] using h
  | none =>
    cases hurl : tab.url with
    | none => simpa [handleHermesOpen, hurl] using hopen
    | some url =>
      cases hvalid : (validateWebPage url).valid with
      | true =>
        simpa [handleHermesOpen, hurl, hvalid]
          using setLinkedContext_hasUrl parseURL now tab _ hopen
      | false =>
        simp only [handleHermesOpen, hurl, hvalid]
        exact linkHasUrl_of_same s _ h rfl rfl

theorem handleTabUpdate_hasUrl (parseURL : String → Option URL) (now : Nat) (tabId : Int)
    (changeInfo : ChangeInfo) (tab : Tab) (s : Session) (h : LinkHasUrl s) :
    LinkHasUrl (handleTabUpdate parseURL now tabId changeInfo tab s) := by
  cases hguard : (!truthyId s.hermesLinkedTabId || some tabId != s.hermesLinkedTabId) with
  | true => simpa [handleTabUpdate, hguard] using h
  | false =>
    cases hurl : changeInfo.url with
    | none =>
      simpa [handleTabUpdate, hguard, hurl] using updateLinkedTitle_hasUrl now changeInfo s h
    | some url =>
      cases hempty : (url == "") with
      | true =>
        simpa [handleTabUpdate, hguard, hurl, hempty]
          using updateLinkedTitle_hasUrl now changeInfo s h
      | false =>
        cases hvalid : (validateWebPage url).valid with
        | true =>
          have hset := setLinkedContext_hasUrl parseURL now
            { id := some tabId, windowId := tab.windowId, url := some url, title := tab.title }
            s h
          cases hthrown : (setLinkedContext parseURL now
            { id := some tabId, windowId := tab.windowId, url := some url, title := tab.title }
            s).thrown with
          | some e => simpa [handleTabUpdate, hguard, hurl, hempty, hvalid, hthrown] using hset
          | none =>
            simpa [handleTabUpdate, hguard, hurl, hempty, hvalid, hthrown]
              using updateLinkedTitle_hasUrl now changeInfo _ hset
        | false =>
          simp only [handleTabUpdate, hguard, hurl, hempty, hvalid]
          refine updateLinkedTitle_hasUrl now changeInfo _ (linkHasUrl_of_url _ url rfl ?_)
          simp [bne, hempty]

theorem handleTabRemoved_hasUrl (now : Nat) (tabId : Int) (s : Session)
    (h : LinkHasUrl s) : LinkHasUrl (handleTabRemoved now tabId s) := by
  cases hguard : (truthyId s.hermesLinkedTabId && some tabId == s.hermesLinkedTabId) with
  | true =>
    simp only [handleTabRemoved, hguard, if_true]
    intro hid
    simp [clearLinkedContext] at hid
  | false => simpa [handleTabRemoved, hguard] using h

theorem validateSession_hasUrl (now : Nat) (tabsGet : Int → Option Tab) (s : Session)
    (h : LinkHasUrl s) : LinkHasUrl (validateSession now tabsGet s).1 := by
  have hkeep : ∀ status message, LinkHasUrl (updateLinkedStatus now status message s) :=
    fun _ _ => linkHasUrl_of_same s _ h rfl rfl
  cases hguard : (!truthyString s.hermesLinkedUrl || !truthyId s.hermesLinkedTabId) with
  | true => simpa [validateSession, hguard] using h
  | false =>
    cases htab : s.hermesLinkedTabId.bind tabsGet with
    | none => simpa [validateSession, hguard, htab] using hkeep _ _
    | some tab =>
      cases hurl : tab.url with
      | none => simpa [validateSession, hguard, htab, hurl] using hkeep _ _
      | some url =>
        cases hvalid : (validateWebPage url).valid with
        | false => simpa [validateSession, hguard, htab, hurl, hvalid] using hkeep _ _
        | true => simpa [validateSession, hguard, htab, hurl, hvalid] using hkeep _ _

theorem relinkToCurrentTab_hasUrl (parseURL : String → Option URL) (now : Nat)
    (tabsGet : Int → Option Tab) (checkingState : Bool) (tab : Tab) (s : Session)
    (h : LinkHasUrl s) :
    LinkHasUrl (relinkToCurrentTab parseURL now tabsGet checkingState tab s).session := by
  cases hurl : tab.url with
  | none => simpa [relinkToCurrentTab, hurl] using h
  | some url =>
    cases hempty : (url == "") with
    | true => simpa [relinkToCurrentTab, hurl, hempty] using h
    | false =>
      cases hvalid : (validateWebPage url).valid with
      | false => simpa [relinkToCurrentTab, hurl, hempty, hvalid] using h
      | true =>
        cases hparse : parseURL url with
        | none => simpa [relinkToCurrentTab, hurl, hempty, hvalid, hparse] using h
        | some parsed =>
          simp only [relinkToCurrentTab, hurl, hempty, hvalid, hparse]
          cases checkingState with
          | true =>
            simp only [validateAndUpdateState, if_true]
            exact linkHasUrl_of_url _ url rfl (valid_ne_empty url hvalid)
          | false =>
            simp only [validateAndUpdateState, Bool.false_eq_true, if_false]
            exact validateSession_hasUrl now tabsGet _
              (linkHasUrl_of_url _ url rfl (valid_ne_empty url hvalid))

/-- In every store reached from the empty store by link operations, a linked tab id that
is set and not zero comes with a linked URL: the store holds a link. -/
theorem reachable_hasLink (parseURL : String → Option URL) (s : Session)
    (hreach : Reachable parseURL s) (hid : truthyId s.hermesLinkedTabId = true) :
    hasLink s = true := by
  have hgeneral : ∀ (ops : List LinkOp) (t : Session), LinkHasUrl t →
      LinkHasUrl (runOps parseURL ops t) := by
    intro ops
    induction ops with
    | nil => intro t h; exact h
    | cons op rest ih =>
      intro t h
      refine ih _ ?_
      cases op with
      | setLinkedContext now tab => exact setLinkedContext_hasUrl parseURL now tab t h
      | clearLinkedContextClosed now =>
        intro hid
        simp [LinkOp.run, clearLinkedContext] at hid
      | handleHermesOpen now panel tab =>
        exact handleHermesOpen_hasUrl parseURL now panel tab t h
      | handleTabUpdate now tabId changeInfo tab =>
        exact handleTabUpdate_hasUrl parseURL now tabId changeInfo tab t h
      | handleTabRemoved now tabId => exact handleTabRemoved_hasUrl now tabId t h
      | validateSession now tabsGet => exact validateSession_hasUrl now tabsGet t h
      | relinkToCurrentTab now tabsGet checkingState tab =>
        exact relinkToCurrentTab_hasUrl parseURL now tabsGet checkingState tab t h
  obtain ⟨ops, hops⟩ := hreach
  have hempty : LinkHasUrl Session.empty := by
    intro hid
    simp [Session.empty] at hid
  have hs : LinkHasUrl s := hops ▸ hgeneral ops Session.empty hempty
  have hsome : s.hermesLinkedTabId ≠ none := by
    intro hnone
    simp [hnone, truthyId] at hid
  simp [hasLink, hs hsome, hid]

/-! ## Properties of the debug log -/

/-- C25: for a stored log of at most 1000 entries, `appendToStorage` stores a log of at
most 1000 entries that consists of the old entries in their order, without the oldest one
exactly when the old log held 1000 entries, followed by the new entry; so the new entry is
the last one. -/
theorem appendToStorage_bounded (timestamp level message : String) (logs : List LogEntry)
    (hlen : logs.length ≤ 1000) :
    (appendToStorage timestamp level message logs).length ≤ 1000
      ∧ appendToStorage timestamp level message logs
          = (if logs.length = 1000 then logs.drop 1 else logs)
              ++ [{ timestamp := timestamp, level := level, message := message }]
      ∧ (appendToStorage timestamp level message logs).getLast?
          = some { timestamp := timestamp, level := level, message := message } := by
  have hshape : appendToStorage timestamp level message logs
      = (if logs.length = 1000 then logs.drop 1 else logs)
          ++ [{ timestamp := timestamp, level := level, message := message }] := by
    unfold appendToStorage
    by_cases hfull : logs.length = 1000
    · cases logs with
      | nil => simp at hfull
      | cons first rest =>
        have hrest : rest.length = 999 := by simpa using hfull
        simp [hrest]
    · have hroom : ¬ logs.length + 1 > 1000 := by omega
      simp [hfull, hroom]
  refine ⟨?_, hshape, ?_⟩
  · rw [hshape]
    by_cases hfull : logs.length = 1000
    · simp [hfull]
    · simp only [hfull, if_false, List.length_append, List.length_singleton]
      omega
  · rw [hshape]
    simp

/-- Witness for C25: a full log of 1000 entries, the oldest of them with its own text. -/
theorem appendToStorage_bounded_witness :
    (({ timestamp := "t0", level := "INFO", message := "oldest" } : LogEntry)
        :: List.replicate 999 { timestamp := "t1", level := "INFO", message := "old" }).length
        ≤ 1000
      ∧ appendToStorage "t2" "WARN" "new"
          ({ timestamp := "t0", level := "INFO", message := "oldest" }
            :: List.replicate 999 { timestamp := "t1", level := "INFO", message := "old" })
          = List.replicate 999 { timestamp := "t1", level := "INFO", message := "old" }
              ++ [{ timestamp := "t2", level := "WARN", message := "new" }] :=
  ⟨by rw [List.length_cons, List.length_replicate],
    by
      have h := (appendToStorage_bounded "t2" "WARN" "new"
        ({ timestamp := "t0", level := "INFO", message := "oldest" }
          :: List.replicate 999 { timestamp := "t1", level := "INFO", message := "old" })
        (by rw [List.length_cons, List.length_replicate])).2.1
      rw [if_pos (by rw [List.length_cons, List.length_replicate])] at h
      exact h⟩

/-! ## The validator reads the whole URL string -/

/-- C29 (amended): `validateWebPage` accepts a URL exactly when the URL string contains
`mykronos.com` and none of `mykronos.com/authn/`, `mykronos.com/wfd/unauthorized` and, in
any letter case, `://adp-developer.mykronos.com/` occurs anywhere in the string, the query
string and the fragment included. -/
theorem validateWebPage_valid_iff (url : String) :
    (validateWebPage url).valid = true ↔
      (includes url "mykronos.com" = true
        ∧ includes url "mykronos.com/authn/" = false
        ∧ includes url "mykronos.com/wfd/unauthorized" = false
        ∧ testLiteralIgnoreCase "://adp-developer.mykronos.com/" url = false) := by
  rw [validateWebPage_cascade]
  cases includes url "mykronos.com" <;> cases includes url "mykronos.com/authn/" <;>
    cases includes url "mykronos.com/wfd/unauthorized" <;>
    cases testLiteralIgnoreCase "://adp-developer.mykronos.com/" url <;> simp

/-- Witness for C29 (amended): the tenant URL of the specification is accepted. -/
theorem validateWebPage_valid_iff_witness :
    (validateWebPage "https://foo.prd.mykronos.com/somepath").valid = true :=
  (validateWebPage_valid_iff "https://foo.prd.mykronos.com/somepath").mpr (by decide)

/-- Counterexample to C29 as stated: the host is the tenant host `foo.prd.mykronos.com`
and the path is `/somepath`, yet the URL is rejected for what its query string, or its
fragment, contains; without them the URL is accepted. -/
theorem validateWebPage_query_counterexample :
    (validateWebPage "https://foo.prd.mykronos.com/somepath").valid = true
      ∧ (referenceParseURL "https://foo.prd.mykronos.com/somepath?next=mykronos.com/authn/").map
          (fun p => p.hostname) = some "foo.prd.mykronos.com"
      ∧ validateWebPage "https://foo.prd.mykronos.com/somepath?next=mykronos.com/authn/"
          = { valid := false, message := "Invalid Login - Authentication Required" }
      ∧ validateWebPage "https://foo.prd.mykronos.com/somepath#mykronos.com/wfd/unauthorized"
          = { valid := false, message := "Invalid Login - Unauthorized Access" } := by
  decide

/-! ## A call of `validateAndUpdateState` while another is in flight -/

/-- Two overlapping calls, the second made while the first is in flight: the second call
returns `undefined` at once and the first call runs as if it were alone. -/
theorem runOverlapping_in_flight (now : Nat) (tabsGet : Int → Option Tab) (now2 : Nat)
    (tabsGet2 : Int → Option Tab) (p : PanelState) (k : Nat)
    (hlatch : p.checkingState = false)
    (hflight : (stepsCall now tabsGet k (p, CallPhase.start)).2.inFlight = true) :
    runOverlapping now tabsGet now2 tabsGet2 k p
      = (runCall now tabsGet p, CallPhase.returned none) := by
  obtain ⟨hset, hrest⟩ := stepsCall_in_flight now tabsGet p k hlatch hflight
  have hsecond := runCall_latched now2 tabsGet2 _ hset
  unfold runOverlapping
  simp only
  rw [show stepsCall now2 tabsGet2 5
      ((stepsCall now tabsGet k (p, CallPhase.start)).1, CallPhase.start)
      = runCall now2 tabsGet2 (stepsCall now tabsGet k (p, CallPhase.start)).1 from rfl]
  rw [hsecond]
  simp only [Prod.mk.eta, hrest]

/-- C27 (amended): a call of `validateAndUpdateState` made while another call is in flight
resolves to `undefined`, whatever the platform would answer it; the call in flight resolves
to the result of `validateSession` on the store it started from. So the second caller does
not receive the first caller's result. -/
theorem validateAndUpdateState_second_caller (now : Nat) (tabsGet : Int → Option Tab)
    (now2 : Nat) (tabsGet2 : Int → Option Tab) (p : PanelState) (k : Nat)
    (hlatch : p.checkingState = false)
    (hflight : (stepsCall now tabsGet k (p, CallPhase.start)).2.inFlight = true) :
    (runOverlapping now tabsGet now2 tabsGet2 k p).2 = CallPhase.returned none
      ∧ (runOverlapping now tabsGet now2 tabsGet2 k p).1.2
          = CallPhase.returned (some (validateSession now tabsGet p.session).2)
      ∧ (runOverlapping now tabsGet now2 tabsGet2 k p).2
          ≠ (runOverlapping now tabsGet now2 tabsGet2 k p).1.2 := by
  have hpair := runOverlapping_in_flight now tabsGet now2 tabsGet2 p k hlatch hflight
  have hfirst : (runCall now tabsGet p).2
      = CallPhase.returned (some (validateSession now tabsGet p.session).2) := by
    cases hlink : hasLink p.session with
    | true => rw [runCall_with_link now tabsGet p hlatch hlink]
    | false =>
      rw [(runCall_without_link now tabsGet p hlatch hlink).2]
      have hguard : (!truthyString p.session.hermesLinkedUrl
          || !truthyId p.session.hermesLinkedTabId) = true := by
        simp only [hasLink, Bool.and_eq_false_iff] at hlink
        rcases hlink with h | h <;> simp [h]
      simp [validateSession, hguard]
  refine ⟨by rw [hpair], by rw [hpair, hfirst], ?_⟩
  rw [hpair]
  simp only [hfirst]
  intro h
  cases h

/-- Witness for C27 (amended): tab 7 is linked and still on its page; the second call
starts when the first call has issued its lookup (two steps done). -/
theorem validateAndUpdateState_second_caller_witness :
    (runOverlapping 9
        (fun _ => some { id := some 7, windowId := some 1
                         url := some "https://foo.prd.mykronos.com/somepath"
                         title := some "WFM" })
        10 (fun _ => none) 2
        { session := (setLinkedContext referenceParseURL 5
            { id := some 7, windowId := some 1
              url := some "https://foo.prd.mykronos.com/somepath", title := some "WFM" }
            Session.empty).session
          checkingState := false, tabLookups := 0, linkWrites := 0 }).2
      = CallPhase.returned none :=
  (validateAndUpdateState_second_caller 9
    (fun _ => some { id := some 7, windowId := some 1
                     url := some "https://foo.prd.mykronos.com/somepath"
                     title := some "WFM" })
    10 (fun _ => none)
    { session := (setLinkedContext referenceParseURL 5
        { id := some 7, windowId := some 1
          url := some "https://foo.prd.mykronos.com/somepath", title := some "WFM" }
        Session.empty).session
      checkingState := false, tabLookups := 0, linkWrites := 0 }
    2 rfl (by decide)).1

/-- Counterexample to C27 as stated: with tab 7 linked and the second call made after two
steps of the first, the first call resolves to the result `ok` and the second call to
`undefined`. -/
theorem validateAndUpdateState_second_caller_counterexample :
    (runOverlapping 9
        (fun _ => some { id := some 7, windowId := some 1
                         url := some "https://foo.prd.mykronos.com/somepath"
                         title := some "WFM" })
        10
        (fun _ => some { id := some 7, windowId := some 1
                         url := some "https://foo.prd.mykronos.com/somepath"
                         title := some "WFM" })
        2
        { session := (setLinkedContext referenceParseURL 5
            { id := some 7, windowId := some 1
              url := some "https://foo.prd.mykronos.com/somepath", title := some "WFM" }
            Session.empty).session
          checkingState := false, tabLookups := 0, linkWrites := 0 })
      = (({ session :=
              { hermesLinkedTabId := some 7, hermesLinkedWindowId := some 1
                hermesLinkedUrl := some "https://foo.prd.mykronos.com/somepath"
                hermesLinkedOrigin := some "https://foo-nosso.prd.mykronos.com/"
                hermesLinkedTitle := some "WFM", hermesLinkedStatus := some "ok"
                hermesLastValidation := some 9
                hermesValidationMessage := some "Session active"
                hermesGlobalOpen := none }
            checkingState := false, tabLookups := 1, linkWrites := 1 },
          CallPhase.returned (some
            { ok := true, code := "ok", message := none
              validation := some { valid := true, message := "Valid" } })),
        CallPhase.returned none) := by
  decide

/-! ## After the linked tab is closed -/

/-- Run without another step in between, the handler of a tab event does what
`handleTabUpdate` and `handleTabRemoved` do as a whole. -/
theorem runTabEvent_whole (parseURL : String → Option URL) (now : Nat) (s : Session) :
    (∀ tabId changeInfo tab,
        (runTabEvent parseURL now (TabEvent.updated tabId changeInfo tab) s).1
          = handleTabUpdate parseURL now tabId changeInfo tab s)
      ∧ ∀ tabId,
        (runTabEvent parseURL now (TabEvent.removed tabId) s).1 = handleTabRemoved now tabId s := by
  refine ⟨?_, ?_⟩
  · intro tabId changeInfo tab
    cases hguard : (!truthyId s.hermesLinkedTabId || some tabId != s.hermesLinkedTabId) with
    | true => simp [runTabEvent, stepTabEvent, handleTabUpdate, hguard]
    | false =>
      cases hurl : changeInfo.url with
      | none => simp [runTabEvent, stepTabEvent, handleTabUpdate, hguard, hurl]
      | some url =>
        cases hempty : (url == "") with
        | true => simp [runTabEvent, stepTabEvent, handleTabUpdate, hguard, hurl, hempty]
        | false =>
          cases hvalid : (validateWebPage url).valid with
          | false =>
            simp [runTabEvent, stepTabEvent, handleTabUpdate, hguard, hurl, hempty, hvalid]
          | true =>
            cases hthrown : (setLinkedContext parseURL now
                { id := some tabId, windowId := tab.windowId, url := some url
                  title := tab.title } s).thrown with
            | none =>
              simp [runTabEvent, stepTabEvent, handleTabUpdate, hguard, hurl, hempty, hvalid,
                hthrown]
            | some e =>
              simp [runTabEvent, stepTabEvent, handleTabUpdate, hguard, hurl, hempty, hvalid,
                hthrown]
  · intro tabId
    cases hguard : (truthyId s.hermesLinkedTabId && some tabId == s.hermesLinkedTabId) with
    | true => simp [runTabEvent, stepTabEvent, handleTabRemoved, hguard]
    | false => simp [runTabEvent, stepTabEvent, handleTabRemoved, hguard]

/-- A handler that has read no linked tab id does not go on to link a tab. -/
theorem TabEvent.relinks_none (parseURL : String → Option URL) (event : TabEvent) :
    event.relinks parseURL none = false := by
  cases event <;> simp [TabEvent.relinks, truthyId]

/-- For a URL that `new URL` does not parse, `setLinkedContext` writes nothing. -/
theorem setLinkedContext_unparsed (parseURL : String → Option URL) (now : Nat) (tab : Tab)
    (url : String) (s : Session) (hurl : tab.url = some url) (hparse : parseURL url = none) :
    (setLinkedContext parseURL now tab s).session = s := by
  cases hid : truthyId tab.id <;> cases hvalid : (validateWebPage url).valid <;>
    simp [setLinkedContext, hid, hurl, hvalid, getVanityUrl, hparse]

/-- A step of a handler that does not go on to link a tab, on a store without a linked tab
id and without the status `ok`, leaves the store without them, and the handler does not go
on to link a tab afterwards either. -/
theorem stepTabEvent_quiet (parseURL : String → Option URL) (now : Nat) (event : TabEvent)
    (s : Session) (phase : HandlerPhase)
    (hunlinked : s.hermesLinkedTabId = none) (hstatus : s.hermesLinkedStatus ≠ some "ok")
    (hphase : ∀ linked, phase = HandlerPhase.read linked →
      event.relinks parseURL linked = false) :
    (stepTabEvent parseURL now event s phase).1.hermesLinkedTabId = none
      ∧ (stepTabEvent parseURL now event s phase).1.hermesLinkedStatus ≠ some "ok"
      ∧ ∀ linked, (stepTabEvent parseURL now event s phase).2 = HandlerPhase.read linked →
          event.relinks parseURL linked = false := by
  cases phase with
  | start =>
    refine ⟨hunlinked, hstatus, ?_⟩
    intro linked hread
    simp only [stepTabEvent, HandlerPhase.read.injEq] at hread
    rw [← hread, hunlinked]
    exact TabEvent.relinks_none parseURL event
  | done => exact ⟨hunlinked, hstatus, fun linked h => by simp [stepTabEvent] at h⟩
  | written =>
    cases event with
    | removed tabId => exact ⟨hunlinked, hstatus, fun linked h => by simp [stepTabEvent] at h⟩
    | updated tabId changeInfo tab =>
      refine ⟨?_, ?_, fun linked h => by simp [stepTabEvent] at h⟩
      · simp only [stepTabEvent, updateLinkedTitle]
        split <;> exact hunlinked
      · simp only [stepTabEvent, updateLinkedTitle]
        split <;> exact hstatus
  | read linked =>
    have hnot := hphase linked rfl
    cases event with
    | removed tabId =>
      cases hguard : (truthyId linked && some tabId == linked) with
      | true =>
        simp only [stepTabEvent, hguard, if_true]
        exact ⟨rfl, by simp [clearLinkedContext], fun l h => by simp at h⟩
      | false =>
        simp only [stepTabEvent, hguard]
        exact ⟨hunlinked, hstatus, fun l h => by simp at h⟩
    | updated tabId changeInfo tab =>
      cases hguard : (!truthyId linked || some tabId != linked) with
      | true =>
        simp only [stepTabEvent, hguard, if_true]
        exact ⟨hunlinked, hstatus, fun l h => by simp at h⟩
      | false =>
        have hmatch : (truthyId linked && some tabId == linked) = true := by
          simp only [Bool.or_eq_false_iff, Bool.not_eq_false', bne_eq_false_iff_eq] at hguard
          simp [hguard.1, hguard.2]
        cases hurl : changeInfo.url with
        | none =>
          simp only [stepTabEvent, hguard, hurl]
          exact ⟨hunlinked, hstatus, fun l h => by simp at h⟩
        | some url =>
          cases hempty : (url == "") with
          | true =>
            simp only [stepTabEvent, hguard, hurl, hempty]
            exact ⟨hunlinked, hstatus, fun l h => by simp at h⟩
          | false =>
            cases hvalid : (validateWebPage url).valid with
            | false =>
              simp only [stepTabEvent, hguard, hurl, hempty, hvalid]
              exact ⟨hunlinked, by simp, fun l h => by simp at h⟩
            | true =>
              have hparse : parseURL url = none := by
                have hne : (url != "") = true := by simp [bne, hempty]
                simp only [TabEvent.relinks, hmatch, hurl, hne, hvalid, Bool.true_and] at hnot
                cases hp : parseURL url with
                | none => rfl
                | some parsed => simp [hp] at hnot
              have hsame := setLinkedContext_unparsed parseURL now
                { id := some tabId, windowId := tab.windowId, url := some url
                  title := tab.title } url s rfl hparse
              simp only [stepTabEvent, hguard, hurl, hempty, hvalid]
              cases hthrown : (setLinkedContext parseURL now
                  { id := some tabId, windowId := tab.windowId, url := some url
                    title := tab.title } s).thrown with
              | none =>
                simp only [hsame]
                exact ⟨hunlinked, hstatus, fun l h => by simp at h⟩
              | some e =>
                simp only [hsame]
                exact ⟨hunlinked, hstatus, fun l h => by simp at h⟩

/-- A step of a call of `validateAndUpdateState` that does not await its tab lookup, on a
store without a linked tab id, leaves the store as it is, and the call does not await a tab
lookup afterwards either. -/
theorem stepCall_quiet (now : Nat) (tabsGet : Int → Option Tab) (p : PanelState)
    (phase : CallPhase) (hunlinked : p.session.hermesLinkedTabId = none)
    (hphase : ∀ id, phase ≠ CallPhase.awaitTab id) :
    (stepCall now tabsGet p phase).1.session = p.session
      ∧ ∀ id, (stepCall now tabsGet p phase).2 ≠ CallPhase.awaitTab id := by
  cases phase with
  | start =>
    cases hlatch : p.checkingState <;> simp [stepCall, hlatch]
  | awaitLinkedState => simp [stepCall, hunlinked, truthyId]
  | awaitTab id => exact absurd rfl (hphase id)
  | awaitWrite check => simp [stepCall]
  | awaitUI check => simp [stepCall]
  | returned result => simp [stepCall]

/-- A move in a state without a late writer, on a store without a linked tab id and
without the status `ok`, leads to such a state again. -/
theorem Move.run_quiet (parseURL : String → Option URL) (move : Move) (st : Activity)
    (hunlinked : st.panel.session.hermesLinkedTabId = none)
    (hstatus : st.panel.session.hermesLinkedStatus ≠ some "ok")
    (hquiet : ¬ st.LateWriter parseURL) :
    (move.run parseURL st).panel.session.hermesLinkedTabId = none
      ∧ (move.run parseURL st).panel.session.hermesLinkedStatus ≠ some "ok"
      ∧ ¬ (move.run parseURL st).LateWriter parseURL := by
  have hcalls : ∀ call id, st.calls call ≠ CallPhase.awaitTab id :=
    fun call id h => hquiet (Or.inl ⟨call, id, h⟩)
  have hhandlers : ∀ handler linked, (st.handlers handler).2 = HandlerPhase.read linked →
      (st.handlers handler).1.relinks parseURL linked = false := by
    intro handler linked hread
    cases hrel : (st.handlers handler).1.relinks parseURL linked with
    | false => rfl
    | true => exact absurd (Or.inr ⟨handler, linked, hread, hrel⟩) hquiet
  cases move with
  | resume call now tabsGet =>
    obtain ⟨hsame, hafter⟩ :=
      stepCall_quiet now tabsGet st.panel (st.calls call) hunlinked (hcalls call)
    simp only [Move.run]
    refine ⟨by rw [hsame]; exact hunlinked, by rw [hsame]; exact hstatus, ?_⟩
    rintro (⟨c, id, hc⟩ | ⟨handler, linked, hread, hrel⟩)
    · simp only at hc
      by_cases hsamecall : c = call
      · rw [if_pos hsamecall] at hc
        exact hafter id hc
      · rw [if_neg hsamecall] at hc
        exact hcalls c id hc
    · simp only at hread hrel
      rw [hhandlers handler linked hread] at hrel
      cases hrel
  | handle handler now =>
    obtain ⟨hnone, hnotok, hafter⟩ :=
      stepTabEvent_quiet parseURL now (st.handlers handler).1 st.panel.session
        (st.handlers handler).2 hunlinked hstatus (hhandlers handler)
    simp only [Move.run]
    refine ⟨hnone, hnotok, ?_⟩
    rintro (⟨c, id, hc⟩ | ⟨h, linked, hread, hrel⟩)
    · exact hcalls c id hc
    · simp only at hread hrel
      by_cases hsamehandler : h = handler
      · rw [if_pos hsamehandler] at hread hrel
        simp only at hread hrel
        rw [hafter linked hread] at hrel
        cases hrel
      · rw [if_neg hsamehandler] at hread hrel
        rw [hhandlers h linked hread] at hrel
        cases hrel

/-- Every sequence of moves from a state without a late writer, on a store without a
linked tab id and without the status `ok`, leaves the store without them. -/
theorem runMoves_quiet (parseURL : String → Option URL) (moves : List Move) (st : Activity)
    (hunlinked : st.panel.session.hermesLinkedTabId = none)
    (hstatus : st.panel.session.hermesLinkedStatus ≠ some "ok")
    (hquiet : ¬ st.LateWriter parseURL) :
    (runMoves parseURL moves st).panel.session.hermesLinkedTabId = none
      ∧ (runMoves parseURL moves st).panel.session.hermesLinkedStatus ≠ some "ok" := by
  induction moves generalizing st with
  | nil => exact ⟨hunlinked, hstatus⟩
  | cons move rest ih =>
    obtain ⟨hnone, hnotok, hstill⟩ := Move.run_quiet parseURL move st hunlinked hstatus hquiet
    exact ih (move.run parseURL st) hnone hnotok hstill

/-- A late writer sets the status `ok` with its next step, whatever the store holds: the
call when its lookup is answered with a tab on an accepted page, the handler as it is. -/
theorem lateWriter_sets_ok (parseURL : String → Option URL) (st : Activity)
    (hlate : st.LateWriter parseURL) :
    ∃ move : Move, (move.run parseURL st).panel.session.hermesLinkedStatus = some "ok" := by
  rcases hlate with ⟨call, id, hcall⟩ | ⟨handler, linked, hread, hrel⟩
  · refine ⟨Move.resume call 0
      (fun _ => some { id := some id, windowId := none
                       url := some "https://foo.prd.mykronos.com/", title := none }), ?_⟩
    have hvalid : (validateWebPage "https://foo.prd.mykronos.com/").valid = true := by decide
    simp [Move.run, hcall, stepCall, hvalid, issueWrite, updateLinkedStatus]
  · refine ⟨Move.handle handler 0, ?_⟩
    cases hevent : (st.handlers handler).1 with
    | removed tabId =>
      rw [hevent] at hrel
      simp [TabEvent.relinks] at hrel
    | updated tabId changeInfo tab =>
      rw [hevent] at hrel
      simp only [TabEvent.relinks, Bool.and_eq_true, beq_iff_eq] at hrel
      obtain ⟨⟨htruthy, hsame⟩, hurl⟩ := hrel
      cases hchange : changeInfo.url with
      | none => simp [hchange] at hurl
      | some url =>
        rw [hchange] at hurl
        simp only [Bool.and_eq_true, bne_iff_ne, ne_eq] at hurl
        obtain ⟨⟨hnonempty, hvalid⟩, hparse⟩ := hurl
        obtain ⟨parsed, hparsed⟩ := Option.isSome_iff_exists.mp hparse
        have hid : tabId ≠ 0 := by
          intro hzero
          rw [← hsame, hzero] at htruthy
          simp [truthyId] at htruthy
        have hguard : (!truthyId linked || some tabId != linked) = false := by
          simp [htruthy, hsame]
        have hempty : (url == "") = false := beq_eq_false_iff_ne.mpr hnonempty
        have hlinks := setLinkedContext_links parseURL 0
          { id := some tabId, windowId := tab.windowId, url := some url, title := tab.title }
          tabId url parsed st.panel.session rfl hid rfl hvalid hparsed
        simp [Move.run, hread, hevent, stepTabEvent, hguard, hchange, hempty, hvalid, hlinks]

/-- C28 (amended): when `handleTabRemoved` has written `closed` for the linked tab, the
revalidations and the handlers of tab events never set the status `ok`, however their
steps interleave and whatever the platform answers, exactly when there is no late writer
at that moment: no call of `validateAndUpdateState` that awaits its tab lookup, and no
handler of a tab update that has read its own tab id as the linked tab id and carries a
URL that is not empty, that `validateWebPage` accepts and that `new URL` parses. A link
operation sets `ok`: `setLinkedContext` with a tab that has an id and a valid URL that
parses. -/
theorem closed_until_relinked (parseURL : String → Option URL) (now : Nat) (tabId : Int)
    (st : Activity) (hlinked : st.panel.session.hermesLinkedTabId = some tabId)
    (hnonzero : tabId ≠ 0) :
    (handleTabRemoved now tabId st.panel.session).hermesLinkedStatus = some "closed"
      ∧ ((∀ moves : List Move,
            (runMoves parseURL moves
              { st with
                panel :=
                  { st.panel with
                    session := handleTabRemoved now tabId st.panel.session } }
              ).panel.session.hermesLinkedStatus ≠ some "ok")
          ↔ ¬ st.LateWriter parseURL)
      ∧ (∀ (later : Nat) (tab : Tab) (id : Int) (url : String) (p : URL),
          tab.id = some id → id ≠ 0 → tab.url = some url →
          (validateWebPage url).valid = true → parseURL url = some p →
          (setLinkedContext parseURL later tab
            (handleTabRemoved now tabId st.panel.session)).session.hermesLinkedStatus
              = some "ok") := by
  have hclosed : handleTabRemoved now tabId st.panel.session
      = clearLinkedContext now "closed" st.panel.session := by
    simp [handleTabRemoved, hlinked, truthyId, hnonzero]
  have hunlinked : (handleTabRemoved now tabId st.panel.session).hermesLinkedTabId = none := by
    rw [hclosed]
    rfl
  have hstatus : (handleTabRemoved now tabId st.panel.session).hermesLinkedStatus
      = some "closed" := by
    rw [hclosed]
    rfl
  refine ⟨hstatus, ⟨?_, ?_⟩, ?_⟩
  · intro hnever hlate
    obtain ⟨move, hok⟩ := lateWriter_sets_ok parseURL
      { st with
        panel := { st.panel with session := handleTabRemoved now tabId st.panel.session } }
      hlate
    exact hnever [move] hok
  · intro hquiet moves
    exact (runMoves_quiet parseURL moves
      { st with
        panel := { st.panel with session := handleTabRemoved now tabId st.panel.session } }
      hunlinked (by rw [hstatus]; decide) hquiet).2
  · intro later tab id url p hid hidnonzero hurl hvalid hparse
    rw [setLinkedContext_links parseURL later tab id url p _ hid hidnonzero hurl hvalid hparse]

/-- Witness for C28 (amended): tab 7 is linked and then closed while no call and no
handler has started; afterwards the handler of an update of tab 7 to a valid page and two
calls of `validateAndUpdateState` run, their steps interleaved, and the status is not
`ok`. -/
theorem closed_until_relinked_witness :
    (runMoves referenceParseURL
        [Move.handle 0 11, Move.resume 0 12 (fun _ => some
            { id := some 7, windowId := some 1
              url := some "https://foo.prd.mykronos.com/home", title := some "Home" }),
          Move.handle 0 11, Move.resume 1 13 (fun _ => none),
          Move.resume 0 12 (fun _ => some
            { id := some 7, windowId := some 1
              url := some "https://foo.prd.mykronos.com/home", title := some "Home" }),
          Move.handle 0 11, Move.resume 0 12 (fun _ => none)]
        { panel :=
            { session := handleTabRemoved 10 7
                (setLinkedContext referenceParseURL 5
                  { id := some 7, windowId := some 1
                    url := some "https://foo.prd.mykronos.com/somepath"
                    title := some "WFM" }
                  Session.empty).session
              checkingState := false, tabLookups := 0, linkWrites := 0 }
          calls := fun _ => CallPhase.start
          handlers := fun _ =>
            (TabEvent.updated 7
              { url := some "https://foo.prd.mykronos.com/home", title := some "Home" }
              { id := some 7, windowId := some 1
                url := some "https://foo.prd.mykronos.com/home", title := some "Home" },
              HandlerPhase.start) }).panel.session.hermesLinkedStatus ≠ some "ok" :=
  (closed_until_relinked referenceParseURL 10 7
    { panel :=
        { session := (setLinkedContext referenceParseURL 5
            { id := some 7, windowId := some 1
              url := some "https://foo.prd.mykronos.com/somepath", title := some "WFM" }
            Session.empty).session
          checkingState := false, tabLookups := 0, linkWrites := 0 }
      calls := fun _ => CallPhase.start
      handlers := fun _ =>
        (TabEvent.updated 7
          { url := some "https://foo.prd.mykronos.com/home", title := some "Home" }
          { id := some 7, windowId := some 1
            url := some "https://foo.prd.mykronos.com/home", title := some "Home" },
          HandlerPhase.start) }
    (by decide) (by decide)).2.1.mpr
    (by
      rintro (⟨call, id, hcall⟩ | ⟨handler, linked, hread, -⟩)
      · cases hcall
      · cases hread)
    _

/-- Counterexample to C28 as stated. Tab 7 is linked. First scenario: a call of
`validateAndUpdateState` has issued its tab lookup when the handler of the removal of
tab 7 writes `closed`; the call resumes with the answer of its lookup, tab 7 on a valid
page, and writes `ok`, so the status is `ok` with no linked tab. Second scenario: the
handler of an update of tab 7 to a valid page has read the linked tab id when the handler
of the removal writes `closed`; it goes on to `setLinkedContext`, and the status is `ok`
with tab 7 linked again. -/
theorem closed_until_relinked_counterexample :
    (runMoves referenceParseURL
        [Move.resume 0 9 (fun _ => none), Move.resume 0 9 (fun _ => none),
          Move.handle 0 10, Move.handle 0 10]
        { panel :=
            { session := (setLinkedContext referenceParseURL 5
                { id := some 7, windowId := some 1
                  url := some "https://foo.prd.mykronos.com/somepath", title := some "WFM" }
                Session.empty).session
              checkingState := false, tabLookups := 0, linkWrites := 0 }
          calls := fun _ => CallPhase.start
          handlers := fun _ => (TabEvent.removed 7, HandlerPhase.start)
        }).panel.session.hermesLinkedStatus = some "closed"
      ∧ (runMoves referenceParseURL
        [Move.resume 0 9 (fun _ => none), Move.resume 0 9 (fun _ => none),
          Move.handle 0 10, Move.handle 0 10,
          Move.resume 0 11 (fun _ => some
            { id := some 7, windowId := some 1
              url := some "https://foo.prd.mykronos.com/somepath", title := some "WFM" })]
        { panel :=
            { session := (setLinkedContext referenceParseURL 5
                { id := some 7, windowId := some 1
                  url := some "https://foo.prd.mykronos.com/somepath", title := some "WFM" }
                Session.empty).session
              checkingState := false, tabLookups := 0, linkWrites := 0 }
          calls := fun _ => CallPhase.start
          handlers := fun _ => (TabEvent.removed 7, HandlerPhase.start)
        }).panel.session
        = { hermesLinkedTabId := none, hermesLinkedWindowId := none
            hermesLinkedUrl := none, hermesLinkedOrigin := none
            hermesLinkedTitle := some "", hermesLinkedStatus := some "ok"
            hermesLastValidation := some 11
            hermesValidationMessage := some "Session active"
            hermesGlobalOpen := none }
      ∧ (runMoves referenceParseURL
        [Move.handle 0 9, Move.handle 1 10, Move.handle 1 10, Move.handle 0 11]
        { panel :=
            { session := (setLinkedContext referenceParseURL 5
                { id := some 7, windowId := some 1
                  url := some "https://foo.prd.mykronos.com/somepath", title := some "WFM" }
                Session.empty).session
              checkingState := false, tabLookups := 0, linkWrites := 0 }
          calls := fun _ => CallPhase.start
          handlers := fun handler =>
            if handler = 0 then
              (TabEvent.updated 7
                { url := some "https://foo.prd.mykronos.com/home", title := none }
                { id := some 7, windowId := some 1
                  url := some "https://foo.prd.mykronos.com/home", title := some "Home" },
                HandlerPhase.start)
            else (TabEvent.removed 7, HandlerPhase.start)
        }).panel.session
        = { hermesLinkedTabId := some 7, hermesLinkedWindowId := some 1
            hermesLinkedUrl := some "https://foo.prd.mykronos.com/home"
            hermesLinkedOrigin := some "https://foo-nosso.prd.mykronos.com/"
            hermesLinkedTitle := some "Home", hermesLinkedStatus := some "ok"
            hermesLastValidation := some 11
            hermesValidationMessage := some "Valid"
            hermesGlobalOpen := none } := by
  decide

/-! ## The token URL that a token fetch stores -/

/-- C30: a successful direct token fetch for the base URL
`https://foo-nosso.prd.mykronos.com/` and the client id `client` requests the token
endpoint `https://foo-nosso.prd.mykronos.com/accessToken?clientId=client`, but the record
it stores has the base URL as its `tokenurl`; `saveClientIDClick` stores the token
endpoint for the same tenant and client id. -/
theorem fetchToken_stores_base_url :
    (fetchToken referenceParseURL (some "https://foo-nosso.prd.mykronos.com/") true "client"
        1000
        (TokenFetch.json
          { accessToken := some "T", refreshToken := some "R", expiresInSeconds := some 3600 })
        (fun _ => none)).requested
        = ["https://foo-nosso.prd.mykronos.com/accessToken?clientId=client"]
      ∧ (fetchToken referenceParseURL (some "https://foo-nosso.prd.mykronos.com/") true
          "client" 1000
          (TokenFetch.json
            { accessToken := some "T", refreshToken := some "R"
              expiresInSeconds := some 3600 })
          (fun _ => none)).feedback = { alert := none, button := some "Token Retrieved!" }
      ∧ ((fetchToken referenceParseURL (some "https://foo-nosso.prd.mykronos.com/") true
          "client" 1000
          (TokenFetch.json
            { accessToken := some "T", refreshToken := some "R"
              expiresInSeconds := some 3600 })
          (fun _ => none)).data "https://foo-nosso.prd.mykronos.com/").map
            (fun record => record.tokenurl)
          = some (some "https://foo-nosso.prd.mykronos.com/")
      ∧ ((saveClientIDClick (some "https://foo-nosso.prd.mykronos.com/") true "client" 1000
          (fun _ => none)).data "https://foo-nosso.prd.mykronos.com/").map
            (fun record => record.tokenurl)
          = some (some "https://foo-nosso.prd.mykronos.com/accessToken?clientId=client") := by
  decide

/-! ## Where the code decides whether a token is still valid -/

/-- C21: for a record whose tokens expire at the instant 5000, read at the instant 5000,
`populateAccessToken` and `populateRefreshToken` show the tokens and start the timers,
`executeApiCall` asks for no new token and `refreshAccessToken` sends its request, all of
them taking the tokens for valid, while `restoreTokenTimers` starts no timer, taking them
for expired. -/
theorem token_validity_at_expiry :
    (populateAccessToken (some "https://foo-nosso.prd.mykronos.com/") 5000
        { access := { interval := none, timerBox := "", tokenBox := "", persisted := none }
          refresh := { interval := none, timerBox := "", tokenBox := "", persisted := none }
          intervals := [], nextId := 0
          clientdata := ClientData.set (fun _ => none) "https://foo-nosso.prd.mykronos.com/"
            { ClientRecord.empty with
              clientid := some "client", clientsecret := some "secret"
              accesstoken := some "T", refreshtoken := some "R"
              expirationdatetime := some 5000
              refreshExpirationDateTime := some 5000 } }).access.tokenBox = "T"
      ∧ (populateAccessToken (some "https://foo-nosso.prd.mykronos.com/") 5000
        { access := { interval := none, timerBox := "", tokenBox := "", persisted := none }
          refresh := { interval := none, timerBox := "", tokenBox := "", persisted := none }
          intervals := [], nextId := 0
          clientdata := ClientData.set (fun _ => none) "https://foo-nosso.prd.mykronos.com/"
            { ClientRecord.empty with
              clientid := some "client", clientsecret := some "secret"
              accesstoken := some "T", refreshtoken := some "R"
              expirationdatetime := some 5000
              refreshExpirationDateTime := some 5000 } }).intervals
          = [{ id := 1, kind := TimerKind.access, remainingTime := some 0 }]
      ∧ (populateRefreshToken (some "https://foo-nosso.prd.mykronos.com/") 5000
        { access := { interval := none, timerBox := "", tokenBox := "", persisted := none }
          refresh := { interval := none, timerBox := "", tokenBox := "", persisted := none }
          intervals := [], nextId := 0
          clientdata := ClientData.set (fun _ => none) "https://foo-nosso.prd.mykronos.com/"
            { ClientRecord.empty with
              clientid := some "client", clientsecret := some "secret"
              accesstoken := some "T", refreshtoken := some "R"
              expirationdatetime := some 5000
              refreshExpirationDateTime := some 5000 } }).refresh.tokenBox = "R"
      ∧ executeApiCallNeedsToken
          { ClientRecord.empty with
            clientid := some "client", clientsecret := some "secret"
            accesstoken := some "T", refreshtoken := some "R"
            expirationdatetime := some 5000
            refreshExpirationDateTime := some 5000 } 5000 = false
      ∧ (refreshAccessToken (some "https://foo-nosso.prd.mykronos.com/") true 5000 5001
          (FetchResult.json (some "T2") (some 3600))
          (ClientData.set (fun _ => none) "https://foo-nosso.prd.mykronos.com/"
            { ClientRecord.empty with
              clientid := some "client", clientsecret := some "secret"
              accesstoken := some "T", refreshtoken := some "R"
              expirationdatetime := some 5000
              refreshExpirationDateTime := some 5000 })).requests
          = [{ url := "https://foo-nosso.prd.mykronos.com/api/authentication/access_token"
               refresh_token := some "R", client_id := some "client"
               client_secret := some "secret" }]
      ∧ (restoreTokenTimers (some "https://foo-nosso.prd.mykronos.com/") 5000
        { access := { interval := none, timerBox := "", tokenBox := "", persisted := none }
          refresh := { interval := none, timerBox := "", tokenBox := "", persisted := none }
          intervals := [], nextId := 0
          clientdata := ClientData.set (fun _ => none) "https://foo-nosso.prd.mykronos.com/"
            { ClientRecord.empty with
              clientid := some "client", clientsecret := some "secret"
              accesstoken := some "T", refreshtoken := some "R"
              expirationdatetime := some 5000
              refreshExpirationDateTime := some 5000 } }).intervals = [] := by
  decide

/-! ## A client-secret save and a token store on the same record -/

/-- The six schedules of two storage calls. -/
theorem mem_schedules (schedule : List StorageStep) (h : schedule ∈ schedules) :
    schedule ∈ serialSchedules
      ∨ schedule = [StorageStep.firstLoad, StorageStep.secondLoad, StorageStep.firstSave,
          StorageStep.secondSave]
      ∨ schedule = [StorageStep.secondLoad, StorageStep.firstLoad, StorageStep.firstSave,
          StorageStep.secondSave]
      ∨ schedule = [StorageStep.firstLoad, StorageStep.secondLoad, StorageStep.secondSave,
          StorageStep.firstSave]
      ∨ schedule = [StorageStep.secondLoad, StorageStep.firstLoad, StorageStep.secondSave,
          StorageStep.firstSave] := by
  simp only [schedules, interleavings, interleaveWith, List.map, List.append,
    List.cons_append, List.nil_append, List.mem_cons, List.mem_singleton,
    List.not_mem_nil, or_false, serialSchedules] at h ⊢
  rcases h with h | h | h | h | h | h <;> simp [h]

/-- C26 (amended): a client-secret save and a token store on the same tenant record, each
of which loads the credential map and later saves it. When one call has saved before the
other loads, the final record has both `clientsecret = S` and the access token of the
response. In every other interleaving both calls load the initial map, and the final map
is the one that the call that saves last computes from the initial map: the change of the
other call is lost. -/
theorem secret_and_token_interleaved (parseURL : String → Option URL) (clienturl S : String)
    (now now2 : Int) (result : TokenResponse) (tokenurl clientID : String) (url : URL)
    (data : ClientData) (schedule : List StorageStep)
    (hurl : clienturl ≠ "") (hsecret : S ≠ "")
    (haccess : truthyString result.accessToken = true)
    (hrefresh : truthyString result.refreshToken = true)
    (hexpires : truthyNumber result.expiresInSeconds = true)
    (hparse : parseURL tokenurl = some url) (hbase : url.origin ++ "/" = clienturl)
    (hschedule : schedule ∈ schedules) :
    (schedule ∈ serialSchedules →
        ∃ record,
          runSchedule (saveClientSecretCall (some clienturl) true S now)
            (processTokenResponseCall parseURL now2 result tokenurl clientID) schedule data
            clienturl = some record
          ∧ record.clientsecret = some S ∧ record.accesstoken = result.accessToken)
      ∧ (schedule ∉ serialSchedules →
        runSchedule (saveClientSecretCall (some clienturl) true S now)
            (processTokenResponseCall parseURL now2 result tokenurl clientID) schedule data
          = if schedule.getLast? = some StorageStep.secondSave then
              (processTokenResponse parseURL now2 result tokenurl clientID data).data
            else (saveClientSecretClick (some clienturl) true S now data).data) := by
  have hfirst : saveClientSecretCall (some clienturl) true S now
      = some (fun data =>
          (saveClientSecretClick (some clienturl) true S now data).data) := by
    simp [saveClientSecretCall, truthyString, hurl, hsecret]
  have hsecond : processTokenResponseCall parseURL now2 result tokenurl clientID
      = some (fun data =>
          (processTokenResponse parseURL now2 result tokenurl clientID data).data) := by
    simp [processTokenResponseCall, haccess, hrefresh, hexpires, hparse]
  have hsave : ∀ d : ClientData,
      (saveClientSecretClick (some clienturl) true S now d).data
        = d.set clienturl
            { d.recordOrEmpty clienturl with
              clientsecret := some S, editdatetime := some now } := by
    intro d
    simp [saveClientSecretClick, hurl, hsecret]
  have hstore : ∀ d : ClientData,
      (processTokenResponse parseURL now2 result tokenurl clientID d).data
        = d.set clienturl
            { d.recordOrEmpty clienturl with
              clientid := some clientID
              tokenurl := some tokenurl
              apiurl :=
                if truthyString (d.recordOrEmpty clienturl).apiurl then
                  (d.recordOrEmpty clienturl).apiurl
                else some (clienturl ++ "api")
              accesstoken := result.accessToken
              refreshtoken := result.refreshToken
              effectivedatetime := some now2
              expirationdatetime := result.expiresInSeconds.map (fun s => now2 + s * 1000)
              refreshExpirationDateTime := some (now2 + 8 * 60 * 60 * 1000)
              editdatetime := some now2 } := by
    intro d
    simp [processTokenResponse, haccess, hrefresh, hexpires, hparse, hbase]
  rw [hfirst, hsecond]
  rcases mem_schedules schedule hschedule with h | h | h | h | h
  · refine ⟨fun _ => ?_, fun hnot => absurd h hnot⟩
    simp only [serialSchedules, List.mem_cons, List.mem_singleton, List.not_mem_nil,
      or_false] at h
    rcases h with h | h
    · subst h
      simp only [runSchedule, List.foldl, StorageStep.run, hsave, hstore]
      refine ⟨_, ClientData.set_same _ _ _, ?_, rfl⟩
      simp [ClientData.recordOrEmpty, ClientData.set]
    · subst h
      simp only [runSchedule, List.foldl, StorageStep.run, hsave, hstore]
      refine ⟨_, ClientData.set_same _ _ _, rfl, ?_⟩
      simp [ClientData.recordOrEmpty, ClientData.set]
  all_goals
    subst h
    refine ⟨fun hserial => ?_, fun _ => ?_⟩
    · simp [serialSchedules] at hserial
    · simp [runSchedule, StorageStep.run]

/-- Witness for C26 (amended): the initial record `{clientid: "A"}`, the secret saved
before the token store loads the map. -/
theorem secret_and_token_interleaved_witness :
    ∃ record,
      runSchedule
          (saveClientSecretCall (some "https://foo-nosso.prd.mykronos.com/") true "S" 1000)
          (processTokenResponseCall referenceParseURL 2000
            { accessToken := some "T", refreshToken := some "R"
              expiresInSeconds := some 3600 }
            "https://foo-nosso.prd.mykronos.com/accessToken?clientId=A" "A")
          [StorageStep.firstLoad, StorageStep.firstSave, StorageStep.secondLoad,
            StorageStep.secondSave]
          (ClientData.set (fun _ => none) "https://foo-nosso.prd.mykronos.com/"
            { ClientRecord.empty with clientid := some "A" })
          "https://foo-nosso.prd.mykronos.com/" = some record
        ∧ record.clientsecret = some "S" ∧ record.accesstoken = some "T" :=
  (secret_and_token_interleaved referenceParseURL "https://foo-nosso.prd.mykronos.com/" "S"
    1000 2000
    { accessToken := some "T", refreshToken := some "R", expiresInSeconds := some 3600 }
    "https://foo-nosso.prd.mykronos.com/accessToken?clientId=A" "A"
    { protocol := "https:", hostname := "foo-nosso.prd.mykronos.com"
      origin := "https://foo-nosso.prd.mykronos.com" }
    (ClientData.set (fun _ => none) "https://foo-nosso.prd.mykronos.com/"
      { ClientRecord.empty with clientid := some "A" })
    [StorageStep.firstLoad, StorageStep.firstSave, StorageStep.secondLoad,
      StorageStep.secondSave]
    (by decide) (by decide) (by decide) (by decide) (by decide) (by decide) (by decide)
    (by decide)).1 (by decide)

/-- Counterexample to C26 as stated: from the record `{clientid: "A"}`, when both calls
load the credential map before either saves it and the token store saves last, the final
record has the access token `T` and no client secret. -/
theorem secret_and_token_interleaved_counterexample :
    [StorageStep.firstLoad, StorageStep.secondLoad, StorageStep.firstSave,
        StorageStep.secondSave] ∈ schedules
      ∧ (runSchedule
          (saveClientSecretCall (some "https://foo-nosso.prd.mykronos.com/") true "S" 1000)
          (processTokenResponseCall referenceParseURL 2000
            { accessToken := some "T", refreshToken := some "R"
              expiresInSeconds := some 3600 }
            "https://foo-nosso.prd.mykronos.com/accessToken?clientId=A" "A")
          [StorageStep.firstLoad, StorageStep.secondLoad, StorageStep.firstSave,
            StorageStep.secondSave]
          (ClientData.set (fun _ => none) "https://foo-nosso.prd.mykronos.com/"
            { ClientRecord.empty with clientid := some "A" })
          "https://foo-nosso.prd.mykronos.com/").map
            (fun record => (record.clientid, record.clientsecret, record.accesstoken))
          = some (some "A", none, some "T") := by
  decide

/-! ## Properties of the countdown timers -/

@[simp] theorem TimerWorld.slot_setSlot (w : TimerWorld) (kind : TimerKind) (slot : TimerSlot) :
    (w.setSlot kind slot).slot kind = slot := by
  cases kind <;> rfl

theorem TimerWorld.slot_setSlot_other (w : TimerWorld) (kind other : TimerKind)
    (slot : TimerSlot) (h : other ≠ kind) : (w.setSlot kind slot).slot other = w.slot other := by
  cases kind <;> cases other <;> first | rfl | exact absurd rfl h

@[simp] theorem TimerWorld.intervals_setSlot (w : TimerWorld) (kind : TimerKind)
    (slot : TimerSlot) : (w.setSlot kind slot).intervals = w.intervals := by
  cases kind <;> rfl

@[simp] theorem TimerWorld.nextId_setSlot (w : TimerWorld) (kind : TimerKind)
    (slot : TimerSlot) : (w.setSlot kind slot).nextId = w.nextId := by
  cases kind <;> rfl

@[simp] theorem TimerWorld.clientdata_setSlot (w : TimerWorld) (kind : TimerKind)
    (slot : TimerSlot) : (w.setSlot kind slot).clientdata = w.clientdata := by
  cases kind <;> rfl

/-- In a tracked world without a truthy interval variable of a kind, no interval of that
kind is active. -/
theorem TimerWorld.Tracked.none_active (w : TimerWorld) (kind : TimerKind) (h : w.Tracked)
    (hvar : truthyTimer (w.slot kind).interval = false) :
    ∀ x ∈ w.intervals, x.kind ≠ kind := by
  intro x hx hkind
  obtain ⟨hpos, -, hrecord⟩ := h.1 x hx
  rw [hkind] at hrecord
  rw [hrecord] at hvar
  simp only [truthyTimer, bne_eq_false_iff_eq] at hvar
  omega

/-- Clearing the interval on record of a kind and resetting its variable keeps the
bookkeeping and leaves no interval of that kind. -/
theorem TimerWorld.Tracked.clear (w : TimerWorld) (kind : TimerKind) (slot : TimerSlot)
    (h : w.Tracked) :
    (({ w with intervals := clearInterval (w.slot kind).interval w.intervals }).setSlot kind
        slot).Tracked
      ∧ ∀ x ∈ clearInterval (w.slot kind).interval w.intervals, x.kind ≠ kind := by
  have hsub : ∀ x ∈ clearInterval (w.slot kind).interval w.intervals, x ∈ w.intervals := by
    intro x hx
    cases hvar : (w.slot kind).interval with
    | none => simpa [clearInterval, hvar] using hx
    | some v =>
      rw [hvar] at hx
      exact (List.mem_filter.mp hx).1
  have hgone : ∀ x ∈ clearInterval (w.slot kind).interval w.intervals, x.kind ≠ kind := by
    intro x hx hkind
    obtain ⟨-, -, hrecord⟩ := h.1 x (hsub x hx)
    rw [hkind] at hrecord
    rw [hrecord] at hx
    simp [clearInterval] at hx
  refine ⟨⟨?_, ?_⟩, hgone⟩
  · intro x hx
    simp only [TimerWorld.intervals_setSlot] at hx
    obtain ⟨hpos, hle, hrecord⟩ := h.1 x (hsub x hx)
    refine ⟨hpos, by simpa using hle, ?_⟩
    rw [TimerWorld.slot_setSlot_other _ _ _ _ (hgone x hx)]
    cases hk : x.kind <;> rw [hk] at hrecord <;> exact hrecord
  · simp only [TimerWorld.intervals_setSlot]
    cases hvar : (w.slot kind).interval with
    | none => simpa [clearInterval] using h.2
    | some v => exact h.2.sublist (List.filter_sublist _)

/-- A change of a slot that keeps its interval variable keeps the bookkeeping. -/
theorem TimerWorld.Tracked.display (w : TimerWorld) (kind : TimerKind) (slot : TimerSlot)
    (h : w.Tracked) (hslot : slot.interval = (w.slot kind).interval) :
    (w.setSlot kind slot).Tracked := by
  refine ⟨?_, by simpa using h.2⟩
  intro x hx
  simp only [TimerWorld.intervals_setSlot] at hx
  obtain ⟨hpos, hle, hrecord⟩ := h.1 x hx
  refine ⟨hpos, by simpa using hle, ?_⟩
  by_cases hkind : x.kind = kind
  · rw [hkind, TimerWorld.slot_setSlot, hslot, ← hkind]
    exact hrecord
  · rw [TimerWorld.slot_setSlot_other _ _ _ _ hkind]
    exact hrecord

/-- The closure `updateTimer` keeps the bookkeeping and the last id handed out, adds no
interval, and does not touch the credential map. -/
theorem updateTimer_tracked (kind : TimerKind) (w : TimerWorld) (remainingTime : Option Int)
    (h : w.Tracked) :
    (updateTimer kind w remainingTime).1.Tracked
      ∧ (updateTimer kind w remainingTime).1.nextId = w.nextId
      ∧ (updateTimer kind w remainingTime).1.clientdata = w.clientdata
      ∧ ((∀ x ∈ w.intervals, x.kind ≠ kind) →
          ∀ x ∈ (updateTimer kind w remainingTime).1.intervals, x.kind ≠ kind) := by
  cases remainingTime with
  | none =>
    refine ⟨?_, by simp [updateTimer], by simp [updateTimer], ?_⟩
    · exact TimerWorld.Tracked.display w kind _ h rfl
    · intro hnone x hx
      simp only [updateTimer, TimerWorld.intervals_setSlot] at hx
      exact hnone x hx
  | some r =>
    by_cases hr : r ≤ 0
    · simp only [updateTimer, hr, if_true]
      refine ⟨(TimerWorld.Tracked.clear w kind _ h).1, by simp, by simp, ?_⟩
      intro _ x hx
      simp only [TimerWorld.intervals_setSlot] at hx
      exact (TimerWorld.Tracked.clear w kind (w.slot kind) h).2 x hx
    · simp only [updateTimer, hr, if_false]
      refine ⟨TimerWorld.Tracked.display w kind _ h rfl, by simp, by simp, ?_⟩
      intro hnone x hx
      simp only [TimerWorld.intervals_setSlot] at hx
      exact hnone x hx

/-- The function `stopTimer` keeps the bookkeeping and leaves no interval of its kind. -/
theorem stopTimer_tracked (kind : TimerKind) (w : TimerWorld) (h : w.Tracked) :
    (stopTimer kind w).Tracked ∧ ∀ x ∈ (stopTimer kind w).intervals, x.kind ≠ kind := by
  cases hvar : truthyTimer (w.slot kind).interval with
  | true =>
    simp only [stopTimer, hvar, if_true]
    refine ⟨(TimerWorld.Tracked.clear w kind _ h).1, ?_⟩
    intro x hx
    simp only [TimerWorld.intervals_setSlot] at hx
    exact (TimerWorld.Tracked.clear w kind (w.slot kind) h).2 x hx
  | false =>
    simp only [stopTimer, hvar]
    exact ⟨h, TimerWorld.Tracked.none_active w kind h hvar⟩

/-- The function `startTimer` keeps the bookkeeping; after it the only active interval of
its kind is the one it has created, under a new id. -/
theorem startTimer_tracked (kind : TimerKind) (seconds : Option Int) (w : TimerWorld)
    (h : w.Tracked) :
    (startTimer kind seconds w).Tracked
      ∧ (startTimer kind seconds w).nextId = w.nextId + 1
      ∧ ((startTimer kind seconds w).slot kind).interval = some (w.nextId + 1)
      ∧ ∃ remainingTime,
          (startTimer kind seconds w).active kind
            = [{ id := w.nextId + 1, kind := kind, remainingTime := remainingTime }] := by
  -- the world after the interval on record is cleared
  obtain ⟨cleared, hcleared, htracked, hnext, hnone⟩ :
      ∃ cleared : TimerWorld,
        startTimer kind seconds w =
          (({ (updateTimer kind cleared seconds).1 with
              intervals := (updateTimer kind cleared seconds).1.intervals
                ++ [{ id := (updateTimer kind cleared seconds).1.nextId + 1, kind := kind
                      remainingTime := (updateTimer kind cleared seconds).2 }]
              nextId := (updateTimer kind cleared seconds).1.nextId + 1 } : TimerWorld).setSlot
            kind
            { ((updateTimer kind cleared seconds).1.slot kind) with
              interval := some ((updateTimer kind cleared seconds).1.nextId + 1) })
        ∧ cleared.Tracked ∧ cleared.nextId = w.nextId
        ∧ ∀ x ∈ cleared.intervals, x.kind ≠ kind := by
    cases hvar : truthyTimer (w.slot kind).interval with
    | true =>
      refine ⟨_, ?_, (TimerWorld.Tracked.clear w kind
        { w.slot kind with interval := none } h).1, by simp, ?_⟩
      · simp only [startTimer, hvar, if_true]
        cases kind <;> rfl
      · intro x hx
        simp only [TimerWorld.intervals_setSlot] at hx
        exact (TimerWorld.Tracked.clear w kind (w.slot kind) h).2 x hx
    | false =>
      refine ⟨w, ?_, h, rfl, TimerWorld.Tracked.none_active w kind h hvar⟩
      simp only [startTimer, hvar]
      cases kind <;> rfl
  obtain ⟨hticked, hsame, -, hstill⟩ := updateTimer_tracked kind cleared seconds htracked
  have hstill := hstill hnone
  rw [hcleared]
  generalize (updateTimer kind cleared seconds).1 = ticked at hticked hsame hstill
  generalize (updateTimer kind cleared seconds).2 = remaining
  rw [hnext] at hsame
  refine ⟨⟨?_, ?_⟩, ?_, ?_, remaining, ?_⟩
  · intro x hx
    simp only [TimerWorld.intervals_setSlot, List.mem_append, List.mem_singleton] at hx
    rcases hx with hx | hx
    · obtain ⟨hpos, hle, hrecord⟩ := hticked.1 x hx
      refine ⟨hpos, by simp only [TimerWorld.nextId_setSlot]; omega, ?_⟩
      rw [TimerWorld.slot_setSlot_other _ _ _ _ (hstill x hx)]
      cases hk : x.kind <;> rw [hk] at hrecord <;> exact hrecord
    · subst hx
      simp [hsame]
  · simp only [TimerWorld.intervals_setSlot]
    rw [List.pairwise_append]
    refine ⟨hticked.2, List.pairwise_singleton _ _, ?_⟩
    intro x hx y hy
    simp only [List.mem_singleton] at hy
    subst hy
    have := (hticked.1 x hx).2.1
    simp only
    omega
  · simp [hsame]
  · simp [hsame]
  · simp only [TimerWorld.active, TimerWorld.intervals_setSlot, List.filter_append]
    have hempty : ticked.intervals.filter (fun x => x.kind == kind) = [] := by
      rw [List.filter_eq_nil_iff]
      intro x hx
      simpa using hstill x hx
    simp [hempty, hsame]

/-- A timer tick keeps the bookkeeping, the last id handed out and the credential map. -/
theorem fireInterval_tracked (id : Nat) (w : TimerWorld) (h : w.Tracked) :
    (fireInterval id w).Tracked ∧ (fireInterval id w).nextId = w.nextId
      ∧ (fireInterval id w).clientdata = w.clientdata := by
  cases hfind : w.intervals.find? (fun x => x.id == id) with
  | none => simpa [fireInterval, hfind] using h
  | some x =>
    obtain ⟨hticked, hsame, hdata, -⟩ := updateTimer_tracked x.kind w x.remainingTime h
    simp only [fireInterval, hfind]
    refine ⟨⟨?_, ?_⟩, hsame, hdata⟩
    · intro y hy
      simp only [List.mem_map] at hy
      obtain ⟨z, hz, rfl⟩ := hy
      obtain ⟨hpos, hle, hrecord⟩ := hticked.1 z hz
      split
      · refine ⟨hpos, hle, ?_⟩
        cases hk : z.kind <;> rw [hk] at hrecord <;> exact hrecord
      · refine ⟨hpos, hle, ?_⟩
        cases hk : z.kind <;> rw [hk] at hrecord <;> exact hrecord
    · simp only [List.pairwise_map]
      refine hticked.2.imp ?_
      intro a b hab
      have hkeep : ∀ c : Interval,
          (if (c.id == id) = true then
            ({ c with remainingTime := (updateTimer x.kind w x.remainingTime).2 } : Interval)
          else c).id = c.id := by
        intro c
        split <;> rfl
      rw [hkeep a, hkeep b]
      exact hab

/-- Every timer operation keeps the bookkeeping. -/
theorem TimerOp.run_tracked (op : TimerOp) (w : TimerWorld) (h : w.Tracked) :
    (op.run w).Tracked := by
  cases op with
  | startAccessTokenTimer seconds => exact (startTimer_tracked _ seconds w h).1
  | stopAccessTokenTimer => exact (stopTimer_tracked _ w h).1
  | startRefreshTokenTimer seconds => exact (startTimer_tracked _ seconds w h).1
  | stopRefreshTokenTimer => exact (stopTimer_tracked _ w h).1
  | tick id => exact (fireInterval_tracked id w h).1

theorem runTimerOps_tracked (ops : List TimerOp) (w : TimerWorld) (h : w.Tracked) :
    (runTimerOps ops w).Tracked := by
  induction ops generalizing w with
  | nil => exact h
  | cons op rest ih => exact ih (op.run w) (TimerOp.run_tracked op w h)

/-- A world that has just loaded is tracked: it has no interval. -/
theorem TimerWorld.loaded.tracked (w : TimerWorld) (h : w.loaded) : w.Tracked := by
  obtain ⟨-, -, hnone⟩ := h
  refine ⟨?_, ?_⟩
  · intro x hx
    simp [hnone] at hx
  · simp [hnone]

/-- In a tracked world at most one interval of a kind is active. -/
theorem TimerWorld.Tracked.active_le_one (w : TimerWorld) (kind : TimerKind) (h : w.Tracked) :
    (w.active kind).length ≤ 1 := by
  have hpair : (w.active kind).Pairwise (fun x y => x.id ≠ y.id) :=
    h.2.sublist (List.filter_sublist _)
  have hrecord : ∀ x ∈ w.active kind, (w.slot kind).interval = some x.id := by
    intro x hx
    obtain ⟨hmem, hkind⟩ := List.mem_filter.mp hx
    have hk : x.kind = kind := by simpa using hkind
    rw [← hk]
    exact (h.1 x hmem).2.2
  match hactive : w.active kind with
  | [] => simp
  | [x] => simp
  | x :: y :: rest =>
    rw [hactive] at hpair hrecord
    have hx := hrecord x (by simp)
    have hy := hrecord y (by simp)
    rw [hx] at hy
    have hne := (List.pairwise_cons.mp hpair).1 y (by simp)
    exact absurd (Option.some.inj hy) hne

/-- C22: in every world reached from the loaded page by a sequence of
`startAccessTokenTimer`, `stopAccessTokenTimer`, `startRefreshTokenTimer`,
`stopRefreshTokenTimer` and timer ticks, at most one access-token interval and at most one
refresh-token interval are active; and after a start in such a world the only active
interval of the kind is the one just created, whose id no earlier interval has. -/
theorem timers_at_most_one (ops : List TimerOp) (w : TimerWorld) (hloaded : w.loaded) :
    ((runTimerOps ops w).active TimerKind.access).length ≤ 1
      ∧ ((runTimerOps ops w).active TimerKind.refresh).length ≤ 1
      ∧ (∀ seconds, ∃ remainingTime,
          (startAccessTokenTimer seconds (runTimerOps ops w)).active TimerKind.access
            = [{ id := (runTimerOps ops w).nextId + 1, kind := TimerKind.access
                 remainingTime := remainingTime }])
      ∧ (∀ seconds, ∃ remainingTime,
          (startRefreshTokenTimer seconds (runTimerOps ops w)).active TimerKind.refresh
            = [{ id := (runTimerOps ops w).nextId + 1, kind := TimerKind.refresh
                 remainingTime := remainingTime }])
      ∧ ∀ x ∈ (runTimerOps ops w).intervals, x.id ≠ (runTimerOps ops w).nextId + 1 := by
  have htracked := runTimerOps_tracked ops w (TimerWorld.loaded.tracked w hloaded)
  refine ⟨TimerWorld.Tracked.active_le_one _ _ htracked,
    TimerWorld.Tracked.active_le_one _ _ htracked,
    fun seconds => (startTimer_tracked TimerKind.access seconds _ htracked).2.2.2,
    fun seconds => (startTimer_tracked TimerKind.refresh seconds _ htracked).2.2.2, ?_⟩
  intro x hx
  have := (htracked.1 x hx).2.1
  omega

/-- Witness for C22: two starts of the access timer in a row, a start of the refresh timer,
a tick of the second access interval and a stop of the refresh timer leave one access
interval, the second one. -/
theorem timers_at_most_one_witness :
    ((runTimerOps
        [TimerOp.startAccessTokenTimer (some 5), TimerOp.startAccessTokenTimer (some 9),
          TimerOp.startRefreshTokenTimer (some 3), TimerOp.tick 2,
          TimerOp.stopRefreshTokenTimer]
        { access := { interval := none, timerBox := "", tokenBox := "", persisted := none }
          refresh := { interval := none, timerBox := "", tokenBox := "", persisted := none }
          intervals := [], nextId := 0, clientdata := fun _ => none }).active
        TimerKind.access).length ≤ 1
    ∧ (runTimerOps
        [TimerOp.startAccessTokenTimer (some 5), TimerOp.startAccessTokenTimer (some 9),
          TimerOp.startRefreshTokenTimer (some 3), TimerOp.tick 2,
          TimerOp.stopRefreshTokenTimer]
        { access := { interval := none, timerBox := "", tokenBox := "", persisted := none }
          refresh := { interval := none, timerBox := "", tokenBox := "", persisted := none }
          intervals := [], nextId := 0, clientdata := fun _ => none }).intervals
        = [{ id := 2, kind := TimerKind.access, remainingTime := some 7 }] :=
  ⟨(timers_at_most_one
      [TimerOp.startAccessTokenTimer (some 5), TimerOp.startAccessTokenTimer (some 9),
        TimerOp.startRefreshTokenTimer (some 3), TimerOp.tick 2,
        TimerOp.stopRefreshTokenTimer]
      { access := { interval := none, timerBox := "", tokenBox := "", persisted := none }
        refresh := { interval := none, timerBox := "", tokenBox := "", persisted := none }
        intervals := [], nextId := 0, clientdata := fun _ => none }
      ⟨rfl, rfl, rfl⟩).1,
    by decide⟩


/-! ### The ticks of one countdown -/

/-- The ticks of an interval, the last one taken apart. -/
theorem fireTimes_succ (id n : Nat) (w : TimerWorld) :
    fireTimes id (n + 1) w = fireInterval id (fireTimes id n w) := by
  induction n generalizing w with
  | zero => rfl
  | succ n ih =>
    show fireTimes id (n + 1) (fireInterval id w) = _
    rw [ih]
    rfl

/-- A tick of an interval that is not active does nothing. -/
theorem fireInterval_inactive (id : Nat) (w : TimerWorld)
    (h : ∀ x ∈ w.intervals, x.id ≠ id) : fireInterval id w = w := by
  have hfind : w.intervals.find? (fun x => x.id == id) = none := by
    rw [List.find?_eq_none]
    intro x hx
    simpa using h x hx
  simp [fireInterval, hfind]

theorem fireTimes_inactive (id n : Nat) (w : TimerWorld)
    (h : ∀ x ∈ w.intervals, x.id ≠ id) : fireTimes id n w = w := by
  induction n with
  | zero => rfl
  | succ n ih =>
    show fireTimes id n (fireInterval id w) = w
    rw [fireInterval_inactive id w h]
    exact ih

/-- The interval found by a tick when the interval is the last one created. -/
theorem find_last_interval (base : List Interval) (x : Interval)
    (hbase : ∀ y ∈ base, y.id ≠ x.id) :
    (base ++ [x]).find? (fun y => y.id == x.id) = some x := by
  have hnone : base.find? (fun y => y.id == x.id) = none := by
    rw [List.find?_eq_none]
    intro y hy
    simpa using hbase y hy
  simp [List.find?_append, hnone]

/-- A tick of a running interval with a positive remaining time: the display shows the
remaining time, the counter persisted and kept by the interval is one less. -/
theorem fireInterval_running (id : Nat) (kind : TimerKind) (w : TimerWorld) (r : Int)
    (base : List Interval) (htracked : w.Tracked)
    (hintervals : w.intervals = base ++ [{ id := id, kind := kind, remainingTime := some r }])
    (hr : 0 < r) :
    (fireInterval id w).intervals
        = base ++ [{ id := id, kind := kind, remainingTime := some (r - 1) }]
      ∧ ((fireInterval id w).slot kind).timerBox = formatTime r
      ∧ ((fireInterval id w).slot kind).persisted = some (r - 1)
      ∧ ((fireInterval id w).slot kind).interval = some id := by
  have hpair := htracked.2
  rw [hintervals, List.pairwise_append] at hpair
  have hbase : ∀ y ∈ base, y.id ≠ id := fun y hy =>
    hpair.2.2 y hy { id := id, kind := kind, remainingTime := some r }
      (List.mem_singleton.mpr rfl)
  have hvar : (w.slot kind).interval = some id :=
    (htracked.1 { id := id, kind := kind, remainingTime := some r }
      (by rw [hintervals]; simp)).2.2
  have hfind := find_last_interval base
    { id := id, kind := kind, remainingTime := some r } hbase
  have hmap : base.map (fun y : Interval =>
      if (y.id == id) = true then { y with remainingTime := some (r - 1) } else y) = base := by
    conv_rhs => rw [← List.map_id base]
    refine List.map_congr_left ?_
    intro y hy
    simp [hbase y hy]
  have hnot : ¬ r ≤ 0 := by omega
  simp only [fireInterval, hintervals, hfind, updateTimer, hnot, if_false,
    TimerWorld.intervals_setSlot, List.map_append, hmap]
  refine ⟨by simp, ?_, ?_, ?_⟩ <;> cases kind <;> simp [TimerWorld.slot, TimerWorld.setSlot]
  · simpa [TimerWorld.slot] using hvar
  · simpa [TimerWorld.slot] using hvar

/-- A tick of a running interval whose remaining time is used up: the display shows
`--:--`, the interval is cleared and its variable reset. -/
theorem fireInterval_expired (id : Nat) (kind : TimerKind) (w : TimerWorld) (r : Int)
    (base : List Interval) (htracked : w.Tracked)
    (hintervals : w.intervals = base ++ [{ id := id, kind := kind, remainingTime := some r }])
    (hr : r ≤ 0) :
    (fireInterval id w).intervals = base
      ∧ ((fireInterval id w).slot kind).timerBox = "--:--"
      ∧ ((fireInterval id w).slot kind).interval = none := by
  have hpair := htracked.2
  rw [hintervals, List.pairwise_append] at hpair
  have hbase : ∀ y ∈ base, y.id ≠ id := fun y hy =>
    hpair.2.2 y hy { id := id, kind := kind, remainingTime := some r }
      (List.mem_singleton.mpr rfl)
  have hvar : (w.slot kind).interval = some id :=
    (htracked.1 { id := id, kind := kind, remainingTime := some r }
      (by rw [hintervals]; simp)).2.2
  have hfind := find_last_interval base
    { id := id, kind := kind, remainingTime := some r } hbase
  have hmap : base.map (fun y : Interval =>
      if (y.id == id) = true then { y with remainingTime := some r } else y) = base := by
    conv_rhs => rw [← List.map_id base]
    refine List.map_congr_left ?_
    intro y hy
    simp [hbase y hy]
  have hfilter : (base ++ [({ id := id, kind := kind, remainingTime := some r } : Interval)]).filter
      (fun y => y.id != id) = base := by
    rw [List.filter_append, List.filter_eq_self.mpr (fun y hy => by simpa using hbase y hy)]
    simp
  simp only [fireInterval, hintervals, hfind, updateTimer, hr, if_true,
    TimerWorld.intervals_setSlot, hvar, clearInterval, hfilter, hmap]
  refine ⟨trivial, ?_, ?_⟩ <;> cases kind <;> simp [TimerWorld.slot, TimerWorld.setSlot]

/-- A start with a positive number of seconds: the first run of `updateTimer` shows the
seconds and persists one less, and the new interval is the last one created. -/
theorem startTimer_running (kind : TimerKind) (n : Int) (w : TimerWorld) (hn : 0 < n) :
    (∃ base, (startTimer kind (some n) w).intervals
        = base ++ [{ id := w.nextId + 1, kind := kind, remainingTime := some (n - 1) }])
      ∧ ((startTimer kind (some n) w).slot kind).timerBox = formatTime n
      ∧ ((startTimer kind (some n) w).slot kind).persisted = some (n - 1)
      ∧ (startTimer kind (some n) w).clientdata = w.clientdata := by
  have hnot : ¬ n ≤ 0 := by omega
  cases kind
  · cases hvar : truthyTimer w.access.interval <;>
      simp [startTimer, hvar, updateTimer, hnot, TimerWorld.slot, TimerWorld.setSlot]
  · cases hvar : truthyTimer w.refresh.interval <;>
      simp [startTimer, hvar, updateTimer, hnot, TimerWorld.slot, TimerWorld.setSlot]

theorem fireTimes_add (id a b : Nat) (w : TimerWorld) :
    fireTimes id (a + b) w = fireTimes id b (fireTimes id a w) := by
  induction a generalizing w with
  | zero => simp [fireTimes]
  | succ a ih =>
    rw [Nat.succ_add]
    exact ih (fireInterval id w)

/-- Ticks keep the bookkeeping and the credential map. -/
theorem fireTimes_tracked (id n : Nat) (w : TimerWorld) (h : w.Tracked) :
    (fireTimes id n w).Tracked ∧ (fireTimes id n w).clientdata = w.clientdata := by
  induction n generalizing w with
  | zero => exact ⟨h, rfl⟩
  | succ n ih =>
    obtain ⟨htracked, -, hdata⟩ := fireInterval_tracked id w h
    obtain ⟨hrest, hsame⟩ := ih (fireInterval id w) htracked
    exact ⟨hrest, hsame.trans hdata⟩

/-- The countdown while it runs: after a start with `n` seconds and `k < n` ticks of the
new interval, the interval is still the last one created. -/
theorem countdown_running (kind : TimerKind) (n : Nat) (w : TimerWorld) (h : w.Tracked)
    (k : Nat) (hk : k < n) :
    (∃ base, (fireTimes (w.nextId + 1) k (startTimer kind (some (n : Int)) w)).intervals
        = base ++ [{ id := w.nextId + 1, kind := kind
                     remainingTime := some ((n : Int) - k - 1) }])
      ∧ ((fireTimes (w.nextId + 1) k (startTimer kind (some (n : Int)) w)).slot kind).timerBox
          = formatTime ((n : Int) - k)
      ∧ ((fireTimes (w.nextId + 1) k (startTimer kind (some (n : Int)) w)).slot kind).persisted
          = some ((n : Int) - k - 1)
      ∧ ((fireTimes (w.nextId + 1) k (startTimer kind (some (n : Int)) w)).slot kind).interval
          = some (w.nextId + 1) := by
  have hstarted := (startTimer_tracked kind (some (n : Int)) w h).1
  induction k with
  | zero =>
    obtain ⟨hbase, hbox, hpersisted, -⟩ :=
      startTimer_running kind (n : Int) w (by omega)
    refine ⟨?_, ?_, ?_, (startTimer_tracked kind (some (n : Int)) w h).2.2.1⟩
    · simpa [fireTimes] using hbase
    · simpa [fireTimes] using hbox
    · simpa [fireTimes] using hpersisted
  | succ k ih =>
    obtain ⟨⟨base, hbase⟩, -, -, -⟩ := ih (by omega)
    have htracked := (fireTimes_tracked (w.nextId + 1) k _ hstarted).1
    obtain ⟨hnext, hbox, hpersisted, hvar⟩ :=
      fireInterval_running (w.nextId + 1) kind _ ((n : Int) - k - 1) base htracked hbase
        (by omega)
    rw [fireTimes_succ]
    refine ⟨⟨base, ?_⟩, ?_, ?_, hvar⟩
    · rw [hnext]
      simp only [Nat.cast_add, Nat.cast_one]
      rw [show (n : Int) - (k + 1) - 1 = (n : Int) - k - 1 - 1 by ring]
    · rw [hbox]
      simp only [Nat.cast_add, Nat.cast_one]
      rw [show (n : Int) - (k + 1) = (n : Int) - k - 1 by ring]
    · rw [hpersisted]
      simp only [Nat.cast_add, Nat.cast_one]
      rw [show (n : Int) - (k + 1) - 1 = (n : Int) - k - 1 - 1 by ring]

/-- The countdown at its end: the tick after the last second shows `--:--`, clears the
interval and resets its variable, and later ticks of the interval do nothing. -/
theorem countdown_expired (kind : TimerKind) (n : Nat) (w : TimerWorld) (h : w.Tracked)
    (hn : 1 ≤ n) :
    ((fireTimes (w.nextId + 1) n (startTimer kind (some (n : Int)) w)).slot kind).timerBox
        = "--:--"
      ∧ ((fireTimes (w.nextId + 1) n (startTimer kind (some (n : Int)) w)).slot kind).interval
          = none
      ∧ (∀ x ∈ (fireTimes (w.nextId + 1) n (startTimer kind (some (n : Int)) w)).intervals,
          x.id ≠ w.nextId + 1 ∧ x.kind ≠ kind)
      ∧ ∀ m, fireTimes (w.nextId + 1) (n + m) (startTimer kind (some (n : Int)) w)
          = fireTimes (w.nextId + 1) n (startTimer kind (some (n : Int)) w) := by
  have hstarted := (startTimer_tracked kind (some (n : Int)) w h).1
  obtain ⟨j, rfl⟩ : ∃ j, n = j + 1 := ⟨n - 1, by omega⟩
  obtain ⟨⟨base, hbase⟩, -, -, -⟩ := countdown_running kind (j + 1) w h j (by omega)
  have htracked := (fireTimes_tracked (w.nextId + 1) j _ hstarted).1
  have hpair := htracked.2
  rw [hbase, List.pairwise_append] at hpair
  obtain ⟨hgone, hbox, hvar⟩ :=
    fireInterval_expired (w.nextId + 1) kind _ _ base htracked hbase
      (by simp only [Nat.cast_add, Nat.cast_one]; omega)
  have hlast := (fireTimes_tracked (w.nextId + 1) (j + 1) _ hstarted).1
  rw [fireTimes_succ]
  rw [fireTimes_succ] at hlast
  have hfresh : ∀ x ∈ (fireInterval (w.nextId + 1)
      (fireTimes (w.nextId + 1) j (startTimer kind (some ((j + 1 : Nat) : Int)) w))).intervals,
      x.id ≠ w.nextId + 1 ∧ x.kind ≠ kind := by
    intro x hx
    refine ⟨?_, TimerWorld.Tracked.none_active _ kind hlast (by rw [hvar]; rfl) x hx⟩
    rw [hgone] at hx
    exact hpair.2.2 x hx _ (List.mem_singleton.mpr rfl)
  refine ⟨hbox, hvar, hfresh, ?_⟩
  intro m
  rw [fireTimes_add, fireTimes_succ]
  exact fireTimes_inactive _ m _ (fun x hx => (hfresh x hx).1)

/-- C23: for a countdown of either kind started with `n ≥ 1` seconds in a world reached
from the loaded page, the run of `updateTimer` inside the start and the first `n - 1` ticks
of the new interval (`k = 0, ..., n - 1` in all) each display the remaining time
`r = n - k` as minutes and seconds, each padded to two digits, and persist `r - 1`, with
the interval on record; tick `n` displays `--:--`, clears the interval and resets its
variable, and later ticks do nothing; the credential map is the same after every tick. -/
theorem countdown_ticks (kind : TimerKind) (n : Nat) (ops : List TimerOp) (w : TimerWorld)
    (hloaded : w.loaded) (hn : 1 ≤ n) :
    (∀ k : Nat, k < n →
        ((fireTimes ((runTimerOps ops w).nextId + 1) k
            (startTimer kind (some (n : Int)) (runTimerOps ops w))).slot kind).timerBox
          = padStart2 (toString (((n : Int) - k) / 60)) ++ ":"
              ++ padStart2 (toString (((n : Int) - k) % 60))
        ∧ ((fireTimes ((runTimerOps ops w).nextId + 1) k
            (startTimer kind (some (n : Int)) (runTimerOps ops w))).slot kind).persisted
          = some ((n : Int) - k - 1)
        ∧ ((fireTimes ((runTimerOps ops w).nextId + 1) k
            (startTimer kind (some (n : Int)) (runTimerOps ops w))).slot kind).interval
          = some ((runTimerOps ops w).nextId + 1))
      ∧ ((fireTimes ((runTimerOps ops w).nextId + 1) n
            (startTimer kind (some (n : Int)) (runTimerOps ops w))).slot kind).timerBox
          = "--:--"
      ∧ ((fireTimes ((runTimerOps ops w).nextId + 1) n
            (startTimer kind (some (n : Int)) (runTimerOps ops w))).slot kind).interval = none
      ∧ (fireTimes ((runTimerOps ops w).nextId + 1) n
            (startTimer kind (some (n : Int)) (runTimerOps ops w))).active kind = []
      ∧ (∀ m, fireTimes ((runTimerOps ops w).nextId + 1) (n + m)
            (startTimer kind (some (n : Int)) (runTimerOps ops w))
          = fireTimes ((runTimerOps ops w).nextId + 1) n
            (startTimer kind (some (n : Int)) (runTimerOps ops w)))
      ∧ ∀ k, (fireTimes ((runTimerOps ops w).nextId + 1) k
            (startTimer kind (some (n : Int)) (runTimerOps ops w))).clientdata
          = (runTimerOps ops w).clientdata := by
  have htracked := runTimerOps_tracked ops w (TimerWorld.loaded.tracked w hloaded)
  obtain ⟨hbox, hvar, hgone, hlater⟩ := countdown_expired kind n _ htracked hn
  refine ⟨?_, hbox, hvar, ?_, hlater, ?_⟩
  · intro k hk
    obtain ⟨-, hshown, hpersisted, hrecord⟩ := countdown_running kind n _ htracked k hk
    exact ⟨hshown, hpersisted, hrecord⟩
  · rw [TimerWorld.active, List.filter_eq_nil_iff]
    intro x hx
    simpa using (hgone x hx).2
  · intro k
    rw [(fireTimes_tracked _ k _ (startTimer_tracked kind _ _ htracked).1).2]
    exact (startTimer_running kind (n : Int) _ (by omega)).2.2.2

/-- Witness for C23: an access-token countdown of 65 seconds started on the loaded page
shows `01:05` at once and persists 64; after its first tick it shows `01:04`. -/
theorem countdown_ticks_witness :
    ((fireTimes 1 0
        (startAccessTokenTimer (some 65)
          { access := { interval := none, timerBox := "", tokenBox := "", persisted := none }
            refresh := { interval := none, timerBox := "", tokenBox := "", persisted := none }
            intervals := [], nextId := 0, clientdata := fun _ => none })).access.timerBox
        = "01:05"
      ∧ (fireTimes 1 0
        (startAccessTokenTimer (some 65)
          { access := { interval := none, timerBox := "", tokenBox := "", persisted := none }
            refresh := { interval := none, timerBox := "", tokenBox := "", persisted := none }
            intervals := [], nextId := 0, clientdata := fun _ => none })).access.persisted
        = some 64
      ∧ (fireTimes 1 0
        (startAccessTokenTimer (some 65)
          { access := { interval := none, timerBox := "", tokenBox := "", persisted := none }
            refresh := { interval := none, timerBox := "", tokenBox := "", persisted := none }
            intervals := [], nextId := 0, clientdata := fun _ => none })).access.interval
        = some 1)
    ∧ (fireTimes 1 1
        (startAccessTokenTimer (some 65)
          { access := { interval := none, timerBox := "", tokenBox := "", persisted := none }
            refresh := { interval := none, timerBox := "", tokenBox := "", persisted := none }
            intervals := [], nextId := 0, clientdata := fun _ => none })).access.timerBox
        = "01:04" :=
  ⟨(countdown_ticks TimerKind.access 65 []
      { access := { interval := none, timerBox := "", tokenBox := "", persisted := none }
        refresh := { interval := none, timerBox := "", tokenBox := "", persisted := none }
        intervals := [], nextId := 0, clientdata := fun _ => none }
      ⟨rfl, rfl, rfl⟩ (by decide)).1 0 (by decide),
    ((countdown_ticks TimerKind.access 65 []
      { access := { interval := none, timerBox := "", tokenBox := "", persisted := none }
        refresh := { interval := none, timerBox := "", tokenBox := "", persisted := none }
        intervals := [], nextId := 0, clientdata := fun _ => none }
      ⟨rfl, rfl, rfl⟩ (by decide)).1 1 (by decide)).1⟩


/-! ### Restoring the timers on reload -/

theorem startTimer_sameButCounters (kind : TimerKind) (seconds : Option Int)
    (w v : TimerWorld) (h : w.SameButCounters v) :
    (startTimer kind seconds w).SameButCounters (startTimer kind seconds v) := by
  obtain ⟨⟨ai, ab, ak, ap⟩, ⟨ri, rb, rk, rp⟩, ints, next, data⟩ := w
  obtain ⟨⟨ai2, ab2, ak2, ap2⟩, ⟨ri2, rb2, rk2, rp2⟩, ints2, next2, data2⟩ := v
  simp only [TimerWorld.SameButCounters] at h
  obtain ⟨rfl, rfl, rfl, rfl, rfl, rfl, rfl, rfl, rfl⟩ := h
  cases kind <;> cases seconds <;>
    simp only [TimerWorld.SameButCounters, startTimer, updateTimer, TimerWorld.slot,
      TimerWorld.setSlot] <;>
    split_ifs <;> simp

theorem stopTimer_sameButCounters (kind : TimerKind) (w v : TimerWorld)
    (h : w.SameButCounters v) : (stopTimer kind w).SameButCounters (stopTimer kind v) := by
  obtain ⟨⟨ai, ab, ak, ap⟩, ⟨ri, rb, rk, rp⟩, ints, next, data⟩ := w
  obtain ⟨⟨ai2, ab2, ak2, ap2⟩, ⟨ri2, rb2, rk2, rp2⟩, ints2, next2, data2⟩ := v
  simp only [TimerWorld.SameButCounters] at h
  obtain ⟨rfl, rfl, rfl, rfl, rfl, rfl, rfl, rfl, rfl⟩ := h
  cases kind <;>
    simp only [TimerWorld.SameButCounters, stopTimer, TimerWorld.slot, TimerWorld.setSlot] <;>
    split_ifs <;> simp

theorem restoreTimer_sameButCounters (kind : TimerKind) (token : Option String)
    (expiry : Option Int) (now : Int) (w v : TimerWorld) (h : w.SameButCounters v) :
    (restoreTimer kind token expiry now w).SameButCounters
      (restoreTimer kind token expiry now v) := by
  have hshown : (w.setSlot kind { w.slot kind with timerBox := "--:--" }).SameButCounters
      (v.setSlot kind { v.slot kind with timerBox := "--:--" }) := by
    obtain ⟨⟨ai, ab, ak, ap⟩, ⟨ri, rb, rk, rp⟩, ints, next, data⟩ := w
    obtain ⟨⟨ai2, ab2, ak2, ap2⟩, ⟨ri2, rb2, rk2, rp2⟩, ints2, next2, data2⟩ := v
    simp only [TimerWorld.SameButCounters] at h
    obtain ⟨rfl, rfl, rfl, rfl, rfl, rfl, rfl, rfl, rfl⟩ := h
    cases kind <;> simp [TimerWorld.SameButCounters, TimerWorld.slot, TimerWorld.setSlot]
  unfold restoreTimer
  split_ifs
  · exact startTimer_sameButCounters kind _ w v h
  · exact hshown
  · exact hshown

/-- The function `restoreTokenTimers` does not read the persisted counters: on two worlds
that differ at most in them it gives worlds that differ at most in them. -/
theorem restoreTokenTimers_sameButCounters (clienturl : Option String) (now : Int)
    (w v : TimerWorld) (h : w.SameButCounters v) :
    (restoreTokenTimers clienturl now w).SameButCounters
      (restoreTokenTimers clienturl now v) := by
  have hdata : w.clientdata = v.clientdata := h.2.2.1
  have hstopped : (stopRefreshTokenTimer (stopAccessTokenTimer w)).SameButCounters
      (stopRefreshTokenTimer (stopAccessTokenTimer v)) :=
    stopTimer_sameButCounters _ _ _ (stopTimer_sameButCounters _ _ _ h)
  cases clienturl with
  | none => exact hstopped
  | some url =>
    by_cases hempty : (url == "") = true
    · simpa [restoreTokenTimers, hempty] using hstopped
    · simp only [restoreTokenTimers, hempty, hdata]
      exact restoreTimer_sameButCounters _ _ _ _ _ _
        (restoreTimer_sameButCounters _ _ _ _ _ _ h)

/-- C24: for a tenant URL and a record with a token whose expiry lies after `now`,
`restoreTokenTimers` starts the countdown of that token with
`floor((expiry - now) / 1000)` seconds, for the access token and for the refresh token
alike; and two runs on worlds that differ only in the persisted counters
`accessTokenTimer` and `refreshTokenTimer` give the same intervals, with the same remaining
times, the same interval variables and the same displays. -/
theorem restoreTokenTimers_start_value (url : String) (now : Int) (w : TimerWorld)
    (hurl : url ≠ "") :
    (∀ expiry : Int,
        truthyString (w.clientdata.recordOrEmpty url).accesstoken = true →
        (w.clientdata.recordOrEmpty url).expirationdatetime = some expiry → now < expiry →
        restoreTokenTimers (some url) now w
          = restoreTimer TimerKind.refresh (w.clientdata.recordOrEmpty url).refreshtoken
              (w.clientdata.recordOrEmpty url).refreshExpirationDateTime now
              (startAccessTokenTimer (some ((expiry - now) / 1000)) w))
      ∧ (∀ (expiry : Int) (v : TimerWorld),
        truthyString (w.clientdata.recordOrEmpty url).refreshtoken = true →
        (w.clientdata.recordOrEmpty url).refreshExpirationDateTime = some expiry →
        now < expiry →
        restoreTimer TimerKind.refresh (w.clientdata.recordOrEmpty url).refreshtoken
            (w.clientdata.recordOrEmpty url).refreshExpirationDateTime now v
          = startRefreshTokenTimer (some ((expiry - now) / 1000)) v)
      ∧ ∀ accessTokenTimer refreshTokenTimer : Option Int,
          (restoreTokenTimers (some url) now
              (w.withCounters accessTokenTimer refreshTokenTimer)).SameButCounters
            (restoreTokenTimers (some url) now w) := by
  have hne : (url == "") = false := beq_eq_false_iff_ne.mpr hurl
  refine ⟨?_, ?_, ?_⟩
  · intro expiry htoken hexpiry hbefore
    simp [restoreTokenTimers, hne, restoreTimer, htoken, hexpiry, isBefore, hbefore,
      remainingSeconds, startAccessTokenTimer]
  · intro expiry v htoken hexpiry hbefore
    simp [restoreTimer, htoken, hexpiry, isBefore, hbefore, remainingSeconds,
      startRefreshTokenTimer]
  · intro accessTokenTimer refreshTokenTimer
    refine restoreTokenTimers_sameButCounters _ _ _ _ ?_
    simp [TimerWorld.SameButCounters, TimerWorld.withCounters]

/-- Witness for C24: at the instant 1000 the access token expires at 66500, so its
countdown starts with 65 seconds and shows `01:05`, whatever the persisted counters
hold. -/
theorem restoreTokenTimers_start_value_witness :
    (restoreTokenTimers (some "https://foo-nosso.prd.mykronos.com/") 1000
        { access := { interval := none, timerBox := "", tokenBox := "", persisted := none }
          refresh := { interval := none, timerBox := "", tokenBox := "", persisted := none }
          intervals := [], nextId := 0
          clientdata := ClientData.set (fun _ => none) "https://foo-nosso.prd.mykronos.com/"
            { ClientRecord.empty with
              accesstoken := some "T", refreshtoken := some "R"
              expirationdatetime := some 66500
              refreshExpirationDateTime := some 28801000 } }).access.timerBox = "01:05"
      ∧ (restoreTokenTimers (some "https://foo-nosso.prd.mykronos.com/") 1000
          (TimerWorld.withCounters (some 3) (some 7)
            { access := { interval := none, timerBox := "", tokenBox := "", persisted := none }
              refresh :=
                { interval := none, timerBox := "", tokenBox := "", persisted := none }
              intervals := [], nextId := 0
              clientdata :=
                ClientData.set (fun _ => none) "https://foo-nosso.prd.mykronos.com/"
                  { ClientRecord.empty with
                    accesstoken := some "T", refreshtoken := some "R"
                    expirationdatetime := some 66500
                    refreshExpirationDateTime := some 28801000 } })).intervals
        = [{ id := 1, kind := TimerKind.access, remainingTime := some 64 },
            { id := 2, kind := TimerKind.refresh, remainingTime := some 28799 }] :=
  ⟨(congrArg (fun v : TimerWorld => v.access.timerBox)
      ((restoreTokenTimers_start_value "https://foo-nosso.prd.mykronos.com/" 1000
        { access := { interval := none, timerBox := "", tokenBox := "", persisted := none }
          refresh := { interval := none, timerBox := "", tokenBox := "", persisted := none }
          intervals := [], nextId := 0
          clientdata := ClientData.set (fun _ => none) "https://foo-nosso.prd.mykronos.com/"
            { ClientRecord.empty with
              accesstoken := some "T", refreshtoken := some "R"
              expirationdatetime := some 66500
              refreshExpirationDateTime := some 28801000 } }
        (by decide)).1 66500 (by decide) (by decide) (by decide))).trans (by decide),
    by decide⟩

end Hermes
